import Mathlib

/-!
# pycraft renderer (`render_c_module.c`): a verification development

A shallow embedding of the lighting-and-diff rendering pipeline of
`render_c_module.c`, followed by theorems about it.

Conventions of the embedding.

* `long` values are `Int` (signed overflow is undefined in C and is not
  modelled); `size_t` values are `Nat` reduced modulo `2 ^ 64` where the C code
  computes them.
* `float` / `double` values are `Flt`: NaN, the two infinities, or a rational.
  Every arithmetic operation computes the exact rational and then applies the
  rounding function of its precision (`Env.rnd32`, `Env.rnd64`), which is a
  parameter.  Signed zeros are not told apart.
* The collaborators included from `colours.c`, `data.c` and `render.h` are not
  part of the file; they are the fields of `Env`.
* Module statics (`last_frame`, `resize`, `redraw_all`, `width`, `height`) and
  the function statics of `render_map` (`frame`, `lighting_buffer`) are the
  fields of `State`, passed explicitly.
-/

namespace Pycraft

/-! ## Floating point values -/

/-- A `float` or `double` value. -/
inductive Flt where
  | nan
  | ninf
  | pinf
  | fin (q : ℚ)
deriving DecidableEq

namespace Flt

/-- The C comparison `a < b`. -/
def lt : Flt → Flt → Bool
  | nan, _ => false
  | _, nan => false
  | fin a, fin b => decide (a < b)
  | ninf, ninf => false
  | ninf, _ => true
  | _, ninf => false
  | pinf, _ => false
  | fin _, pinf => true

/-- The C comparison `a == b`. -/
def eq : Flt → Flt → Bool
  | nan, _ => false
  | _, nan => false
  | fin a, fin b => decide (a = b)
  | ninf, ninf => true
  | pinf, pinf => true
  | _, _ => false

/-- The C comparison `a >= b`. -/
def ge (a b : Flt) : Bool := lt b a || eq a b

/-- The C comparison `a > b`. -/
def gt (a b : Flt) : Bool := lt b a

/-- Sign of a value that is not NaN: `-1`, `0` or `1`. -/
def sign : Flt → Int
  | nan => 0
  | ninf => -1
  | pinf => 1
  | fin q => if q < 0 then -1 else if q = 0 then 0 else 1

/-- Addition, rounded by `rnd`. -/
def add (rnd : ℚ → Flt) : Flt → Flt → Flt
  | nan, _ => nan
  | _, nan => nan
  | fin a, fin b => rnd (a + b)
  | pinf, ninf => nan
  | ninf, pinf => nan
  | pinf, _ => pinf
  | _, pinf => pinf
  | ninf, _ => ninf
  | _, ninf => ninf

/-- Negation (exact). -/
def neg : Flt → Flt
  | nan => nan
  | ninf => pinf
  | pinf => ninf
  | fin q => fin (-q)

/-- Subtraction, rounded by `rnd`. -/
def sub (rnd : ℚ → Flt) (a b : Flt) : Flt :=
  match a, b with
  | fin x, fin y => rnd (x - y)
  | _, _ => add rnd a (neg b)

/-- An infinity of the given sign. -/
def infOfSign (s : Int) : Flt := if s < 0 then ninf else pinf

/-- Multiplication, rounded by `rnd`. -/
def mul (rnd : ℚ → Flt) : Flt → Flt → Flt
  | nan, _ => nan
  | _, nan => nan
  | fin a, fin b => rnd (a * b)
  | a, b => if sign a * sign b = 0 then nan else infOfSign (sign a * sign b)

/-- Division, rounded by `rnd`.  A zero divisor counts as `+0`. -/
def div (rnd : ℚ → Flt) : Flt → Flt → Flt
  | nan, _ => nan
  | _, nan => nan
  | fin a, fin b =>
      if b = 0 then (if a = 0 then nan else infOfSign (sign (fin a)))
      else rnd (a / b)
  | fin _, _ => fin 0
  | a, fin b => infOfSign (sign a * (if b < 0 then -1 else 1))
  | _, _ => nan

/-- The C library call `pow(x, 2.0f)`, a `double` operation. -/
def pow2 (rnd : ℚ → Flt) : Flt → Flt
  | nan => nan
  | ninf => pinf
  | pinf => pinf
  | fin q => rnd (q * q)

/-- The C library call `fmin(a, b)`: a NaN argument yields the other one. -/
def fmin : Flt → Flt → Flt
  | nan, b => b
  | a, nan => a
  | a, b => if lt b a then b else a

/-- Conversion to another precision (`double` to `float`), rounded by `rnd`. -/
def conv (rnd : ℚ → Flt) : Flt → Flt
  | fin q => rnd q
  | x => x

/-- Conversion of an integer to floating point, rounded by `rnd`. -/
def ofInt (rnd : ℚ → Flt) (i : Int) : Flt := rnd (i : ℚ)

/-- Conversion of a floating-point value to `int`, truncating toward zero.
Outside the finite values the conversion is undefined in C; `0` stands for it. -/
def truncToInt : Flt → Int
  | fin q => Int.tdiv q.num (q.den : Int)
  | _ => 0

end Flt

/-! ## Data of `render.h` -/

/-- `Colour`: three `float` components, read as `r, g, b` or as `h, s, v`. -/
structure Colour where
  r : Flt
  g : Flt
  b : Flt
deriving DecidableEq

/-- The `v` member of a `Colour` shares storage with `b`. -/
def Colour.v (c : Colour) : Flt := c.b

/-- Assignment to the `v` member of a `Colour`. -/
def Colour.setV (c : Colour) (x : Flt) : Colour := { c with b := x }

/-- `PrintableChar`: a resolved cell. -/
structure PrintableChar where
  character : Nat
  fg : Colour
  bg : Colour
  style : Int
deriving DecidableEq

/-- The `colours` member of `BlockData`. -/
structure BlockColours where
  fg : Colour
  bg : Colour
  style : Int
deriving DecidableEq

/-- `BlockData`: one row of the block table of `data.c`. -/
structure BlockData where
  character : Nat
  character_left : Nat
  character_right : Nat
  colours : BlockColours
  solid : Bool
deriving DecidableEq

/-- `Settings`. -/
structure Settings where
  terminal_output : Int
  fancy_lights : Int
  colours : Int
deriving DecidableEq

/-- The collaborators that `render_c_module.c` includes from `colours.c`,
`data.c` and `render.h`, and the two rounding functions of the arithmetic. -/
structure Env where
  /-- Rounding to `float`. -/
  rnd32 : ℚ → Flt
  /-- Rounding to `double`. -/
  rnd64 : ℚ → Flt
  /-- The size of a `wchar_t` in bytes. -/
  sizeof_wchar_t : Nat
  /-- The block table lookup `get_block_data` of `data.c`. -/
  get_block_data : Nat → BlockData
  /-- The constant `world_gen_height` of `data.c`. -/
  world_gen_height : Int
  /-- The constant `COLOUR_CODE_MAX_LEN` of `colours.c`. -/
  COLOUR_CODE_MAX_LEN : Nat
  /-- The number of wide characters `colour_str` writes for a cell. -/
  colour_str : PrintableChar → Settings → Nat
  /-- The comparison `colour_eq` of `colours.c`. -/
  colour_eq : Colour → Colour → Bool
  /-- The conversion `rgb_to_hsv` of `colours.c`. -/
  rgb_to_hsv : Colour → Colour
  /-- The conversion `hsv_to_rgb` of `colours.c`. -/
  hsv_to_rgb : Colour → Colour
  /-- The interpolation `lerp_colour` of `colours.c`. -/
  lerp_colour : Colour → Flt → Colour → Colour
  /-- The interpolation `lerp` of `colours.c`. -/
  lerp : Flt → Flt → Flt → Flt
  /-- The constant `CYAN` of `colours.c`. -/
  CYAN : Colour

/-! ## Python values received by `render_map` -/

/-- A column of the map: a Python list of one-character strings (each read by
`PyString_AsChar`, which yields `0` for what is not a non-empty string), or an
object that is not a list. -/
inductive PyColumn where
  | list (items : List Nat)
  | notList
deriving DecidableEq

/-- The `map` argument: a Python dict from world x to column, in iteration
order, or an object that is not a dict. -/
inductive PyMap where
  | dict (cols : List (Int × PyColumn))
  | notDict
deriving DecidableEq

/-- A light: the dict entries `x`, `y`, `z`, `radius`, `colour` and the
optional `source_width`, `source_height`. -/
structure PyLight where
  x : Int
  y : Int
  z : Int
  radius : Int
  colour : Colour
  source_width : Option Int
  source_height : Option Int
deriving DecidableEq

/-- A foreground object: the dict entries `x`, `y`, `char` and the optional
`colour`. -/
structure PyObj where
  x : Int
  y : Int
  char : Nat
  colour : Option Colour
deriving DecidableEq

/-- A background object: the dict entries `x`, `y`, `width`, `height`,
`colour`. -/
structure PyBkObj where
  x : Int
  y : Int
  width : Int
  height : Int
  colour : Option Colour
deriving DecidableEq

/-- `PyDict_GetItem(map, x)` on the map argument. -/
def PyMap.getItem : PyMap → Int → Option PyColumn
  | PyMap.dict cols, x => (cols.find? (fun kv => kv.1 == x)).map Prod.snd
  | PyMap.notDict, _ => none

/-- `get_block`: the glyph at `(x, y)`, `0` when there is none. -/
def get_block (x y : Int) (map : PyMap) : Nat :=
  match map.getItem x with
  | some (PyColumn.list items) =>
      if y < (items.length : Int) then
        (if 0 ≤ y then items.getD y.toNat 0 else 0)
      else 0
  | _ => 0

/-- `lightness`: the luminance of a colour. -/
def lightness (E : Env) (rgb : Colour) : Flt :=
  Flt.add E.rnd32
    (Flt.add E.rnd32
      (Flt.mul E.rnd32 (E.rnd32 (2126 / 10000)) rgb.r)
      (Flt.mul E.rnd32 (E.rnd32 (7152 / 10000)) rgb.g))
    (Flt.mul E.rnd32 (E.rnd32 (722 / 10000)) rgb.b)

/-- `circle_dist`: the elliptical distance, computed in `double` and returned
as `float`. -/
def circle_dist (E : Env) (test_x test_y x y r : Int) : Flt :=
  Flt.conv E.rnd32
    (Flt.add E.rnd64
      (Flt.div E.rnd64
        (Flt.pow2 E.rnd64 (Flt.ofInt E.rnd64 (test_x - x)))
        (Flt.pow2 E.rnd64 (Flt.ofInt E.rnd64 r)))
      (Flt.div E.rnd64
        (Flt.pow2 E.rnd64 (Flt.ofInt E.rnd64 (test_y - y)))
        (Flt.pow2 E.rnd64
          (Flt.mul E.rnd32 (Flt.ofInt E.rnd32 r) (E.rnd32 (1 / 2))))))

/-- `get_z_at_pos`. -/
def get_z_at_pos (E : Env) (x y : Int) (map : PyMap) (slice_heights : Int → Int) : Int :=
  if (E.get_block_data (get_block x y map)).solid
      || decide (E.world_gen_height - y < slice_heights x) then 0 else -1

/-- `lit`: the elliptical distance clamped to `1.0f`. -/
def lit (E : Env) (x y lx ly l_radius : Int) : Flt :=
  Flt.conv E.rnd32 (Flt.fmin (circle_dist E x y lx ly l_radius) (Flt.fin 1))

/-- `get_char`: the glyph of a block after edge substitution. -/
def get_char (E : Env) (x y : Int) (map : PyMap) (pixel : BlockData) : Nat :=
  let left_block_key := get_block (x - 1) y map
  let right_block_key := get_block (x + 1) y map
  let below_block_key := get_block x (y + 1) map
  if below_block_key == 0 || !(E.get_block_data below_block_key).solid then
    if left_block_key != 0 && (E.get_block_data left_block_key).solid
        && pixel.character_left != 0 then
      pixel.character_left
    else if right_block_key != 0 && (E.get_block_data right_block_key).solid
        && pixel.character_right != 0 then
      pixel.character_right
    else pixel.character
  else pixel.character

/-- `printable_char_eq`. -/
def printable_char_eq (E : Env) (a b : PrintableChar) : Bool :=
  a.character == b.character && E.colour_eq a.fg b.fg && E.colour_eq a.bg b.bg
    && a.style == b.style

/-! ## Module state -/

/-- `struct PixelLighting`: one entry of the lighting buffer. -/
structure PixelLighting where
  lightness : Flt
  lightness_set_on_frame : Int
  background_colour : Colour
  background_colour_lightness : Flt
  background_colour_set_on_frame : Int
deriving DecidableEq

/-- `LightingBuffer`.  `screen` is `none` for a null pointer, otherwise the
contents of the memory it points to, by element offset. -/
structure LightingBuffer where
  current_frame : Int
  screen : Option (Int → PixelLighting)

/-- One cell written to the output buffer: the viewport position whose cursor
sequence `pos_str` wrote and the cell whose colour sequence `colour_str` wrote. -/
structure Emitted where
  x : Int
  y : Int
  c : PrintableChar
deriving DecidableEq

/-- `ScreenBuffer`.  `buffer` is `none` for a null pointer; otherwise it lists
the cells whose sequences lie in the buffer before the write cursor, in the
order they were written. -/
structure ScreenBuffer where
  buffer : Option (List Emitted)
  cur_pos : Nat
  size : Nat

/-- The statics of the module and of `render_map`. -/
structure State where
  last_frame : Option (Nat → PrintableChar)
  resize : Bool
  redraw_all : Bool
  width : Int
  height : Int
  frame : ScreenBuffer
  lighting_buffer : LightingBuffer

/-- The statics at program start: null pointers and zeroes. -/
def State.initial : State where
  last_frame := none
  resize := false
  redraw_all := false
  width := 0
  height := 0
  frame := ⟨none, 0, 0⟩
  lighting_buffer := ⟨0, none⟩

/-- What the C library and the C stack answer during one call of `render_map`:
the results of the three `realloc` calls (`none` or `false` for a null result,
otherwise the contents of the returned memory), the indeterminate initial
contents of the local `printable_char` at each cell, and the value `wprintf`
returns. -/
structure Host where
  realloc_frame_buffer : Bool
  realloc_last_frame : Option (Nat → PrintableChar)
  realloc_screen : Option (Int → PixelLighting)
  stack : Int → Int → PrintableChar
  wprintf : Int

/-! ## Cursor sequences -/

/-- Number of characters `%ld` prints for a value. -/
def dec_len (n : Int) : Nat :=
  if n < 0 then 1 + (Nat.toDigits 10 n.natAbs).length
  else (Nat.toDigits 10 n.toNat).length

/-- `POS_STR_FORMAT_MAX_LEN`: `sizeof` of the wide string literal
`L"\033[%ld;%ldH"`, which has ten characters and a terminator. -/
def POS_STR_FORMAT_MAX_LEN (E : Env) : Nat := 11 * E.sizeof_wchar_t

/-- `pos_str`: the value returned, as a `size_t`.  `swprintf` returns the
number of characters written, or a negative value (here `-1`) when they do not
fit in `POS_STR_FORMAT_MAX_LEN` characters with the terminator. -/
def pos_str (E : Env) (x y : Int) : Nat :=
  let n := 4 + dec_len (y + 1) + dec_len (x + 1)
  if n < POS_STR_FORMAT_MAX_LEN E then n else 2 ^ 64 - 1

/-! ## Lighting -/

/-- Conversion of a `long` argument to an `int` parameter. -/
def to_int (v : Int) : Int := (v + 2 ^ 31) % 2 ^ 32 - 2 ^ 31

/-- `struct Light`, as filled by `create_lighting_buffer`. -/
structure Light where
  x : Int
  y : Int
  z : Int
  radius : Int
  rgb : Colour
  hsv : Colour
deriving DecidableEq

/-- `PyColour_AsColour`.  For a null argument only `r` is set, to `-1`; the
other two components are left unset by the C code (`0` stands for them), and
every caller modelled here replaces such a colour as a whole. -/
def PyColour_AsColour : Option Colour → Colour
  | some c => c
  | none => ⟨Flt.fin (-1), Flt.fin 0, Flt.fin 0⟩

/-- `get_long_from_PyDict_or`, on an optional entry. -/
def get_long_from_PyDict_or (item : Option Int) (default_result : Int) : Int :=
  match item with
  | some v => v
  | none => default_result

/-- The values `lo, lo + 1, …` of a `for` loop that runs `n` times. -/
def loop_range (lo : Int) (n : Nat) : List Int :=
  (List.range n).map (fun (k : Nat) => lo + (k : Int))

/-- Inner loop of `is_light_behind_a_solid_block` over the rows of one column;
`break` leaves the loop with `result = false`. -/
def is_light_behind_a_solid_block_rows (E : Env) (map : PyMap) (left_edge x : Int) :
    List Int → Bool → Bool
  | [], result => result
  | y :: ys, result =>
      let block_key := get_block (left_edge + x) y map
      if block_key == 0 || !(E.get_block_data block_key).solid then false
      else is_light_behind_a_solid_block_rows E map left_edge x ys result

/-- `is_light_behind_a_solid_block`. -/
def is_light_behind_a_solid_block (E : Env) (lx ly l_height l_width : Int) (map : PyMap)
    (left_edge : Int) : Bool :=
  (loop_range lx l_width.toNat).foldl
    (fun result x =>
      is_light_behind_a_solid_block_rows E map left_edge x
        ((List.range l_height.toNat).map (fun (k : Nat) => ly - (k : Int))) result)
    true

/-- The buffer row of the ground surface of a world column, as computed in
`check_light_z` and in the daylight fill:
`(world_gen_height - ground_height_world) - top_edge` in `float`. -/
def ground_height_buffer (E : Env) (slice_heights : Int → Int) (world_x top_edge : Int) : Flt :=
  let ground_height_world := Flt.conv E.rnd32 (Flt.ofInt E.rnd64 (slice_heights world_x))
  Flt.sub E.rnd32
    (Flt.sub E.rnd32 (Flt.ofInt E.rnd32 E.world_gen_height) ground_height_world)
    (Flt.ofInt E.rnd32 top_edge)

/-- `check_light_z`: whether a light is added to the lightness of the buffer. -/
def check_light_z (E : Env) (py_light : PyLight) (light : Light) (left_edge top_edge : Int)
    (map : PyMap) (slice_heights : Int → Int) : Bool :=
  if light.z = -2 then false
  else if light.z = -1 then
    let buffer_ly := light.y - top_edge
    let ghb := ground_height_buffer E slice_heights (left_edge + light.x) top_edge
    if Flt.lt (Flt.ofInt E.rnd32 buffer_ly) ghb then
      let l_width := get_long_from_PyDict_or py_light.source_width 1
      let l_height := get_long_from_PyDict_or py_light.source_height 1
      if !(is_light_behind_a_solid_block E light.x light.y l_height l_width map left_edge) then
        true
      else false
    else false
  else if light.z = 0 then true
  else false

/-- `add_light_pixel_lightness_to_lighting_buffer`, on the pixel pointed to. -/
def add_light_pixel_lightness_to_lighting_buffer (E : Env) (current_frame : Int)
    (pixel : PixelLighting) (light_distance : Flt) (light : Light) : PixelLighting :=
  let light_distance := Flt.mul E.rnd32 light_distance (lightness E light.rgb)
  let this_lightness := Flt.sub E.rnd32 (Flt.fin 1) light_distance
  if Flt.lt pixel.lightness this_lightness
      || decide (pixel.lightness_set_on_frame ≠ current_frame) then
    { pixel with lightness := this_lightness, lightness_set_on_frame := current_frame }
  else pixel

/-- `add_light_pixel_colour_to_lighting_buffer`, on the pixel pointed to. -/
def add_light_pixel_colour_to_lighting_buffer (E : Env) (current_frame : Int)
    (pixel : PixelLighting) (x y : Int) (light_distance : Flt) (light : Light) (map : PyMap)
    (sky_colour : Colour) (left_edge top_edge : Int) : PixelLighting :=
  let visible : Bool :=
    if pixel.background_colour_set_on_frame = current_frame then true
    else
      let block_key := get_block (left_edge + x) (top_edge + y) map
      if block_key == 0
          || Flt.eq (E.get_block_data block_key).colours.bg.r (Flt.fin (-1)) then true
      else false
  if visible then
    let hsv := E.lerp_colour light.hsv light_distance sky_colour
    let rgb := E.hsv_to_rgb hsv
    let pixel_background_colour_lightness := lightness E rgb
    if Flt.lt pixel.background_colour_lightness pixel_background_colour_lightness
        || decide (pixel.background_colour_set_on_frame ≠ current_frame) then
      { pixel with
          background_colour := rgb
          background_colour_lightness := pixel_background_colour_lightness
          background_colour_set_on_frame := current_frame }
    else pixel
  else pixel

/-- `get_lighting_buffer_pixel`: the element offset of the pixel in `screen`. -/
def get_lighting_buffer_pixel (width : Int) (x y : Int) : Int :=
  to_int y * width + to_int x

/-- The lightness the daylight fill computes for row `y` of a column whose
ground surface is at buffer row `ghb`. -/
def daylight_lightness (E : Env) (day ghb : Flt) (y : Int) : Flt :=
  if Flt.lt (Flt.ofInt E.rnd32 y) ghb then day
  else if Flt.lt (Flt.ofInt E.rnd32 y) (Flt.add E.rnd32 ghb (Flt.fin 3)) then
    let d_ground := to_int (Flt.truncToInt (Flt.sub E.rnd32 (Flt.ofInt E.rnd32 y) ghb))
    let ground_fade :=
      Flt.conv E.rnd32
        (Flt.fmin (Flt.fin 1) (Flt.div E.rnd32 (Flt.ofInt E.rnd32 d_ground) (Flt.fin 3)))
    E.lerp day ground_fade (Flt.fin 0)
  else Flt.fin 0

/-- The update of one pixel by the daylight fill. -/
def daylight_pixel (current_frame : Int) (lightness : Flt) (pixel : PixelLighting) :
    PixelLighting :=
  if Flt.lt pixel.lightness lightness
      || decide (pixel.lightness_set_on_frame ≠ current_frame) then
    { pixel with lightness := lightness, lightness_set_on_frame := current_frame }
  else pixel

/-- `add_daylight_lightness_to_lighting_buffer`, on the contents of `screen`. -/
def add_daylight_lightness_to_lighting_buffer (E : Env) (width height current_frame : Int)
    (slice_heights : Int → Int) (day : Flt) (left_edge top_edge : Int)
    (screen : Int → PixelLighting) : Int → PixelLighting :=
  (loop_range 0 width.toNat).foldl
    (fun screen x =>
      let ghb := ground_height_buffer E slice_heights (left_edge + x) top_edge
      (loop_range 0 height.toNat).foldl
        (fun screen y =>
          let i := get_lighting_buffer_pixel width x y
          Function.update screen i
            (daylight_pixel current_frame (daylight_lightness E day ghb y) (screen i)))
        screen)
    screen

/-- The body of the two pixel loops of `create_lighting_buffer` for one light
and one pixel of its bounding box. -/
def light_pixel (E : Env) (width height current_frame : Int) (light : Light)
    (add_lightness : Bool) (map : PyMap) (sky_colour : Colour) (left_edge top_edge : Int)
    (x y : Int) (screen : Int → PixelLighting) : Int → PixelLighting :=
  let buffer_ly := light.y - top_edge
  if (decide (x ≥ 0) && decide (x < width)) && (decide (y ≥ 0) && decide (y < height)) then
    let light_distance := lit E x y light.x buffer_ly light.radius
    if Flt.lt light_distance (Flt.fin 1) then
      let i := get_lighting_buffer_pixel width x y
      let lighting_pixel := screen i
      let lighting_pixel :=
        if add_lightness then
          add_light_pixel_lightness_to_lighting_buffer E current_frame lighting_pixel
            light_distance light
        else lighting_pixel
      Function.update screen i
        (add_light_pixel_colour_to_lighting_buffer E current_frame lighting_pixel x y
          light_distance light map sky_colour left_edge top_edge)
    else screen
  else screen

/-- The `struct Light` that `create_lighting_buffer` fills from a Python light:
the five entries read from the dict, and `hsv = rgb_to_hsv(&light.rgb)`. -/
def Light.ofPy (E : Env) (py_light : PyLight) : Light :=
  { x := py_light.x, y := py_light.y, z := py_light.z, radius := py_light.radius,
    rgb := py_light.colour, hsv := E.rgb_to_hsv py_light.colour }

/-- The body of the light loop of `create_lighting_buffer` for one light. -/
def add_light (E : Env) (width height current_frame : Int) (map : PyMap)
    (slice_heights : Int → Int) (sky_colour : Colour) (left_edge top_edge : Int)
    (screen : Int → PixelLighting) (py_light : PyLight) : Int → PixelLighting :=
  let light := Light.ofPy E py_light
  let add_lightness := check_light_z E py_light light left_edge top_edge map slice_heights
  let buffer_ly := light.y - top_edge
  (loop_range (light.x - light.radius) (2 * light.radius + 1).toNat).foldl
    (fun screen x =>
      (loop_range (buffer_ly - light.radius) (2 * light.radius + 1).toNat).foldl
        (fun screen y =>
          light_pixel E width height current_frame light add_lightness map sky_colour
            left_edge top_edge x y screen)
        screen)
    screen

/-- `create_lighting_buffer`.  The result is `none` when the function
dereferences a null `screen`, which it does exactly when the viewport has a
pixel (the daylight fill visits every pixel). -/
def create_lighting_buffer (E : Env) (width height : Int) (lighting_buffer : LightingBuffer)
    (lights : List PyLight) (map : PyMap) (slice_heights : Int → Int) (day : Flt)
    (sky_colour : Colour) (left_edge top_edge : Int) : Option LightingBuffer :=
  let current_frame := lighting_buffer.current_frame + 1
  match lighting_buffer.screen with
  | none =>
      if 0 < width ∧ 0 < height then none
      else some { current_frame := current_frame, screen := none }
  | some screen =>
      let screen :=
        lights.foldl
          (add_light E width height current_frame map slice_heights sky_colour left_edge
            top_edge)
          screen
      some
        { current_frame := current_frame
          screen :=
            some (add_daylight_lightness_to_lighting_buffer E width height current_frame
              slice_heights day left_edge top_edge screen) }

/-! ## Sky and background -/

/-- `get_lightness`: the brightest light level reaching a position. -/
def get_lightness (E : Env) (x y world_x : Int) (map : PyMap) (slice_heights : Int → Int)
    (lights : List PyLight) : Flt :=
  let min :=
    lights.foldl
      (fun min light =>
        let light_radius := lit E x y light.x light.y light.radius
        let is_lit :=
          Flt.lt light_radius (Flt.fin 1)
            && decide (light.z ≥ get_z_at_pos E (world_x + light.x) light.y map slice_heights)
        let block_lightness := Flt.mul E.rnd32 light_radius (lightness E light.colour)
        if is_lit && Flt.lt block_lightness min then block_lightness else min)
      (Flt.fin 1)
  Flt.sub E.rnd32 (Flt.fin 1) min

/-- The light loop of the overground, fancy branch of `get_sky_colour`: the
running `max_light_level` and `max_light_level_colour`. -/
def sky_light_scan (E : Env) (x y : Int) (colour_behind : Colour) :
    List PyLight → Flt × Colour → Flt × Colour
  | [], acc => acc
  | light :: rest, acc =>
      let light_distance := lit E x y light.x light.y light.radius
      if Flt.lt light_distance (Flt.fin 1) then
        let light_colour_hsv := E.rgb_to_hsv light.colour
        let this_light_pixel_colour_hsv :=
          E.lerp_colour light_colour_hsv light_distance colour_behind
        let this_light_pixel_colour_rgb := E.hsv_to_rgb this_light_pixel_colour_hsv
        let light_level := lightness E this_light_pixel_colour_rgb
        if Flt.gt light_level acc.1 then
          sky_light_scan E x y colour_behind rest (light_level, this_light_pixel_colour_rgb)
        else sky_light_scan E x y colour_behind rest acc
      else sky_light_scan E x y colour_behind rest acc

/-- The light loop of the overground, plain branch of `get_sky_colour`; `break`
leaves the loop at the first light that reaches the pixel. -/
def sky_marker_scan (E : Env) (x y : Int) : List PyLight → Colour → Colour
  | [], result => result
  | light :: rest, result =>
      if Flt.lt (lit E x y light.x light.y light.radius) (Flt.fin 1) then E.CYAN
      else sky_marker_scan E x y rest result

/-- `get_sky_colour`. -/
def get_sky_colour (E : Env) (x y world_x : Int) (map : PyMap) (slice_heights : Int → Int)
    (lights : List PyLight) (colour_behind : Colour) (settings : Settings) : Colour :=
  let slice_height := slice_heights (world_x + x)
  if E.world_gen_height - y < slice_height then
    let result : Colour := ⟨E.rnd32 (1 / 10), E.rnd32 (1 / 10), E.rnd32 (1 / 10)⟩
    if settings.fancy_lights > 0 then
      let block_lightness := get_lightness E x y world_x map slice_heights lights
      { r := Flt.mul E.rnd32 (Flt.add E.rnd32 result.r block_lightness) (E.rnd32 (1 / 2))
        g := Flt.mul E.rnd32 (Flt.add E.rnd32 result.g block_lightness) (E.rnd32 (1 / 2))
        b := Flt.mul E.rnd32 (Flt.add E.rnd32 result.b block_lightness) (E.rnd32 (1 / 2)) }
    else result
  else if settings.fancy_lights > 0 then
    let scan :=
      sky_light_scan E x y colour_behind lights
        (Flt.fin (-1), ⟨Flt.fin 0, Flt.fin 0, Flt.fin 0⟩)
    if Flt.ge scan.1 (Flt.fin 0) then scan.2 else E.hsv_to_rgb colour_behind
  else sky_marker_scan E x y lights colour_behind

/-- The object loop of `sky`; `break` leaves the loop at the first object that
covers the pixel. -/
def sky_object_scan (E : Env) (x y world_x : Int) (slice_heights : Int → Int) :
    List PyBkObj → Colour → Colour
  | [], result => result
  | object :: rest, result =>
      if x ≤ object.x ∧ object.x < x + object.width ∧ y ≤ object.y
          ∧ object.y < y + object.height
          ∧ E.world_gen_height - y > slice_heights (world_x + x) then
        PyColour_AsColour object.colour
      else sky_object_scan E x y world_x slice_heights rest result

/-- `sky`.  The components `g`, `b` of `result` are unset before the object
loop; they are read only after one of the two assignments. -/
def sky (E : Env) (x y world_x : Int) (map : PyMap) (slice_heights : Int → Int)
    (bk_objects : List PyBkObj) (sky_colour : Colour) (lights : List PyLight)
    (settings : Settings) : Colour :=
  let result :=
    sky_object_scan E x y world_x slice_heights bk_objects
      ⟨Flt.fin (-1), Flt.fin 0, Flt.fin 0⟩
  if Flt.lt result.r (Flt.fin 0) then
    get_sky_colour E x y world_x map slice_heights lights sky_colour settings
  else result

/-! ## Blocks -/

/-- `get_obj_pixel`: the two results are left as they were when no object is
at the position. -/
def get_obj_pixel (E : Env) (x y : Int) :
    List PyObj → Nat × Colour → Nat × Colour
  | [], results => results
  | object :: rest, results =>
      if object.x = x ∧ object.y = y then
        let c := object.char
        let rgb := PyColour_AsColour object.colour
        let rgb := if Flt.eq rgb.r (Flt.fin (-1)) then (E.get_block_data c).colours.fg else rgb
        (c, rgb)
      else get_obj_pixel E x y rest results

/-- `apply_block_lightness`. -/
def apply_block_lightness (E : Env) (result : Colour) (lightness : Flt) : Colour :=
  let hsv := E.rgb_to_hsv result
  let hsv := hsv.setV (Flt.mul E.rnd32 hsv.v lightness)
  E.hsv_to_rgb hsv

/-- `create_lit_block`.  `result` is the cell the caller passes in, whose
fields hold whatever the caller left there.  The function yields `none` when it
reads the lighting pixel through a null `screen`. -/
def create_lit_block (E : Env) (width : Int) (x y world_x world_y : Int) (map : PyMap)
    (pixel_f_key : Nat) (objects : List PyObj) (lighting_buffer : LightingBuffer)
    (settings : Settings) (result : PrintableChar) : Option PrintableChar :=
  let result := { result with bg := { result.bg with r := Flt.fin (-1) } }
  let result := { result with fg := { result.fg with r := Flt.fin (-1) } }
  let pixel_f := E.get_block_data pixel_f_key
  let light_bg := Flt.ge pixel_f.colours.bg.r (Flt.fin 0)
  let result := if light_bg then { result with bg := pixel_f.colours.bg } else result
  -- `obj_colour` is unset before the call; it is read only when `obj_key != 0`
  let obj := get_obj_pixel E x world_y objects (0, ⟨Flt.fin 0, Flt.fin 0, Flt.fin 0⟩)
  let obj_key := obj.1
  let obj_colour := obj.2
  let light_fg := if obj_key != 0 then false else Flt.ge pixel_f.colours.fg.r (Flt.fin 0)
  let result :=
    if obj_key != 0 then { result with character := obj_key, fg := obj_colour }
    else
      let result := { result with character := get_char E world_x world_y map pixel_f }
      if Flt.ge pixel_f.colours.fg.r (Flt.fin 0) then { result with fg := pixel_f.colours.fg }
      else result
  if decide (settings.fancy_lights > 0) && (light_bg || light_fg) then
    match lighting_buffer.screen with
    | none => none
    | some screen =>
        let lightness := (screen (get_lighting_buffer_pixel width x y)).lightness
        let result :=
          if light_bg then { result with bg := apply_block_lightness E result.bg lightness }
          else result
        let result :=
          if light_fg then { result with fg := apply_block_lightness E result.fg lightness }
          else result
        some { result with style := pixel_f.colours.style }
  else some { result with style := pixel_f.colours.style }

/-! ## Frame diff encoder and viewport -/

/-- The element offset `frame_pos` of a cell in `last_frame`, a `size_t`. -/
def frame_pos (width x y : Int) : Nat := ((y * width + x) % 2 ^ 64).toNat

/-- `terminal_out`.  The result is `none` when the function dereferences a null
`last_frame` or a null `frame->buffer`; otherwise the value returned and the
state left behind. -/
def terminal_out (E : Env) (st : State) (c : PrintableChar) (x y : Int)
    (settings : Settings) : Option (Bool × State) :=
  match st.last_frame with
  | none => none
  | some last_frame =>
      if !(printable_char_eq E (last_frame (frame_pos st.width x y)) c)
          || st.resize || st.redraw_all then
        match st.frame.buffer with
        | none => none
        | some cells =>
            let old_cur_pos := st.frame.cur_pos
            let cur_pos := (old_cur_pos + pos_str E x y) % 2 ^ 64
            let cur_pos := (cur_pos + E.colour_str c settings) % 2 ^ 64
            let st :=
              { st with
                  last_frame := some (Function.update last_frame (frame_pos st.width x y) c)
                  frame :=
                    { st.frame with buffer := some (cells ++ [⟨x, y, c⟩]), cur_pos := cur_pos } }
            if cur_pos ≥ st.frame.size then some (false, st)
            else if (cur_pos + 2 ^ 64 - old_cur_pos) % 2 ^ 64
                ≥ E.COLOUR_CODE_MAX_LEN + POS_STR_FORMAT_MAX_LEN E then some (false, st)
            else some (true, st)
      else some (true, st)

/-- `setup_frame`.  `host` gives the results of the `realloc` calls.  Resetting
`frame->cur_pos` to zero leaves no cell before the write cursor, so the list of
a non-null `buffer` becomes empty. -/
def setup_frame (E : Env) (st : State) (host : Host) (new_width new_height : Int) :
    Bool × State :=
  let st := { st with resize := false }
  let st := if new_width ≠ st.width then { st with resize := true, width := new_width } else st
  let st :=
    if new_height ≠ st.height then { st with resize := true, height := new_height } else st
  if st.resize then
    let size :=
      ((st.width * st.height * ((POS_STR_FORMAT_MAX_LEN E + E.COLOUR_CODE_MAX_LEN : Nat) : Int))
        % 2 ^ 64).toNat
    let st :=
      { st with
          frame :=
            { st.frame with
                size := size
                buffer := if host.realloc_frame_buffer then some [] else none } }
    if host.realloc_frame_buffer = false then (false, st)
    else
      let st := { st with last_frame := host.realloc_last_frame }
      if host.realloc_last_frame.isNone then (false, st)
      else
        let st := { st with lighting_buffer := { st.lighting_buffer with screen := host.realloc_screen } }
        if host.realloc_screen.isNone then (false, st)
        else (true, { st with frame := { st.frame with cur_pos := 0 } })
  else
    (true, { st with frame := { st.frame with cur_pos := 0, buffer := st.frame.buffer.map (fun _ => []) } })

/-! ## The render pass -/

/-- The arguments of `render_map`, as parsed by `PyArg_ParseTuple`.
`slice_heights` is the dict from world x to ground height, with an integer
height for every column looked up; `redraw_all` is the truth value stored in
the static of that name. -/
structure RenderArgs where
  map : PyMap
  slice_heights : Int → Int
  left_edge : Int
  right_edge : Int
  top_edge : Int
  bottom_edge : Int
  objects : List PyObj
  bk_objects : List PyBkObj
  sky_colour : Colour
  day : Flt
  lights : List PyLight
  settings : Settings
  redraw_all : Bool

/-- The error exits of `render_map`, by the message they set. -/
inductive RenderError where
  | setup_frame_failed
  | map_not_a_dict
  | column_not_a_list
  | cannot_get_char
  | terminal_out_failed
  | wprintf_messed_up
deriving DecidableEq

/-- How a call of `render_map` ends: it returns `None`, it returns `NULL`
with an error set, or the process dereferences a null pointer. -/
inductive Outcome where
  | ok
  | error (e : RenderError)
  | crash
deriving DecidableEq

/-- The loop of `render_map` over the pixels of one column, from the pixel at
world row `world_y_l` on. -/
def render_column (E : Env) (a : RenderArgs) (host : Host) (world_x_l x : Int) :
    List Nat → Int → State → Outcome × State
  | [], _, st => (Outcome.ok, st)
  | py_pixel :: rest, world_y_l, st =>
      if world_y_l ≥ a.top_edge ∧ world_y_l < a.bottom_edge then
        let y := world_y_l - a.top_edge
        let pixel := py_pixel
        if pixel = 0 then (Outcome.error RenderError.cannot_get_char, st)
        else
          match create_lit_block E st.width x y world_x_l world_y_l a.map pixel a.objects
              st.lighting_buffer a.settings (host.stack x y) with
          | none => (Outcome.crash, st)
          | some printable_char =>
              if a.settings.terminal_output > 0 then
                match terminal_out E st printable_char x y a.settings with
                | none => (Outcome.crash, st)
                | some (false, st) => (Outcome.error RenderError.terminal_out_failed, st)
                | some (true, st) => render_column E a host world_x_l x rest (world_y_l + 1) st
              else render_column E a host world_x_l x rest (world_y_l + 1) st
      else render_column E a host world_x_l x rest (world_y_l + 1) st

/-- The loop of `render_map` over the entries of the map. -/
def render_columns (E : Env) (a : RenderArgs) (host : Host) :
    List (Int × PyColumn) → State → Outcome × State
  | [], st => (Outcome.ok, st)
  | (world_x_l, column) :: rest, st =>
      if ¬(world_x_l ≥ a.left_edge ∧ world_x_l < a.right_edge) then
        render_columns E a host rest st
      else
        match column with
        | PyColumn.notList => (Outcome.error RenderError.column_not_a_list, st)
        | PyColumn.list items =>
            match render_column E a host world_x_l (world_x_l - a.left_edge) items 0 st with
            | (Outcome.ok, st) => render_columns E a host rest st
            | r => r

/-- `render_map`: one call on the statics `st`. -/
def render_map (E : Env) (st : State) (a : RenderArgs) (host : Host) : Outcome × State :=
  let st := { st with redraw_all := a.redraw_all }
  let cur_width := a.right_edge - a.left_edge
  let cur_height := a.bottom_edge - a.top_edge
  match setup_frame E st host cur_width cur_height with
  | (false, st) => (Outcome.error RenderError.setup_frame_failed, st)
  | (true, st) =>
      match a.map with
      | PyMap.notDict => (Outcome.error RenderError.map_not_a_dict, st)
      | PyMap.dict cols =>
          match create_lighting_buffer E st.width st.height st.lighting_buffer a.lights a.map
              a.slice_heights a.day a.sky_colour a.left_edge a.top_edge with
          | none => (Outcome.crash, st)
          | some lighting_buffer =>
              let st := { st with lighting_buffer := lighting_buffer }
              match render_columns E a host cols st with
              | (Outcome.ok, st) =>
                  if a.settings.terminal_output > 0 then
                    match st.frame.buffer with
                    | none => (Outcome.crash, st)
                    | some _ =>
                        if (host.wprintf % 2 ^ 64).toNat ≠ st.frame.cur_pos then
                          (Outcome.error RenderError.wprintf_messed_up, st)
                        else (Outcome.ok, st)
                  else (Outcome.ok, st)
              | r => r

/-! ## A concrete environment

Used to evaluate the definitions on concrete inputs. -/

/-- Modelled from the spec: `colour_eq` of `colours.c` is not part of the file;
the spec describes it as exact floating-point equality of the components. -/
def colour_eq_exact (a b : Colour) : Bool :=
  Flt.eq a.r b.r && Flt.eq a.g b.g && Flt.eq a.b b.b

/-- The colour whose `r` component is the "unset" mark `-1`. -/
def unsetColour : Colour := ⟨Flt.fin (-1), Flt.fin 0, Flt.fin 0⟩

/-- White. -/
def white : Colour := ⟨Flt.fin 1, Flt.fin 1, Flt.fin 1⟩

/-- A small block table: `#` (35) is a solid block with a white foreground and
no background; `=` (61) is a non-solid block with the left variant `[` (91) and
the right variant `]` (93); every other glyph is a non-solid block displayed as
itself, without colours. -/
def demoBlockData (key : Nat) : BlockData :=
  if key = 35 then ⟨35, 0, 0, ⟨white, unsetColour, 0⟩, true⟩
  else if key = 61 then ⟨61, 91, 93, ⟨white, unsetColour, 0⟩, false⟩
  else ⟨key, 0, 0, ⟨unsetColour, unsetColour, 0⟩, false⟩

/-- An environment with exact arithmetic, four-byte wide characters, the block
table `demoBlockData`, colour sequences of ten characters and identity colour
conversions. -/
def demoEnv : Env where
  rnd32 := Flt.fin
  rnd64 := Flt.fin
  sizeof_wchar_t := 4
  get_block_data := demoBlockData
  world_gen_height := 200
  COLOUR_CODE_MAX_LEN := 64
  colour_str := fun _ _ => 10
  colour_eq := colour_eq_exact
  rgb_to_hsv := id
  hsv_to_rgb := id
  lerp_colour := fun a _ _ => a
  lerp := fun a _ _ => a
  CYAN := ⟨Flt.fin 0, Flt.fin 1, Flt.fin 1⟩

/-- The map `{0: ['#'], 1: ['='], 2: ['#']}`. -/
def demoEdgeMap : PyMap :=
  PyMap.dict [(0, PyColumn.list [35]), (1, PyColumn.list [61]), (2, PyColumn.list [35])]

/-! ## Rounding -/

/-- What the theorems on `lit` need of a rounding function: it keeps `0` and
`1`, and a value whose magnitude lies between two powers of two, from `2⁻²` to
`2¹²⁶`, is rounded to a finite value between the same two powers.  Rounding to
nearest in `float` and in `double` both satisfy it. -/
def RoundsDyadic (rnd : ℚ → Flt) : Prop :=
  rnd 0 = Flt.fin 0 ∧ rnd 1 = Flt.fin 1 ∧
    ∀ (m n : ℤ) (q : ℚ), -2 ≤ m → n ≤ 126 → (2 : ℚ) ^ m ≤ |q| → |q| ≤ (2 : ℚ) ^ n →
      ∃ q', rnd q = Flt.fin q' ∧ (2 : ℚ) ^ m ≤ |q'| ∧ |q'| ≤ (2 : ℚ) ^ n

/-! ## Values used in the statements about `terminal_out` -/

/-- The write cursor `frame->cur_pos` after `terminal_out` has appended the
two sequences of a cell. -/
def cursor_after (E : Env) (st : State) (c : PrintableChar) (x y : Int)
    (settings : Settings) : Nat :=
  ((st.frame.cur_pos + pos_str E x y) % 2 ^ 64 + E.colour_str c settings) % 2 ^ 64

/-- The number of characters appended for a cell, as `terminal_out` computes
it: `frame->cur_pos - old_cur_pos` in `size_t`. -/
def appended_len (E : Env) (st : State) (c : PrintableChar) (x y : Int)
    (settings : Settings) : Nat :=
  (cursor_after E st c x y settings + 2 ^ 64 - st.frame.cur_pos) % 2 ^ 64

/-- The state `terminal_out` leaves behind when it emits a cell. -/
def emitted_state (E : Env) (st : State) (last_frame : Nat → PrintableChar)
    (cells : List Emitted) (c : PrintableChar) (x y : Int) (settings : Settings) : State :=
  { st with
      last_frame := some (Function.update last_frame (frame_pos st.width x y) c)
      frame :=
        { st.frame with
            buffer := some (cells ++ [⟨x, y, c⟩])
            cur_pos := cursor_after E st c x y settings } }

/-- The new cell differs from the cached cell in glyph, foreground colour,
background colour or style. -/
def cell_differs (E : Env) (cached c : PrintableChar) : Prop :=
  cached.character ≠ c.character ∨ E.colour_eq cached.fg c.fg = false
    ∨ E.colour_eq cached.bg c.bg = false ∨ cached.style ≠ c.style

/-! ## Concrete states -/

/-- A cell with glyph `#`, white on an unset background. -/
def demoCell : PrintableChar := ⟨35, white, unsetColour, 0⟩

/-- A cell with glyph space. -/
def blankCell : PrintableChar := ⟨32, unsetColour, unsetColour, 0⟩

/-- A lighting pixel never written. -/
def blankPixel : PixelLighting := ⟨Flt.fin 0, 0, unsetColour, Flt.fin 0, 0⟩

/-- A host whose allocations succeed and return blank memory, and whose
`wprintf` reports sixteen characters. -/
def demoHost : Host where
  realloc_frame_buffer := true
  realloc_last_frame := some (fun _ => blankCell)
  realloc_screen := some (fun _ => blankPixel)
  stack := fun _ _ => blankCell
  wprintf := 16

/-- Settings with terminal output on and fancy lights off. -/
def demoSettings : Settings := ⟨1, 0, 1⟩

/-- The statics of a 1 x 1 viewport after a resize, with an output buffer of
`size` characters. -/
def demoState (size : Nat) : State where
  last_frame := some (fun _ => blankCell)
  resize := true
  redraw_all := false
  width := 1
  height := 1
  frame := ⟨some [], 0, size⟩
  lighting_buffer := ⟨1, some (fun _ => blankPixel)⟩

/-! ## Relations used in the statements about the lighting buffer -/

/-- Two lighting pixels hold the same lightness and the same lightness stamp. -/
def SameLightness (p q : PixelLighting) : Prop :=
  p.lightness = q.lightness ∧ p.lightness_set_on_frame = q.lightness_set_on_frame

/-- Two screens hold the same lightness and lightness stamp at every offset. -/
def ScreenSameLightness (s t : Int → PixelLighting) : Prop :=
  ∀ i, SameLightness (s i) (t i)

/-- The width of the probe of a light: `source_width`, `1` when absent. -/
def probe_width (py_light : PyLight) : Int :=
  get_long_from_PyDict_or py_light.source_width 1

/-- The height of the probe of a light: `source_height`, `1` when absent. -/
def probe_height (py_light : PyLight) : Int :=
  get_long_from_PyDict_or py_light.source_height 1

/-- The map `{0: ['#']}`. -/
def demoMap : PyMap := PyMap.dict [(0, PyColumn.list [35])]

/-- A white light of radius 2 at `(0, 0)` with the given tier. -/
def demoLight (z : Int) : PyLight := ⟨0, 0, z, 2, white, none, none⟩

/-- A lighting buffer at frame 1 with blank memory. -/
def demoLightingBuffer : LightingBuffer := ⟨1, some (fun _ => blankPixel)⟩

/-! ## The render loop as one loop over the visited cells

`render_map` visits the map column by column and, within a column, row by row.
The definitions below list the cells it visits in that order and run the loop
body over the list; `render_columns_eq_run_visits` relates them to the nested
loops. -/

/-- A cell the render loop visits: its world position and the glyph read from
the column. -/
structure Visit where
  world_x : Int
  world_y : Int
  pixel : Nat
deriving DecidableEq

/-- The cells of one column inside the viewport rows, from world row
`world_y_l` on. -/
def column_visits (a : RenderArgs) (world_x_l : Int) : List Nat → Int → List Visit
  | [], _ => []
  | py_pixel :: rest, world_y_l =>
      if world_y_l ≥ a.top_edge ∧ world_y_l < a.bottom_edge then
        ⟨world_x_l, world_y_l, py_pixel⟩ :: column_visits a world_x_l rest (world_y_l + 1)
      else column_visits a world_x_l rest (world_y_l + 1)

/-- The cells of the list columns inside the viewport, in iteration order. -/
def map_visits (a : RenderArgs) : List (Int × PyColumn) → List Visit
  | [] => []
  | (world_x_l, column) :: rest =>
      if ¬(world_x_l ≥ a.left_edge ∧ world_x_l < a.right_edge) then map_visits a rest
      else
        match column with
        | PyColumn.notList => map_visits a rest
        | PyColumn.list items => column_visits a world_x_l items 0 ++ map_visits a rest

/-- The cell `render_map` resolves for a visited cell in state `st`. -/
def resolve_visit (E : Env) (a : RenderArgs) (host : Host) (st : State) (v : Visit) :
    Option PrintableChar :=
  create_lit_block E st.width (v.world_x - a.left_edge) (v.world_y - a.top_edge) v.world_x
    v.world_y a.map v.pixel a.objects st.lighting_buffer a.settings
    (host.stack (v.world_x - a.left_edge) (v.world_y - a.top_edge))

/-- The body of the pixel loop of `render_map` for one visited cell. -/
def render_visit (E : Env) (a : RenderArgs) (host : Host) (v : Visit) (st : State) :
    Outcome × State :=
  if v.pixel = 0 then (Outcome.error RenderError.cannot_get_char, st)
  else
    match resolve_visit E a host st v with
    | none => (Outcome.crash, st)
    | some printable_char =>
        if a.settings.terminal_output > 0 then
          match terminal_out E st printable_char (v.world_x - a.left_edge)
              (v.world_y - a.top_edge) a.settings with
          | none => (Outcome.crash, st)
          | some (false, st) => (Outcome.error RenderError.terminal_out_failed, st)
          | some (true, st) => (Outcome.ok, st)
        else (Outcome.ok, st)

/-- The loop body run over a list of visited cells, up to the first exit. -/
def run_visits (E : Env) (a : RenderArgs) (host : Host) : List Visit → State → Outcome × State
  | [], st => (Outcome.ok, st)
  | v :: rest, st =>
      match render_visit E a host v st with
      | (Outcome.ok, st) => run_visits E a host rest st
      | r => r

/-- The viewport position of a visited cell. -/
def Visit.pos (a : RenderArgs) (v : Visit) : Int × Int :=
  (v.world_x - a.left_edge, v.world_y - a.top_edge)

/-- Arguments of a forced render of the viewport `[0, right) x [0, 1)` over the
map `{0: ['#']}`, with no lights and no objects, terminal output on, fancy
lights off and the ground of every column at height `ground`. -/
def demoArgs (right : Int) (ground : Int) (redraw_all : Bool) : RenderArgs where
  map := demoMap
  slice_heights := fun _ => ground
  left_edge := 0
  right_edge := right
  top_edge := 0
  bottom_edge := 1
  objects := []
  bk_objects := []
  sky_colour := white
  day := Flt.fin 1
  lights := []
  settings := demoSettings
  redraw_all := redraw_all

/-- The cell `create_lit_block` resolves for a block without an object on it
and without lighting: the glyph after edge substitution, the block's
foreground and background colours where the block table defines them (the
`-1` mark over the caller's leftover components otherwise), and the block's
style. -/
def unlit_block_cell (E : Env) (map : PyMap) (world_x world_y : Int) (pixel_f_key : Nat)
    (result : PrintableChar) : PrintableChar :=
  { character := get_char E world_x world_y map (E.get_block_data pixel_f_key)
    fg :=
      if Flt.ge (E.get_block_data pixel_f_key).colours.fg.r (Flt.fin 0) then
        (E.get_block_data pixel_f_key).colours.fg
      else { result.fg with r := Flt.fin (-1) }
    bg :=
      if Flt.ge (E.get_block_data pixel_f_key).colours.bg.r (Flt.fin 0) then
        (E.get_block_data pixel_f_key).colours.bg
      else { result.bg with r := Flt.fin (-1) }
    style := (E.get_block_data pixel_f_key).colours.style }

/-- The base colour `get_sky_colour` gives an underground pixel: `.1f` in each
component. -/
def underground_base (E : Env) : Colour :=
  ⟨E.rnd32 (1 / 10), E.rnd32 (1 / 10), E.rnd32 (1 / 10)⟩

/-- The cell a call of `render_map` on the statics `st` resolves for a visited
cell: the cell `create_lit_block` yields on the lighting buffer the call has
built after `setup_frame`. -/
def render_resolves (E : Env) (st : State) (a : RenderArgs) (host : Host) (v : Visit) :
    Option PrintableChar :=
  let st1 :=
    (setup_frame E { st with redraw_all := a.redraw_all } host (a.right_edge - a.left_edge)
      (a.bottom_edge - a.top_edge)).2
  (create_lighting_buffer E st1.width st1.height st1.lighting_buffer a.lights a.map
      a.slice_heights a.day a.sky_colour a.left_edge a.top_edge).bind
    (fun lighting_buffer =>
      resolve_visit E a host { st1 with lighting_buffer := lighting_buffer } v)

/-- The offset in `last_frame` of a visited cell, for a viewport of the given
width. -/
def Visit.frame_pos (a : RenderArgs) (width : Int) (v : Visit) : Nat :=
  Pycraft.frame_pos width (v.world_x - a.left_edge) (v.world_y - a.top_edge)

/-- The arguments `demoArgs 1 0 false` with one foreground object `@` at
`(0, 0)` whose colour has a NaN red component. -/
def demoArgsNaN : RenderArgs :=
  { demoArgs 1 0 false with objects := [⟨0, 0, 64, some ⟨Flt.nan, Flt.fin 0, Flt.fin 0⟩⟩] }

/-- The arguments `demoArgs 1 0 false` with a `map` argument that is not a
dict. -/
def demoArgsNotDict : RenderArgs := { demoArgs 1 0 false with map := PyMap.notDict }

/-- The host `demoHost` whose third `realloc`, for the lighting buffer, returns
a null pointer. -/
def demoHostNoScreen : Host := { demoHost with realloc_screen := none }

/-! ## Values used in the statements about `create_lit_block` and `sky` -/

/-- The two results of `get_obj_pixel` as `create_lit_block` receives them: the
glyph is `0` when no object is at the position. -/
def found_object (E : Env) (x world_y : Int) (objects : List PyObj) : Nat × Colour :=
  get_obj_pixel E x world_y objects (0, ⟨Flt.fin 0, Flt.fin 0, Flt.fin 0⟩)

/-- The colour `get_obj_pixel` yields for an object: its `colour` entry, or the
block table's foreground of its glyph when the entry is absent or its first
component is `-1`. -/
def object_colour (E : Env) (object : PyObj) : Colour :=
  if Flt.eq (PyColour_AsColour object.colour).r (Flt.fin (-1)) then
    (E.get_block_data object.char).colours.fg
  else PyColour_AsColour object.colour

/-- The flag `light_bg` of `create_lit_block`: the block defines a background. -/
def light_bg (E : Env) (pixel_f_key : Nat) : Bool :=
  Flt.ge (E.get_block_data pixel_f_key).colours.bg.r (Flt.fin 0)

/-- The flag `light_fg` of `create_lit_block`: no object is on the cell and the
block defines a foreground. -/
def light_fg (E : Env) (x world_y : Int) (objects : List PyObj) (pixel_f_key : Nat) : Bool :=
  if (found_object E x world_y objects).1 != 0 then false
  else Flt.ge (E.get_block_data pixel_f_key).colours.fg.r (Flt.fin 0)

/-- The cell `create_lit_block` resolves when it does not read the lighting
buffer: object glyph and colour when an object is on the cell, otherwise the
glyph after edge substitution and the block's foreground; the block's
background; the block's style.  A colour the block does not define is the `-1`
mark over the caller's leftover components. -/
def plain_cell (E : Env) (x world_x world_y : Int) (map : PyMap) (pixel_f_key : Nat)
    (objects : List PyObj) (result : PrintableChar) : PrintableChar :=
  { character :=
      if (found_object E x world_y objects).1 != 0 then (found_object E x world_y objects).1
      else get_char E world_x world_y map (E.get_block_data pixel_f_key)
    fg :=
      if (found_object E x world_y objects).1 != 0 then (found_object E x world_y objects).2
      else if Flt.ge (E.get_block_data pixel_f_key).colours.fg.r (Flt.fin 0) then
        (E.get_block_data pixel_f_key).colours.fg
      else { result.fg with r := Flt.fin (-1) }
    bg :=
      if Flt.ge (E.get_block_data pixel_f_key).colours.bg.r (Flt.fin 0) then
        (E.get_block_data pixel_f_key).colours.bg
      else { result.bg with r := Flt.fin (-1) }
    style := (E.get_block_data pixel_f_key).colours.style }

/-- The test of `sky` on a background object: the object's position lies in
the rectangle of the object's size that starts at the pixel, and the pixel is
above the ground surface of its column. -/
def bk_object_covers (E : Env) (x y world_x : Int) (slice_heights : Int → Int)
    (object : PyBkObj) : Prop :=
  x ≤ object.x ∧ object.x < x + object.width ∧ y ≤ object.y ∧ object.y < y + object.height
    ∧ E.world_gen_height - y > slice_heights (world_x + x)

/-- Arguments of a forced render of the viewport `[5, 6) x [0, 1)` over the map
`{5: ['#']}` with the foreground object `@` at `x = 5`, `y = 0`. -/
def demoArgsObject : RenderArgs :=
  { demoArgs 6 0 true with
      map := PyMap.dict [(5, PyColumn.list [35])]
      left_edge := 5
      objects := [⟨5, 0, 64, none⟩] }

/-- A blue background object of width 3 and height 1 at `(0, 0)`. -/
def demoBkObject : PyBkObj := ⟨0, 0, 3, 1, some ⟨Flt.fin 0, Flt.fin 0, Flt.fin 1⟩⟩

/-! ## The lighting buffer at one pixel -/

/-- The update of one pixel by one light in `create_lighting_buffer`: the
lightness contribution when the light's tier check passed, then the
background-colour contribution. -/
def light_pixel_update (E : Env) (current_frame : Int) (light : Light) (add_lightness : Bool)
    (map : PyMap) (sky_colour : Colour) (left_edge top_edge x y : Int)
    (pixel : PixelLighting) : PixelLighting :=
  add_light_pixel_colour_to_lighting_buffer E current_frame
    (if add_lightness then
      add_light_pixel_lightness_to_lighting_buffer E current_frame pixel
        (lit E x y light.x (light.y - top_edge) light.radius) light
    else pixel)
    x y (lit E x y light.x (light.y - top_edge) light.radius) light map sky_colour left_edge
    top_edge

/-- A light reaches a pixel: the two pixel loops of `create_lighting_buffer`
for this light visit the pixel (it lies within `radius` of the light's column
and of its buffer row) and the clamped elliptical distance is `< 1`. -/
def light_reaches (E : Env) (top_edge : Int) (light : Light) (x y : Int) : Bool :=
  decide (light.x - light.radius ≤ x) && decide (x ≤ light.x + light.radius)
    && decide (light.y - top_edge - light.radius ≤ y)
    && decide (y ≤ light.y - top_edge + light.radius)
    && Flt.lt (lit E x y light.x (light.y - top_edge) light.radius) (Flt.fin 1)

/-- The running maximum kept per pixel by the lighting buffer: a candidate
replaces the stored item when no item is stored yet or when the stored key is
less than the candidate's key. -/
def keep_max {α : Type} (key : α → Flt) : Option α → α → Option α
  | none, v => some v
  | some m, v => if Flt.lt (key m) (key v) then some v else some m

/-- A stamped field of a pixel holds the stored item `acc`: the stamp is the
current frame exactly when an item is stored, and then the field is that item. -/
def Tracks {α : Type} (current_frame stamp : Int) (val : α) : Option α → Prop
  | none => stamp ≠ current_frame
  | some m => stamp = current_frame ∧ val = m

/-- The lightness one light contributes to a pixel:
`1 - light_distance * lightness(&light->rgb)` in `float`. -/
def light_pixel_lightness (E : Env) (light : Light) (top_edge x y : Int) : Flt :=
  Flt.sub E.rnd32 (Flt.fin 1)
    (Flt.mul E.rnd32 (lit E x y light.x (light.y - top_edge) light.radius)
      (lightness E light.rgb))

/-- The lightness candidates of a pixel: the contribution of every light whose
tier check passes and which reaches the pixel, and the daylight value of the
pixel. -/
def lightness_values (E : Env) (lights : List PyLight) (map : PyMap)
    (slice_heights : Int → Int) (day : Flt) (left_edge top_edge x y : Int) : List Flt :=
  (lights.filter (fun py_light =>
      check_light_z E py_light (Light.ofPy E py_light) left_edge top_edge map slice_heights
        && light_reaches E top_edge (Light.ofPy E py_light) x y)).map
    (fun py_light => light_pixel_lightness E (Light.ofPy E py_light) top_edge x y)
  ++ [daylight_lightness E day (ground_height_buffer E slice_heights (left_edge + x) top_edge) y]

/-- The colour one light contributes to the background of a pixel: the light's
colour blended towards the sky colour by the light distance, converted back to
RGB. -/
def blended_colour (E : Env) (sky_colour : Colour) (light : Light) (top_edge x y : Int) :
    Colour :=
  E.hsv_to_rgb
    (E.lerp_colour light.hsv (lit E x y light.x (light.y - top_edge) light.radius) sky_colour)

/-- The map glyph under a pixel is absent or has no opaque background. -/
def glyph_transparent (E : Env) (map : PyMap) (left_edge top_edge x y : Int) : Bool :=
  get_block (left_edge + x) (top_edge + y) map == 0
    || Flt.eq (E.get_block_data (get_block (left_edge + x) (top_edge + y) map)).colours.bg.r
        (Flt.fin (-1))


/-- The lightness stored for the pixel at offset `i` of a lighting buffer. -/
def stored_lightness (lb : Option LightingBuffer) (i : Int) : Option Flt :=
  lb.bind (fun b => b.screen.map (fun s => (s i).lightness))

/-- A light at the origin on tier `0` with radius `2` whose red channel is a
NaN. -/
def demoLightNaN : PyLight := ⟨0, 0, 0, 2, ⟨Flt.nan, Flt.fin 0, Flt.fin 0⟩, none, none⟩

/-- The background colour stored for the pixel at offset `i` of a lighting
buffer, with its frame stamp. -/
def stored_background (lb : Option LightingBuffer) (i : Int) : Option (Colour × Int) :=
  lb.bind (fun b =>
    b.screen.map (fun s => ((s i).background_colour, (s i).background_colour_set_on_frame)))

/-- A mid grey. -/
def grey : Colour := ⟨Flt.fin (1 / 2), Flt.fin (1 / 2), Flt.fin (1 / 2)⟩

/-- A white light at the origin on tier `0` with the negative radius `-1`. -/
def demoLightInverted : PyLight := ⟨0, 0, 0, -1, white, none, none⟩

/-- A grey light at the origin on tier `0` with radius `2`. -/
def demoLightGrey : PyLight := ⟨0, 0, 0, 2, grey, none, none⟩


/-! ## Values used in the statements about `get_sky_colour` -/

/-- The blend `get_sky_colour` applies to an underground pixel when fancy
lights are on: `(.1f + block_lightness) * .5f` in each component. -/
def underground_blend (E : Env) (block_lightness : Flt) : Colour :=
  ⟨Flt.mul E.rnd32 (Flt.add E.rnd32 (E.rnd32 (1 / 10)) block_lightness) (E.rnd32 (1 / 2)),
   Flt.mul E.rnd32 (Flt.add E.rnd32 (E.rnd32 (1 / 10)) block_lightness) (E.rnd32 (1 / 2)),
   Flt.mul E.rnd32 (Flt.add E.rnd32 (E.rnd32 (1 / 10)) block_lightness) (E.rnd32 (1 / 2))⟩

/-- Modelled from the spec: the underground blend with the lightness the
lighting buffer holds for the viewport pixel `(x, y)`. -/
def underground_blend_of_buffer (E : Env) (width : Int) (lb : Option LightingBuffer)
    (x y : Int) : Option Colour :=
  (stored_lightness lb (get_lighting_buffer_pixel width x y)).map (underground_blend E)

/-- The products among which `get_lightness` keeps the minimum: the start value
`1.0f`, and `distance * luminance` for every light at clamped distance `< 1`
whose tier is at least the tier of its position (`get_z_at_pos`). -/
def lightness_products (E : Env) (x y world_x : Int) (map : PyMap) (slice_heights : Int → Int)
    (lights : List PyLight) : List Flt :=
  Flt.fin 1 ::
    (lights.filter (fun light =>
        Flt.lt (lit E x y light.x light.y light.radius) (Flt.fin 1)
          && decide (light.z ≥ get_z_at_pos E (world_x + light.x) light.y map slice_heights))).map
      (fun light =>
        Flt.mul E.rnd32 (lit E x y light.x light.y light.radius) (lightness E light.colour))

/-- A light is in reach of a pixel of `get_sky_colour`: its clamped elliptical
distance to the pixel is `< 1`. -/
def in_reach (E : Env) (x y : Int) (light : PyLight) : Bool :=
  Flt.lt (lit E x y light.x light.y light.radius) (Flt.fin 1)

/-- The colour the fancy overground branch of `get_sky_colour` computes for a
light: the light's colour in HSV, blended towards the colour behind by the
distance, converted back to RGB. -/
def sky_blend (E : Env) (x y : Int) (colour_behind : Colour) (light : PyLight) : Colour :=
  E.hsv_to_rgb
    (E.lerp_colour (E.rgb_to_hsv light.colour) (lit E x y light.x light.y light.radius)
      colour_behind)

/-- The environment `demoEnv` with a conversion `hsv_to_rgb` that yields the
grey of the value component, which is what a conversion from HSV yields for a
colour of saturation `0`. -/
def demoEnvGrey : Env := { demoEnv with hsv_to_rgb := fun c => ⟨c.b, c.b, c.b⟩ }

/-- A white light of tier `-1` and radius `8` on the ground surface row of
column `0` when the ground height is `0`. -/
def demoSurfaceLight : PyLight := ⟨0, 200, -1, 8, white, none, none⟩


/-! ## Values used in the statements about the output buffer -/

/-- The encoded length of an emitted cell: the characters `pos_str` and
`colour_str` write for it. -/
def cell_len (E : Env) (settings : Settings) (e : Emitted) : Nat :=
  pos_str E e.x e.y + E.colour_str e.c settings

/-- The characters reserved per cell: `POS_STR_FORMAT_MAX_LEN +
COLOUR_CODE_MAX_LEN`. -/
def cell_max (E : Env) : Nat := POS_STR_FORMAT_MAX_LEN E + E.COLOUR_CODE_MAX_LEN

/-- The stored `frame->size` is the one `setup_frame` computes for the stored
width and height.  It holds at program start and `setup_frame` keeps it. -/
def SizeKept (E : Env) (st : State) : Prop :=
  st.frame.size = ((st.width * st.height * (cell_max E : Int)) % 2 ^ 64).toNat


/-! ## Relations used in the statements about the buffer offsets -/

/-- The power `2 ^ k` for an integer exponent. -/
def pow2 (k : Int) : ℚ :=
  if 0 ≤ k then ((2 ^ k.toNat : Nat) : ℚ) else 1 / ((2 ^ (-k).toNat : Nat) : ℚ)

/-- The number of binary digits of `n`, counted in at most `fuel` halvings. -/
def bit_length : Nat → Nat → Nat
  | 0, _ => 0
  | fuel + 1, n => if n = 0 then 0 else bit_length fuel (n / 2) + 1

/-- The binary exponent of a non-zero value: the `e` with
`2 ^ e ≤ |q| < 2 ^ (e + 1)`. -/
def floor_log2 (q : ℚ) : Int :=
  let e0 : Int :=
    (bit_length q.num.natAbs q.num.natAbs : Int) - (bit_length q.den q.den : Int)
  if pow2 e0 ≤ |q| then e0 else e0 - 1

/-- The integer nearest to `q`, the even one of the two when `q` lies halfway. -/
def round_half_even (q : ℚ) : Int :=
  if q - (⌊q⌋ : ℚ) < 1 / 2 then ⌊q⌋
  else if 1 / 2 < q - (⌊q⌋ : ℚ) then ⌊q⌋ + 1
  else if ⌊q⌋ % 2 = 0 then ⌊q⌋ else ⌊q⌋ + 1

/-- Modelled from IEEE 754: rounding to nearest, ties to even, in the binary
format with `p` significand bits and exponents from `emin` to `emax`.  Values
below `2 ^ emin` are rounded on the subnormal grid, and a result of magnitude
`2 ^ (emax + 1)` or more is an infinity. -/
def round_binary (p : Nat) (emin emax : Int) (q : ℚ) : Flt :=
  if q = 0 then Flt.fin 0
  else
    let ulp := pow2 (max (floor_log2 q) emin - ((p : Int) - 1))
    let r := (round_half_even (q / ulp) : ℚ) * ulp
    if pow2 (emax + 1) ≤ |r| then (if q < 0 then Flt.ninf else Flt.pinf) else Flt.fin r

/-- Rounding to `float` (binary32). -/
def round_float : ℚ → Flt := round_binary 24 (-126) 127

/-- Rounding to `double` (binary64). -/
def round_double : ℚ → Flt := round_binary 53 (-1022) 1023

/-- The environment `demoEnv` with the arithmetic of `float` and `double`. -/
def floatEnv : Env := { demoEnv with rnd32 := round_float, rnd64 := round_double }

/-- An integer of magnitude at most `2 ^ 24`. -/
def Fits24 (i : Int) : Prop := -(2 ^ 24) ≤ i ∧ i ≤ 2 ^ 24

/-- A rounding function that keeps every integer of magnitude at most `2 ^ 24`,
as rounding to `float` and rounding to `double` do. -/
def ExactOnInt24 (rnd : ℚ → Flt) : Prop :=
  ∀ i : Int, Fits24 i → rnd (i : ℚ) = Flt.fin (i : ℚ)

/-- A white light of tier `-1` and radius `1` at `(0, 199)`, one row above the
ground surface row `200` of a column whose ground height is `0`. -/
def demoLightAbove : PyLight := ⟨0, 199, -1, 1, white, none, none⟩

/-- A host like `demoHost` whose stack holds, where the local `printable_char`
of `render_map` lies, a cell with the background components `(-1, 1, 0)`. -/
def demoHostStale : Host :=
  { demoHost with
      stack := fun _ _ => ⟨32, unsetColour, ⟨Flt.fin (-1), Flt.fin 1, Flt.fin 0⟩, 0⟩ }

/-! # Theorems -/

theorem roundsDyadic_exact : RoundsDyadic Flt.fin :=
  ⟨rfl, rfl, fun _ _ q _ _ h1 h2 => ⟨q, rfl, h1, h2⟩⟩

/-! ## Edge substitution -/

/-- C9. Edge-substitution precedence: when the block below is absent or
non-solid, both the left and the right neighbour are solid blocks, and the
block data defines a left and a right variant, `get_char` returns the left
variant. -/
theorem get_char_left_precedence (E : Env) (x y : Int) (map : PyMap) (pixel : BlockData)
    (hbelow : get_block x (y + 1) map = 0
      ∨ (E.get_block_data (get_block x (y + 1) map)).solid = false)
    (hleft : get_block (x - 1) y map ≠ 0
      ∧ (E.get_block_data (get_block (x - 1) y map)).solid = true)
    (hright : get_block (x + 1) y map ≠ 0
      ∧ (E.get_block_data (get_block (x + 1) y map)).solid = true)
    (hl : pixel.character_left ≠ 0) (hr : pixel.character_right ≠ 0) :
    get_char E x y map pixel = pixel.character_left := by
  have _ := hright
  have _ := hr
  have hcond : (get_block x (y + 1) map == 0
      || !(E.get_block_data (get_block x (y + 1) map)).solid) = true := by
    rcases hbelow with h | h
    · simp [h]
    · simp [h]
  have hl2 : (get_block (x - 1) y map != 0
      && (E.get_block_data (get_block (x - 1) y map)).solid
      && pixel.character_left != 0) = true := by
    simp [hleft.1, hleft.2, hl]
  simp only [get_char, hcond, hl2, if_true]

theorem get_char_left_precedence_witness :
    get_char demoEnv 1 0 demoEdgeMap (demoBlockData 61) = 91 :=
  get_char_left_precedence demoEnv 1 0 demoEdgeMap (demoBlockData 61)
    (by decide) (by decide) (by decide) (by decide) (by decide)

/-! ## Elliptical falloff -/

theorem pow2_ofInt_finite (rnd : ℚ → Flt) (h : RoundsDyadic rnd) (r : Int) (hr : r ≠ 0)
    (hlo : -2 ^ 63 ≤ r) (hhi : r ≤ 2 ^ 63) :
    ∃ b, Flt.pow2 rnd (Flt.ofInt rnd r) = Flt.fin b ∧ b ≠ 0 := by
  obtain ⟨-, -, hrange⟩ := h
  have h1 : (1 : ℚ) ≤ |(r : ℚ)| := by
    have : (1 : Int) ≤ |r| := Int.one_le_abs hr
    exact_mod_cast this
  have h2 : |(r : ℚ)| ≤ 2 ^ 63 := by
    have : |r| ≤ 2 ^ 63 := abs_le.mpr ⟨hlo, hhi⟩
    exact_mod_cast this
  have e0 : (2 : ℚ) ^ (0 : ℤ) = 1 := by norm_num
  have e63 : (2 : ℚ) ^ (63 : ℤ) = 2 ^ 63 := by norm_num
  have e126 : (2 : ℚ) ^ (126 : ℤ) = 2 ^ 126 := by norm_num
  obtain ⟨a, ha, ha1, ha2⟩ := hrange 0 63 (r : ℚ) (by norm_num) (by norm_num)
    (by rw [e0]; exact h1) (by rw [e63]; exact h2)
  have ha1' : (1 : ℚ) ≤ |a| := by rw [e0] at ha1; exact ha1
  have ha2' : |a| ≤ (2 : ℚ) ^ 63 := by rw [e63] at ha2; exact ha2
  have hsq1 : (1 : ℚ) ≤ |a * a| := by
    rw [abs_mul]; nlinarith [abs_nonneg a]
  have hsq2 : |a * a| ≤ (2 : ℚ) ^ 126 := by
    rw [abs_mul]
    have : |a| * |a| ≤ (2 : ℚ) ^ 63 * (2 : ℚ) ^ 63 :=
      mul_le_mul ha2' ha2' (abs_nonneg a) (by positivity)
    calc |a| * |a| ≤ (2 : ℚ) ^ 63 * (2 : ℚ) ^ 63 := this
      _ = (2 : ℚ) ^ 126 := by norm_num
  obtain ⟨b, hb, hb1, -⟩ := hrange 0 126 (a * a) (by norm_num) (by norm_num)
    (by rw [e0]; exact hsq1) (by rw [e126]; exact hsq2)
  refine ⟨b, ?_, ?_⟩
  · simp only [Flt.ofInt, ha, Flt.pow2, hb]
  · intro hb0
    rw [hb0, e0] at hb1
    norm_num at hb1

theorem pow2_half_finite (rnd32 rnd64 : ℚ → Flt) (h32 : RoundsDyadic rnd32)
    (h64 : RoundsDyadic rnd64) (r : Int) (hr : r ≠ 0) (hlo : -2 ^ 63 ≤ r) (hhi : r ≤ 2 ^ 63) :
    ∃ e, Flt.pow2 rnd64 (Flt.mul rnd32 (Flt.ofInt rnd32 r) (rnd32 (1 / 2))) = Flt.fin e
      ∧ e ≠ 0 := by
  obtain ⟨-, -, hrange32⟩ := h32
  obtain ⟨-, -, hrange64⟩ := h64
  have h1 : (1 : ℚ) ≤ |(r : ℚ)| := by
    have : (1 : Int) ≤ |r| := Int.one_le_abs hr
    exact_mod_cast this
  have h2 : |(r : ℚ)| ≤ 2 ^ 63 := by
    have : |r| ≤ 2 ^ 63 := abs_le.mpr ⟨hlo, hhi⟩
    exact_mod_cast this
  have e0 : (2 : ℚ) ^ (0 : ℤ) = 1 := by norm_num
  have e63 : (2 : ℚ) ^ (63 : ℤ) = 2 ^ 63 := by norm_num
  obtain ⟨c, hc, hc1, hc2⟩ := hrange32 0 63 (r : ℚ) (by norm_num) (by norm_num)
    (by rw [e0]; exact h1) (by rw [e63]; exact h2)
  have hc1' : (1 : ℚ) ≤ |c| := by rw [e0] at hc1; exact hc1
  have hc2' : |c| ≤ (2 : ℚ) ^ 63 := by rw [e63] at hc2; exact hc2
  obtain ⟨k, hk, hk1, hk2⟩ := hrange32 (-1) (-1) (1 / 2) (by norm_num) (by norm_num)
    (by norm_num [abs_of_pos]) (by norm_num [abs_of_pos])
  have hk' : |k| = 1 / 2 := by
    have e1 : (2 : ℚ) ^ (-1 : ℤ) = 1 / 2 := by norm_num
    rw [e1] at hk1 hk2
    exact le_antisymm hk2 hk1
  have hd1 : (2 : ℚ) ^ (-1 : ℤ) ≤ |c * k| := by
    rw [abs_mul, hk']
    have e1 : (2 : ℚ) ^ (-1 : ℤ) = 1 / 2 := by norm_num
    rw [e1]; linarith
  have hd2 : |c * k| ≤ (2 : ℚ) ^ (62 : ℤ) := by
    rw [abs_mul, hk']
    have e1 : (2 : ℚ) ^ (62 : ℤ) = 2 ^ 63 * (1 / 2) := by norm_num
    rw [e1]; linarith
  obtain ⟨d, hd, hdl, hdu⟩ := hrange32 (-1) 62 (c * k) (by norm_num) (by norm_num) hd1 hd2
  have hdl' : (1 / 2 : ℚ) ≤ |d| := by
    have e1 : (2 : ℚ) ^ (-1 : ℤ) = 1 / 2 := by norm_num
    rw [e1] at hdl; exact hdl
  have hdu' : |d| ≤ (2 : ℚ) ^ 62 := by
    have e1 : (2 : ℚ) ^ (62 : ℤ) = 2 ^ 62 := by norm_num
    rw [e1] at hdu; exact hdu
  have hsq1 : (2 : ℚ) ^ (-2 : ℤ) ≤ |d * d| := by
    rw [abs_mul]
    have e1 : (2 : ℚ) ^ (-2 : ℤ) = 1 / 4 := by norm_num
    rw [e1]; nlinarith [abs_nonneg d]
  have hsq2 : |d * d| ≤ (2 : ℚ) ^ (124 : ℤ) := by
    rw [abs_mul]
    have : |d| * |d| ≤ (2 : ℚ) ^ 62 * (2 : ℚ) ^ 62 :=
      mul_le_mul hdu' hdu' (abs_nonneg d) (by positivity)
    calc |d| * |d| ≤ (2 : ℚ) ^ 62 * (2 : ℚ) ^ 62 := this
      _ = (2 : ℚ) ^ (124 : ℤ) := by norm_num
  obtain ⟨e, he, he1, -⟩ := hrange64 (-2) 124 (d * d) (by norm_num) (by norm_num) hsq1 hsq2
  refine ⟨e, ?_, ?_⟩
  · simp only [Flt.ofInt, hc, hk, Flt.mul, hd, Flt.pow2, he]
  · intro he0
    rw [he0] at he1
    norm_num at he1

/-- C8 (as amended). Elliptical falloff boundary: for a light of non-zero
radius `r` (a `long`) centred at `(lx, buffer_ly)`, `lit` at the pixel
`(lx + r, buffer_ly)` equals `1.0`, so that the strict test `distance < 1`
excludes the pixel, and `lit` at the pixel `(lx, buffer_ly)` itself equals `0`. -/
theorem lit_boundary (E : Env) (lx buffer_ly r : Int) (h32 : RoundsDyadic E.rnd32)
    (h64 : RoundsDyadic E.rnd64) (hr : r ≠ 0) (hlo : -2 ^ 63 ≤ r) (hhi : r ≤ 2 ^ 63) :
    lit E (lx + r) buffer_ly lx buffer_ly r = Flt.fin 1
      ∧ Flt.lt (lit E (lx + r) buffer_ly lx buffer_ly r) (Flt.fin 1) = false
      ∧ lit E lx buffer_ly lx buffer_ly r = Flt.fin 0 := by
  obtain ⟨b, hb, hb0⟩ := pow2_ofInt_finite E.rnd64 h64 r hr hlo hhi
  obtain ⟨e, he, he0⟩ := pow2_half_finite E.rnd32 E.rnd64 h32 h64 r hr hlo hhi
  have z64 : E.rnd64 0 = Flt.fin 0 := h64.1
  have o64 : E.rnd64 1 = Flt.fin 1 := h64.2.1
  have z32 : E.rnd32 0 = Flt.fin 0 := h32.1
  have o32 : E.rnd32 1 = Flt.fin 1 := h32.2.1
  have hzero : Flt.pow2 E.rnd64 (Flt.ofInt E.rnd64 0) = Flt.fin 0 := by
    simp [Flt.ofInt, Flt.pow2, z64]
  have e1 : lit E (lx + r) buffer_ly lx buffer_ly r = Flt.fin 1 := by
    have hx : lx + r - lx = r := by ring
    have hy : buffer_ly - buffer_ly = 0 := by ring
    simp only [lit, circle_dist, hx, hy, hb, he, hzero, Flt.div, hb0, he0, if_false,
      div_self hb0, zero_div, o64, z64, Flt.add, add_zero, Flt.conv, o32, Flt.fmin, Flt.lt,
      lt_irrefl, decide_False, Bool.false_eq_true]
  refine ⟨e1, ?_, ?_⟩
  · rw [e1]; simp [Flt.lt]
  · have hx : lx - lx = 0 := by ring
    have hy : buffer_ly - buffer_ly = 0 := by ring
    have h10 : ¬ ((1 : ℚ) < 0) := by norm_num
    simp only [lit, circle_dist, hx, hy, hb, he, hzero, Flt.div, hb0, he0, if_false,
      zero_div, z64, Flt.add, add_zero, Flt.conv, z32, Flt.fmin, Flt.lt, h10,
      decide_False, Bool.false_eq_true]

theorem lit_boundary_witness :
    lit demoEnv (2 + 4) 3 2 3 4 = Flt.fin 1
      ∧ Flt.lt (lit demoEnv (2 + 4) 3 2 3 4) (Flt.fin 1) = false
      ∧ lit demoEnv 2 3 2 3 4 = Flt.fin 0 :=
  lit_boundary demoEnv 2 3 4 roundsDyadic_exact roundsDyadic_exact (by decide) (by decide)
    (by decide)

/-- C8, as stated, fails for a light of radius `0`: both quotients of
`circle_dist` are `0 / 0`, a NaN, which `fmin` replaces by `1.0`, so `lit` at
the centre of the light is `1` and not `0`. -/
theorem lit_radius_zero_centre :
    ¬ (lit demoEnv (0 + 0) 0 0 0 0 = Flt.fin 1 ∧ lit demoEnv 0 0 0 0 0 = Flt.fin 0) := by
  decide!

/-! ## Viewport -/

/-- C3. Resize idempotence: when `setup_frame` succeeds with `(w, h)` and is
called again with the same `(w, h)`, the second call succeeds, leaves the
resize flag false and changes nothing else: whatever the allocator would
answer, the stored width and height, the output buffer and its size, the
last-frame cache and the lighting buffer are those left by the first call. -/
theorem setup_frame_idempotent (E : Env) (st : State) (host1 host2 : Host) (w h : Int)
    (hok : (setup_frame E st host1 w h).1 = true) :
    setup_frame E (setup_frame E st host1 w h).2 host2 w h
      = (true, { (setup_frame E st host1 w h).2 with resize := false }) := by
  unfold setup_frame at hok ⊢
  by_cases hw : w = st.width <;> by_cases hh : h = st.height
  · cases hbuf : st.frame.buffer <;> simp [hw, hh, hbuf]
  · have hh' : ¬ st.height = h := fun e => hh e.symm
    cases hf : host1.realloc_frame_buffer <;> cases hl : host1.realloc_last_frame <;>
      cases hs : host1.realloc_screen <;> simp [hw, hh, hh', hf, hl, hs] at hok ⊢
  · have hw' : ¬ st.width = w := fun e => hw e.symm
    cases hf : host1.realloc_frame_buffer <;> cases hl : host1.realloc_last_frame <;>
      cases hs : host1.realloc_screen <;> simp [hw, hh, hw', hf, hl, hs] at hok ⊢
  · have hw' : ¬ st.width = w := fun e => hw e.symm
    have hh' : ¬ st.height = h := fun e => hh e.symm
    cases hf : host1.realloc_frame_buffer <;> cases hl : host1.realloc_last_frame <;>
      cases hs : host1.realloc_screen <;> simp [hw, hh, hw', hh', hf, hl, hs] at hok ⊢

theorem setup_frame_idempotent_witness :
    setup_frame demoEnv (setup_frame demoEnv State.initial demoHost 1 1).2 demoHost 1 1
      = (true, { (setup_frame demoEnv State.initial demoHost 1 1).2 with resize := false }) :=
  setup_frame_idempotent demoEnv State.initial demoHost demoHost 1 1 (by decide)

/-! ## Frame diff encoder -/

theorem printable_char_eq_false_iff (E : Env) (a b : PrintableChar) :
    printable_char_eq E a b = false ↔ cell_differs E a b := by
  unfold printable_char_eq cell_differs
  cases h1 : E.colour_eq a.fg b.fg <;> cases h2 : E.colour_eq a.bg b.bg <;>
    by_cases h3 : a.character = b.character <;> by_cases h4 : a.style = b.style <;>
    simp [h3, h4]

theorem terminal_out_emit (E : Env) (st : State) (c : PrintableChar) (x y : Int)
    (settings : Settings) (last_frame : Nat → PrintableChar) (cells : List Emitted)
    (hl : st.last_frame = some last_frame) (hb : st.frame.buffer = some cells)
    (hemit : (!(printable_char_eq E (last_frame (frame_pos st.width x y)) c)
      || st.resize || st.redraw_all) = true) :
    terminal_out E st c x y settings
      = some (decide (¬ (cursor_after E st c x y settings ≥ st.frame.size
            ∨ appended_len E st c x y settings
              ≥ E.COLOUR_CODE_MAX_LEN + POS_STR_FORMAT_MAX_LEN E)),
          emitted_state E st last_frame cells c x y settings) := by
  unfold terminal_out
  simp only [hl, hb, hemit, if_true]
  show (if cursor_after E st c x y settings ≥ st.frame.size then
      some (false, emitted_state E st last_frame cells c x y settings)
    else if appended_len E st c x y settings
        ≥ E.COLOUR_CODE_MAX_LEN + POS_STR_FORMAT_MAX_LEN E then
      some (false, emitted_state E st last_frame cells c x y settings)
    else some (true, emitted_state E st last_frame cells c x y settings)) = _
  split_ifs with h1 h2
  · simp [h1]
  · simp [h1, h2]
  · simp [h1, h2]

theorem terminal_out_skip (E : Env) (st : State) (c : PrintableChar) (x y : Int)
    (settings : Settings) (last_frame : Nat → PrintableChar)
    (hl : st.last_frame = some last_frame)
    (hskip : (!(printable_char_eq E (last_frame (frame_pos st.width x y)) c)
      || st.resize || st.redraw_all) = false) :
    terminal_out E st c x y settings = some (true, st) := by
  unfold terminal_out
  simp only [hl, hskip]
  simp

/-- C4. Emit condition of the frame diff encoder: with a cache and an output
buffer allocated, `terminal_out` overwrites the cache entry at `(x, y)` and
appends the cell to the output buffer, advancing the write cursor by the two
sequences, when the new cell differs from the cached cell in glyph, foreground
colour, background colour or style, or the resize flag is set, or force-redraw
is set; in the remaining case it leaves the whole state unchanged and
succeeds. -/
theorem terminal_out_emits_iff (E : Env) (st : State) (c : PrintableChar) (x y : Int)
    (settings : Settings) (last_frame : Nat → PrintableChar) (cells : List Emitted)
    (hl : st.last_frame = some last_frame) (hb : st.frame.buffer = some cells) :
    ((cell_differs E (last_frame (frame_pos st.width x y)) c ∨ st.resize = true
        ∨ st.redraw_all = true) →
      ∃ ok, terminal_out E st c x y settings
        = some (ok, emitted_state E st last_frame cells c x y settings))
    ∧ (¬ (cell_differs E (last_frame (frame_pos st.width x y)) c ∨ st.resize = true
        ∨ st.redraw_all = true) →
      terminal_out E st c x y settings = some (true, st)) := by
  constructor
  · intro h
    refine ⟨_, terminal_out_emit E st c x y settings last_frame cells hl hb ?_⟩
    rcases h with h | h | h
    · rw [(printable_char_eq_false_iff E _ _).mpr h]; simp
    · simp [h]
    · simp [h]
  · intro h
    apply terminal_out_skip E st c x y settings last_frame hl
    have h1 : printable_char_eq E (last_frame (frame_pos st.width x y)) c = true := by
      by_contra hne
      have : printable_char_eq E (last_frame (frame_pos st.width x y)) c = false := by
        simpa using hne
      exact h (Or.inl ((printable_char_eq_false_iff E _ _).mp this))
    have h2 : st.resize = false := by
      cases hr : st.resize
      · rfl
      · exact absurd (Or.inr (Or.inl hr)) h
    have h3 : st.redraw_all = false := by
      cases hr : st.redraw_all
      · rfl
      · exact absurd (Or.inr (Or.inr hr)) h
    simp [h1, h2, h3]

theorem terminal_out_emits_iff_witness :
    ((cell_differs demoEnv ((fun _ => blankCell) (frame_pos (demoState 200).width 0 0)) demoCell
        ∨ (demoState 200).resize = true ∨ (demoState 200).redraw_all = true) →
      ∃ ok, terminal_out demoEnv (demoState 200) demoCell 0 0 demoSettings
        = some (ok, emitted_state demoEnv (demoState 200) (fun _ => blankCell) [] demoCell 0 0
            demoSettings))
    ∧ (¬ (cell_differs demoEnv ((fun _ => blankCell) (frame_pos (demoState 200).width 0 0))
          demoCell
        ∨ (demoState 200).resize = true ∨ (demoState 200).redraw_all = true) →
      terminal_out demoEnv (demoState 200) demoCell 0 0 demoSettings
        = some (true, demoState 200)) :=
  terminal_out_emits_iff demoEnv (demoState 200) demoCell 0 0 demoSettings
    (fun _ => blankCell) [] rfl rfl

/-- C5 (as amended). Overflow is fatal and exactly characterised: when a cell
is emitted, `terminal_out` fails if and only if the write cursor after
appending reaches or exceeds the output buffer's allocated size, or the number
of characters appended for this cell reaches or exceeds the per-cell maximum
`COLOUR_CODE_MAX_LEN + POS_STR_FORMAT_MAX_LEN`; in every other case it
succeeds. -/
theorem terminal_out_fails_iff (E : Env) (st : State) (c : PrintableChar) (x y : Int)
    (settings : Settings) (last_frame : Nat → PrintableChar) (cells : List Emitted)
    (hl : st.last_frame = some last_frame) (hb : st.frame.buffer = some cells)
    (hemit : cell_differs E (last_frame (frame_pos st.width x y)) c ∨ st.resize = true
      ∨ st.redraw_all = true) :
    ∃ ok st', terminal_out E st c x y settings = some (ok, st')
      ∧ (ok = false ↔
          (cursor_after E st c x y settings ≥ st.frame.size
            ∨ appended_len E st c x y settings
              ≥ E.COLOUR_CODE_MAX_LEN + POS_STR_FORMAT_MAX_LEN E)) := by
  have hcond : (!(printable_char_eq E (last_frame (frame_pos st.width x y)) c)
      || st.resize || st.redraw_all) = true := by
    rcases hemit with h | h | h
    · rw [(printable_char_eq_false_iff E _ _).mpr h]; simp
    · simp [h]
    · simp [h]
  refine ⟨_, _, terminal_out_emit E st c x y settings last_frame cells hl hb hcond, ?_⟩
  rw [decide_eq_false_iff_not, not_not]

theorem terminal_out_fails_iff_witness :
    ∃ ok st', terminal_out demoEnv (demoState 16) demoCell 0 0 demoSettings = some (ok, st')
      ∧ (ok = false ↔
          (cursor_after demoEnv (demoState 16) demoCell 0 0 demoSettings
              ≥ (demoState 16).frame.size
            ∨ appended_len demoEnv (demoState 16) demoCell 0 0 demoSettings
              ≥ demoEnv.COLOUR_CODE_MAX_LEN + POS_STR_FORMAT_MAX_LEN demoEnv)) :=
  terminal_out_fails_iff demoEnv (demoState 16) demoCell 0 0 demoSettings
    (fun _ => blankCell) [] rfl rfl (Or.inr (Or.inl rfl))

/-- C5, as stated, fails when the write cursor lands exactly on the buffer
size: in a 1 x 1 viewport with a buffer of 16 characters the cell at `(0, 0)`
takes 6 + 10 characters, the cursor after appending is 16, which does not
exceed the size 16, and 16 does not exceed the per-cell maximum 108, yet
`terminal_out` reports failure. -/
theorem terminal_out_fails_at_exact_size :
    ¬ (((terminal_out demoEnv (demoState 16) demoCell 0 0 demoSettings).map Prod.fst
          = some false) ↔
        (cursor_after demoEnv (demoState 16) demoCell 0 0 demoSettings
            > (demoState 16).frame.size
          ∨ appended_len demoEnv (demoState 16) demoCell 0 0 demoSettings
            > demoEnv.COLOUR_CODE_MAX_LEN + POS_STR_FORMAT_MAX_LEN demoEnv)) := by
  decide!

/-! ## Lighting buffer: lights that add no lightness -/

theorem sameLightness_refl (p : PixelLighting) : SameLightness p p := ⟨rfl, rfl⟩

theorem screenSameLightness_refl (s : Int → PixelLighting) : ScreenSameLightness s s :=
  fun i => sameLightness_refl (s i)

theorem screenSameLightness_update {s t : Int → PixelLighting} (h : ScreenSameLightness s t)
    (i : Int) {a b : PixelLighting} (hab : SameLightness a b) :
    ScreenSameLightness (Function.update s i a) (Function.update t i b) := by
  intro j
  by_cases hj : j = i
  · subst hj; simpa using hab
  · simpa [Function.update_noteq hj] using h j

theorem screenSameLightness_update_left {s t : Int → PixelLighting}
    (h : ScreenSameLightness s t) (i : Int) {a : PixelLighting}
    (ha : SameLightness a (s i)) : ScreenSameLightness (Function.update s i a) t := by
  intro j
  by_cases hj : j = i
  · subst hj
    have := h j
    simp only [Function.update_same]
    exact ⟨ha.1.trans this.1, ha.2.trans this.2⟩
  · simpa [Function.update_noteq hj] using h j

theorem foldl_rel {α β γ : Type} (R : β → γ → Prop) (f : β → α → β) (g : γ → α → γ)
    (hstep : ∀ s t x, R s t → R (f s x) (g t x)) (xs : List α) :
    ∀ s t, R s t → R (xs.foldl f s) (xs.foldl g t) := by
  induction xs with
  | nil => intro s t h; exact h
  | cons x xs ih => intro s t h; exact ih _ _ (hstep s t x h)

theorem foldl_rel_left {α β γ : Type} (R : β → γ → Prop) (f : β → α → β)
    (hstep : ∀ s t x, R s t → R (f s x) t) (xs : List α) :
    ∀ s t, R s t → R (xs.foldl f s) t := by
  induction xs with
  | nil => intro s t h; exact h
  | cons x xs ih => intro s t h; exact ih _ _ (hstep s t x h)

theorem add_light_pixel_colour_sameLightness (E : Env) (f : Int) (p : PixelLighting)
    (x y : Int) (d : Flt) (light : Light) (map : PyMap) (sky : Colour) (l t : Int) :
    SameLightness (add_light_pixel_colour_to_lighting_buffer E f p x y d light map sky l t)
      p := by
  unfold add_light_pixel_colour_to_lighting_buffer SameLightness
  dsimp only
  split_ifs <;> exact ⟨rfl, rfl⟩

theorem add_light_pixel_lightness_sameLightness (E : Env) (f : Int) (p q : PixelLighting)
    (d : Flt) (light : Light) (h : SameLightness p q) :
    SameLightness (add_light_pixel_lightness_to_lighting_buffer E f p d light)
      (add_light_pixel_lightness_to_lighting_buffer E f q d light) := by
  unfold add_light_pixel_lightness_to_lighting_buffer SameLightness
  dsimp only
  rw [h.1, h.2]
  split_ifs
  · exact ⟨rfl, rfl⟩
  · exact h

theorem light_pixel_sameLightness (E : Env) (w h f : Int) (light : Light) (add : Bool)
    (map : PyMap) (sky : Colour) (l t x y : Int) (s s' : Int → PixelLighting)
    (hs : ScreenSameLightness s s') :
    ScreenSameLightness (light_pixel E w h f light add map sky l t x y s)
      (light_pixel E w h f light add map sky l t x y s') := by
  unfold light_pixel
  dsimp only
  split_ifs
  · apply screenSameLightness_update hs
    have h1 := add_light_pixel_colour_sameLightness E f
      (add_light_pixel_lightness_to_lighting_buffer E f (s (get_lighting_buffer_pixel w x y))
        (lit E x y light.x (light.y - t) light.radius) light)
      x y (lit E x y light.x (light.y - t) light.radius) light map sky l t
    have h2 := add_light_pixel_colour_sameLightness E f
      (add_light_pixel_lightness_to_lighting_buffer E f (s' (get_lighting_buffer_pixel w x y))
        (lit E x y light.x (light.y - t) light.radius) light)
      x y (lit E x y light.x (light.y - t) light.radius) light map sky l t
    have h3 := add_light_pixel_lightness_sameLightness E f _ _
      (lit E x y light.x (light.y - t) light.radius) light (hs (get_lighting_buffer_pixel w x y))
    exact ⟨h1.1.trans (h3.1.trans h2.1.symm), h1.2.trans (h3.2.trans h2.2.symm)⟩
  · apply screenSameLightness_update hs
    have h1 := add_light_pixel_colour_sameLightness E f (s (get_lighting_buffer_pixel w x y))
      x y (lit E x y light.x (light.y - t) light.radius) light map sky l t
    have h2 := add_light_pixel_colour_sameLightness E f (s' (get_lighting_buffer_pixel w x y))
      x y (lit E x y light.x (light.y - t) light.radius) light map sky l t
    have h3 := hs (get_lighting_buffer_pixel w x y)
    exact ⟨h1.1.trans (h3.1.trans h2.1.symm), h1.2.trans (h3.2.trans h2.2.symm)⟩
  · exact hs
  · exact hs

theorem light_pixel_no_lightness (E : Env) (w h f : Int) (light : Light)
    (map : PyMap) (sky : Colour) (l t x y : Int) (s s' : Int → PixelLighting)
    (hs : ScreenSameLightness s s') :
    ScreenSameLightness (light_pixel E w h f light false map sky l t x y s) s' := by
  unfold light_pixel
  dsimp only
  simp only [Bool.false_eq_true, if_false]
  split_ifs
  · apply screenSameLightness_update_left hs
    exact add_light_pixel_colour_sameLightness E f _ x y _ light map sky l t
  · exact hs
  · exact hs

theorem add_light_sameLightness (E : Env) (w h f : Int) (map : PyMap) (sh : Int → Int)
    (sky : Colour) (l t : Int) (s s' : Int → PixelLighting) (py_light : PyLight)
    (hs : ScreenSameLightness s s') :
    ScreenSameLightness (add_light E w h f map sh sky l t s py_light)
      (add_light E w h f map sh sky l t s' py_light) := by
  unfold add_light
  dsimp only
  apply foldl_rel ScreenSameLightness _ _ _ _ _ _ hs
  intro a b x hab
  apply foldl_rel ScreenSameLightness _ _ _ _ _ _ hab
  intro a' b' y hab'
  exact light_pixel_sameLightness E w h f _ _ map sky l t x y a' b' hab'

theorem add_light_no_lightness (E : Env) (w h f : Int) (map : PyMap) (sh : Int → Int)
    (sky : Colour) (l t : Int) (s s' : Int → PixelLighting) (py_light : PyLight)
    (hz : check_light_z E py_light (Light.ofPy E py_light) l t map sh = false)
    (hs : ScreenSameLightness s s') :
    ScreenSameLightness (add_light E w h f map sh sky l t s py_light) s' := by
  unfold add_light
  dsimp only
  rw [hz]
  apply foldl_rel_left ScreenSameLightness _ _ _ _ _ hs
  intro a b x hab
  apply foldl_rel_left ScreenSameLightness _ _ _ _ _ hab
  intro a' b' y hab'
  exact light_pixel_no_lightness E w h f _ map sky l t x y a' b' hab'

theorem daylight_sameLightness (E : Env) (w h f : Int) (sh : Int → Int) (day : Flt)
    (l t : Int) (s s' : Int → PixelLighting) (hs : ScreenSameLightness s s') :
    ScreenSameLightness (add_daylight_lightness_to_lighting_buffer E w h f sh day l t s)
      (add_daylight_lightness_to_lighting_buffer E w h f sh day l t s') := by
  unfold add_daylight_lightness_to_lighting_buffer
  apply foldl_rel ScreenSameLightness _ _ _ _ _ _ hs
  intro a b x hab
  dsimp only
  apply foldl_rel ScreenSameLightness _ _ _ _ _ _ hab
  intro a' b' y hab'
  apply screenSameLightness_update hab'
  have h3 := hab' (get_lighting_buffer_pixel w x y)
  unfold daylight_pixel SameLightness
  rw [h3.1, h3.2]
  split_ifs
  · exact ⟨rfl, rfl⟩
  · exact h3

theorem lights_dropped_sameLightness (E : Env) (w h f : Int) (map : PyMap) (sh : Int → Int)
    (sky : Colour) (l t : Int) (keep : PyLight → Bool)
    (hkeep : ∀ py_light, keep py_light = false →
      check_light_z E py_light (Light.ofPy E py_light) l t map sh = false)
    (lights : List PyLight) :
    ∀ s s', ScreenSameLightness s s' →
      ScreenSameLightness (lights.foldl (add_light E w h f map sh sky l t) s)
        ((lights.filter keep).foldl (add_light E w h f map sh sky l t) s') := by
  induction lights with
  | nil => intro s s' hs; exact hs
  | cons a rest ih =>
      intro s s' hs
      cases hk : keep a
      · rw [List.filter_cons_of_neg (by simp [hk])]
        exact ih _ _ (add_light_no_lightness E w h f map sh sky l t s s' a (hkeep a hk) hs)
      · rw [List.filter_cons_of_pos hk]
        exact ih _ _ (add_light_sameLightness E w h f map sh sky l t s s' a hs)

theorem mem_loop_range {lo x : Int} {n : Nat} (h : x ∈ loop_range lo n) :
    ∃ k : Nat, k < n ∧ x = lo + (k : Int) := by
  unfold loop_range at h
  rw [List.mem_map] at h
  obtain ⟨k, hk, rfl⟩ := h
  exact ⟨k, List.mem_range.mp hk, rfl⟩

theorem is_light_behind_rows_of_solid (E : Env) (map : PyMap) (left_edge x : Int)
    (ys : List Int) (result : Bool)
    (h : ∀ y ∈ ys, get_block (left_edge + x) y map ≠ 0
      ∧ (E.get_block_data (get_block (left_edge + x) y map)).solid = true) :
    is_light_behind_a_solid_block_rows E map left_edge x ys result = result := by
  induction ys with
  | nil => rfl
  | cons y ys ih =>
      have hy := h y (List.mem_cons_self y ys)
      unfold is_light_behind_a_solid_block_rows
      simp only [hy.1, hy.2, beq_iff_eq, Bool.not_true, Bool.or_false, if_false]
      exact ih (fun y' hy' => h y' (List.mem_cons_of_mem y hy'))

theorem is_light_behind_of_solid (E : Env) (lx ly l_height l_width : Int) (map : PyMap)
    (left_edge : Int)
    (hprobe : ∀ x y, lx ≤ x → x < lx + l_width → ly - l_height < y → y ≤ ly →
      get_block (left_edge + x) y map ≠ 0
        ∧ (E.get_block_data (get_block (left_edge + x) y map)).solid = true) :
    is_light_behind_a_solid_block E lx ly l_height l_width map left_edge = true := by
  unfold is_light_behind_a_solid_block
  have hcols : ∀ (xs : List Int), (∀ x ∈ xs, lx ≤ x ∧ x < lx + l_width) →
      xs.foldl
        (fun result x =>
          is_light_behind_a_solid_block_rows E map left_edge x
            ((List.range l_height.toNat).map (fun (k : Nat) => ly - (k : Int))) result)
        true = true := by
    intro xs
    induction xs with
    | nil => intro _; rfl
    | cons x xs ih =>
        intro hx
        rw [List.foldl_cons]
        have hx0 := hx x (List.mem_cons_self x xs)
        rw [is_light_behind_rows_of_solid E map left_edge x _ true]
        · exact ih (fun x' hx' => hx x' (List.mem_cons_of_mem x hx'))
        · intro y hy
          rw [List.mem_map] at hy
          obtain ⟨k, hk, rfl⟩ := hy
          have hk' := List.mem_range.mp hk
          apply hprobe x _ hx0.1 hx0.2 <;> omega
  apply hcols
  intro x hx
  obtain ⟨k, hk, rfl⟩ := mem_loop_range hx
  constructor <;> omega

theorem check_light_z_tier_minus_two (E : Env) (py_light : PyLight) (l t : Int)
    (map : PyMap) (sh : Int → Int) (hz : py_light.z = -2) :
    check_light_z E py_light (Light.ofPy E py_light) l t map sh = false := by
  unfold check_light_z Light.ofPy
  simp [hz]

theorem check_light_z_occluded (E : Env) (py_light : PyLight) (l t : Int)
    (map : PyMap) (sh : Int → Int) (hz : py_light.z = -1)
    (hbehind : is_light_behind_a_solid_block E py_light.x py_light.y (probe_height py_light)
      (probe_width py_light) map l = true) :
    check_light_z E py_light (Light.ofPy E py_light) l t map sh = false := by
  unfold probe_height probe_width at hbehind
  unfold check_light_z Light.ofPy
  simp [hz, hbehind]

theorem create_lighting_buffer_some (E : Env) (width height : Int)
    (lighting_buffer : LightingBuffer) (screen : Int → PixelLighting)
    (hscreen : lighting_buffer.screen = some screen) (lights : List PyLight) (map : PyMap)
    (slice_heights : Int → Int) (day : Flt) (sky_colour : Colour) (left_edge top_edge : Int) :
    create_lighting_buffer E width height lighting_buffer lights map slice_heights day
        sky_colour left_edge top_edge
      = some ⟨lighting_buffer.current_frame + 1,
          some (add_daylight_lightness_to_lighting_buffer E width height
            (lighting_buffer.current_frame + 1) slice_heights day left_edge top_edge
            (lights.foldl
              (add_light E width height (lighting_buffer.current_frame + 1) map slice_heights
                sky_colour left_edge top_edge)
              screen))⟩ := by
  unfold create_lighting_buffer
  simp only [hscreen]

/-- C6. Light tier -2 exclusion: with the lighting buffer allocated, the
lightness (and the lightness stamp) that `create_lighting_buffer` leaves at
every offset of the buffer, hence at every pixel of the viewport, is the one
it leaves on the same inputs with all tier `-2` lights removed. -/
theorem tier_minus_two_excluded (E : Env) (width height : Int)
    (lighting_buffer : LightingBuffer) (screen : Int → PixelLighting)
    (hscreen : lighting_buffer.screen = some screen) (lights : List PyLight) (map : PyMap)
    (slice_heights : Int → Int) (day : Flt) (sky_colour : Colour) (left_edge top_edge : Int) :
    ∃ s1 s2,
      create_lighting_buffer E width height lighting_buffer lights map slice_heights day
          sky_colour left_edge top_edge
        = some ⟨lighting_buffer.current_frame + 1, some s1⟩
      ∧ create_lighting_buffer E width height lighting_buffer
          (lights.filter (fun py_light => decide (py_light.z ≠ -2))) map slice_heights day
          sky_colour left_edge top_edge
        = some ⟨lighting_buffer.current_frame + 1, some s2⟩
      ∧ ∀ i, (s1 i).lightness = (s2 i).lightness
          ∧ (s1 i).lightness_set_on_frame = (s2 i).lightness_set_on_frame := by
  refine ⟨_, _, create_lighting_buffer_some E width height lighting_buffer screen hscreen _ map
    slice_heights day sky_colour left_edge top_edge,
    create_lighting_buffer_some E width height lighting_buffer screen hscreen _ map
    slice_heights day sky_colour left_edge top_edge, ?_⟩
  · apply daylight_sameLightness
    apply lights_dropped_sameLightness E width height _ map slice_heights sky_colour left_edge
      top_edge (fun py_light => decide (py_light.z ≠ -2)) _ lights screen screen
      (screenSameLightness_refl screen)
    intro py_light hk
    apply check_light_z_tier_minus_two
    simpa using hk

theorem tier_minus_two_excluded_witness :
    ∃ s1 s2,
      create_lighting_buffer demoEnv 1 1 demoLightingBuffer [demoLight (-2), demoLight 0]
          demoMap (fun _ => 0) (Flt.fin 1) white 0 0
        = some ⟨demoLightingBuffer.current_frame + 1, some s1⟩
      ∧ create_lighting_buffer demoEnv 1 1 demoLightingBuffer
          ([demoLight (-2), demoLight 0].filter (fun py_light => decide (py_light.z ≠ -2)))
          demoMap (fun _ => 0) (Flt.fin 1) white 0 0
        = some ⟨demoLightingBuffer.current_frame + 1, some s2⟩
      ∧ ∀ i, (s1 i).lightness = (s2 i).lightness
          ∧ (s1 i).lightness_set_on_frame = (s2 i).lightness_set_on_frame :=
  tier_minus_two_excluded demoEnv 1 1 demoLightingBuffer (fun _ => blankPixel) rfl
    [demoLight (-2), demoLight 0] demoMap (fun _ => 0) (Flt.fin 1) white 0 0

/-- C7. Occlusion: for a tier `-1` light whose probe (columns `light.x` to
`light.x + source_width - 1` offset by `left_edge`, rows `light.y` down to
`light.y - source_height + 1`) consists only of solid glyph cells,
`is_light_behind_a_solid_block` returns true, and with the lighting buffer
allocated `create_lighting_buffer` leaves at every offset of the buffer the
lightness (and lightness stamp) it leaves without that light. -/
theorem occluded_light_excluded (E : Env) (width height : Int)
    (lighting_buffer : LightingBuffer) (screen : Int → PixelLighting)
    (hscreen : lighting_buffer.screen = some screen) (before after : List PyLight)
    (light : PyLight) (map : PyMap) (slice_heights : Int → Int) (day : Flt)
    (sky_colour : Colour) (left_edge top_edge : Int) (hz : light.z = -1)
    (hprobe : ∀ x y, light.x ≤ x → x < light.x + probe_width light →
      light.y - probe_height light < y → y ≤ light.y →
      get_block (left_edge + x) y map ≠ 0
        ∧ (E.get_block_data (get_block (left_edge + x) y map)).solid = true) :
    is_light_behind_a_solid_block E light.x light.y (probe_height light) (probe_width light)
        map left_edge = true
    ∧ ∃ s1 s2,
      create_lighting_buffer E width height lighting_buffer (before ++ light :: after) map
          slice_heights day sky_colour left_edge top_edge
        = some ⟨lighting_buffer.current_frame + 1, some s1⟩
      ∧ create_lighting_buffer E width height lighting_buffer (before ++ after) map
          slice_heights day sky_colour left_edge top_edge
        = some ⟨lighting_buffer.current_frame + 1, some s2⟩
      ∧ ∀ i, (s1 i).lightness = (s2 i).lightness
          ∧ (s1 i).lightness_set_on_frame = (s2 i).lightness_set_on_frame := by
  have hbehind := is_light_behind_of_solid E light.x light.y (probe_height light)
    (probe_width light) map left_edge hprobe
  refine ⟨hbehind, _, _, create_lighting_buffer_some E width height lighting_buffer screen
    hscreen _ map slice_heights day sky_colour left_edge top_edge,
    create_lighting_buffer_some E width height lighting_buffer screen hscreen _ map
    slice_heights day sky_colour left_edge top_edge, ?_⟩
  · apply daylight_sameLightness
    rw [List.foldl_append, List.foldl_append, List.foldl_cons]
    apply foldl_rel ScreenSameLightness _ _
      (fun s t x hst =>
        add_light_sameLightness E width height _ map slice_heights sky_colour left_edge
          top_edge s t x hst)
    apply add_light_no_lightness E width height _ map slice_heights sky_colour left_edge
      top_edge _ _ light
      (check_light_z_occluded E light left_edge top_edge map slice_heights hz hbehind)
    exact screenSameLightness_refl _

theorem occluded_light_excluded_witness :
    is_light_behind_a_solid_block demoEnv (demoLight (-1)).x (demoLight (-1)).y
        (probe_height (demoLight (-1))) (probe_width (demoLight (-1))) demoMap 0 = true
    ∧ ∃ s1 s2,
      create_lighting_buffer demoEnv 1 1 demoLightingBuffer
          ([demoLight 0] ++ demoLight (-1) :: []) demoMap (fun _ => 0) (Flt.fin 1) white 0 0
        = some ⟨demoLightingBuffer.current_frame + 1, some s1⟩
      ∧ create_lighting_buffer demoEnv 1 1 demoLightingBuffer ([demoLight 0] ++ []) demoMap
          (fun _ => 0) (Flt.fin 1) white 0 0
        = some ⟨demoLightingBuffer.current_frame + 1, some s2⟩
      ∧ ∀ i, (s1 i).lightness = (s2 i).lightness
          ∧ (s1 i).lightness_set_on_frame = (s2 i).lightness_set_on_frame :=
  occluded_light_excluded demoEnv 1 1 demoLightingBuffer (fun _ => blankPixel) rfl
    [demoLight 0] [] (demoLight (-1)) demoMap (fun _ => 0) (Flt.fin 1) white 0 0 rfl
    (by
      intro x y h1 h2 h3 h4
      have hx : x = 0 := by
        simp only [demoLight, probe_width, get_long_from_PyDict_or] at h1 h2; omega
      have hy : y = 0 := by
        simp only [demoLight, probe_height, get_long_from_PyDict_or] at h3 h4; omega
      subst hx; subst hy
      decide)

/-! ## The render loop -/

theorem render_column_eq_run_visits (E : Env) (a : RenderArgs) (host : Host)
    (world_x_l : Int) (items : List Nat) :
    ∀ (world_y_l : Int) (st : State),
      render_column E a host world_x_l (world_x_l - a.left_edge) items world_y_l st
        = run_visits E a host (column_visits a world_x_l items world_y_l) st := by
  induction items with
  | nil => intro wy st; rfl
  | cons p rest ih =>
      intro wy st
      unfold render_column column_visits
      by_cases hr : wy ≥ a.top_edge ∧ wy < a.bottom_edge
      · simp only [hr, and_self, if_true]
        unfold run_visits render_visit resolve_visit
        dsimp only
        by_cases hp : p = 0
        · simp [hp]
        · simp only [hp, if_false]
          cases hc : create_lit_block E st.width (world_x_l - a.left_edge) (wy - a.top_edge)
              world_x_l wy a.map p a.objects st.lighting_buffer a.settings
              (host.stack (world_x_l - a.left_edge) (wy - a.top_edge)) with
          | none => rfl
          | some c =>
              dsimp only
              by_cases ht : a.settings.terminal_output > 0
              · simp only [ht, if_true]
                cases hto : terminal_out E st c (world_x_l - a.left_edge) (wy - a.top_edge)
                    a.settings with
                | none => rfl
                | some r =>
                    obtain ⟨ok, st'⟩ := r
                    cases ok
                    · rfl
                    · exact ih (wy + 1) st'
              · simp only [ht, if_false]
                exact ih (wy + 1) st
      · simp only [hr, if_false]
        exact ih (wy + 1) st

theorem run_visits_append (E : Env) (a : RenderArgs) (host : Host) (l1 l2 : List Visit) :
    ∀ st st', run_visits E a host l1 st = (Outcome.ok, st') →
      run_visits E a host (l1 ++ l2) st = run_visits E a host l2 st' := by
  induction l1 with
  | nil =>
      intro st st' h
      simp only [run_visits, Prod.mk.injEq, true_and] at h
      subst h; rfl
  | cons v rest ih =>
      intro st st' h
      rw [List.cons_append]
      simp only [run_visits] at h ⊢
      cases hv : render_visit E a host v st with
      | mk o s1 =>
          rw [hv] at h
          cases o with
          | ok => exact ih s1 st' h
          | error e => simp at h
          | crash => simp at h

theorem render_columns_eq_run_visits (E : Env) (a : RenderArgs) (host : Host)
    (cols : List (Int × PyColumn)) :
    ∀ st st', render_columns E a host cols st = (Outcome.ok, st') →
      run_visits E a host (map_visits a cols) st = (Outcome.ok, st') := by
  induction cols with
  | nil => intro st st' h; exact h
  | cons kv rest ih =>
      intro st st' h
      obtain ⟨wx, column⟩ := kv
      unfold render_columns at h
      unfold map_visits
      by_cases hr : wx ≥ a.left_edge ∧ wx < a.right_edge
      · simp only [hr, and_self, not_true_eq_false, if_false] at h ⊢
        cases column with
        | notList => simp at h
        | list items =>
            dsimp only at h ⊢
            rw [render_column_eq_run_visits] at h
            cases hcol : run_visits E a host (column_visits a wx items 0) st with
            | mk o s1 =>
                rw [hcol] at h
                cases o with
                | ok =>
                    rw [run_visits_append E a host _ _ st s1 hcol]
                    exact ih s1 st' h
                | error e => simp at h
                | crash => simp at h
      · simp only [hr, not_false_eq_true, if_true] at h ⊢
        exact ih st st' h

theorem setup_frame_ok (E : Env) (st st1 : State) (host : Host) (w h : Int)
    (hok : setup_frame E st host w h = (true, st1)) :
    st1.width = w ∧ st1.height = h ∧ st1.frame.cur_pos = 0
      ∧ st1.redraw_all = st.redraw_all
      ∧ (st1.frame.buffer = none ∨ st1.frame.buffer = some [])
      ∧ st1.lighting_buffer.current_frame = st.lighting_buffer.current_frame
      ∧ (st1.resize = false →
          st1.last_frame = st.last_frame ∧ st.width = w ∧ st.height = h
            ∧ st1.lighting_buffer = st.lighting_buffer) := by
  unfold setup_frame at hok
  by_cases hw : w = st.width <;> by_cases hh : h = st.height
  · simp only [hw, hh, ne_eq, not_true_eq_false, if_false, Bool.false_eq_true,
      Prod.mk.injEq, true_and] at hok
    subst hok
    refine ⟨hw.symm, hh.symm, rfl, rfl, ?_, rfl, fun _ => ⟨rfl, hw.symm, hh.symm, rfl⟩⟩
    cases st.frame.buffer <;> simp
  · have hh' : ¬ st.height = h := fun e => hh e.symm
    cases hf : host.realloc_frame_buffer <;> cases hl : host.realloc_last_frame <;>
      cases hs : host.realloc_screen <;> simp [hw, hh, hh', hf, hl, hs] at hok
    subst hok
    simp [hw]
  · have hw' : ¬ st.width = w := fun e => hw e.symm
    cases hf : host.realloc_frame_buffer <;> cases hl : host.realloc_last_frame <;>
      cases hs : host.realloc_screen <;> simp [hw, hh, hw', hf, hl, hs] at hok
    subst hok
    simp [hh]
  · have hw' : ¬ st.width = w := fun e => hw e.symm
    have hh' : ¬ st.height = h := fun e => hh e.symm
    cases hf : host.realloc_frame_buffer <;> cases hl : host.realloc_last_frame <;>
      cases hs : host.realloc_screen <;> simp [hw, hh, hw', hh', hf, hl, hs] at hok
    subst hok
    simp

theorem terminal_out_cases (E : Env) (st st' : State) (c : PrintableChar) (x y : Int)
    (settings : Settings) (ok : Bool)
    (h : terminal_out E st c x y settings = some (ok, st')) :
    ∃ last_frame, st.last_frame = some last_frame ∧
      (((!(printable_char_eq E (last_frame (frame_pos st.width x y)) c)
            || st.resize || st.redraw_all) = true
          ∧ ∃ cells, st.frame.buffer = some cells
            ∧ st' = emitted_state E st last_frame cells c x y settings)
        ∨ ((!(printable_char_eq E (last_frame (frame_pos st.width x y)) c)
            || st.resize || st.redraw_all) = false
          ∧ st' = st ∧ ok = true)) := by
  cases hl : st.last_frame with
  | none => unfold terminal_out at h; simp [hl] at h
  | some last_frame =>
      refine ⟨last_frame, rfl, ?_⟩
      cases hc : (!(printable_char_eq E (last_frame (frame_pos st.width x y)) c)
            || st.resize || st.redraw_all) with
      | false =>
          right
          rw [terminal_out_skip E st c x y settings last_frame hl hc] at h
          simp only [Option.some.injEq, Prod.mk.injEq] at h
          exact ⟨rfl, h.2.symm, h.1.symm⟩
      | true =>
          left
          refine ⟨rfl, ?_⟩
          cases hb : st.frame.buffer with
          | none => unfold terminal_out at h; simp [hl, hb, hc] at h
          | some cells =>
              refine ⟨cells, rfl, ?_⟩
              rw [terminal_out_emit E st c x y settings last_frame cells hl hb hc] at h
              simp only [Option.some.injEq, Prod.mk.injEq] at h
              exact h.2.symm

theorem render_visit_ok (E : Env) (a : RenderArgs) (host : Host) (v : Visit) (st st' : State)
    (h : render_visit E a host v st = (Outcome.ok, st')) :
    v.pixel ≠ 0 ∧ ∃ c, resolve_visit E a host st v = some c
      ∧ ((a.settings.terminal_output > 0
            ∧ terminal_out E st c (v.world_x - a.left_edge) (v.world_y - a.top_edge)
                a.settings = some (true, st'))
          ∨ (¬ a.settings.terminal_output > 0 ∧ st' = st)) := by
  unfold render_visit at h
  by_cases hp : v.pixel = 0
  · simp [hp] at h
  · refine ⟨hp, ?_⟩
    simp only [hp, if_false] at h
    cases hc : resolve_visit E a host st v with
    | none => rw [hc] at h; simp at h
    | some c =>
        rw [hc] at h
        refine ⟨c, rfl, ?_⟩
        dsimp only at h
        by_cases ht : a.settings.terminal_output > 0
        · left
          refine ⟨ht, ?_⟩
          simp only [ht, if_true] at h
          cases hto : terminal_out E st c (v.world_x - a.left_edge) (v.world_y - a.top_edge)
              a.settings with
          | none => rw [hto] at h; simp at h
          | some r =>
              obtain ⟨ok, s1⟩ := r
              rw [hto] at h
              cases ok
              · simp at h
              · simp only [Prod.mk.injEq, true_and] at h
                rw [h]
        · right
          refine ⟨ht, ?_⟩
          simp only [ht, if_false, Prod.mk.injEq, true_and] at h
          exact h.symm

theorem resolve_visit_congr (E : Env) (a : RenderArgs) (host : Host) (st st' : State)
    (v : Visit) (hw : st'.width = st.width)
    (hl : st'.lighting_buffer = st.lighting_buffer) :
    resolve_visit E a host st' v = resolve_visit E a host st v := by
  unfold resolve_visit
  rw [hw, hl]

theorem run_visits_forced (E : Env) (a : RenderArgs) (host : Host)
    (hto : a.settings.terminal_output > 0) (vs : List Visit) :
    ∀ (st st' : State) (cells : List Emitted), st.redraw_all = true →
      st.frame.buffer = some cells → run_visits E a host vs st = (Outcome.ok, st') →
      ∃ em, st'.frame.buffer = some (cells ++ em)
        ∧ List.Forall₂
            (fun (e : Emitted) (v : Visit) =>
              (e.x, e.y) = v.pos a ∧ resolve_visit E a host st v = some e.c ∧ v.pixel ≠ 0)
            em vs := by
  induction vs with
  | nil =>
      intro st st' cells _ hb h
      simp only [run_visits, Prod.mk.injEq, true_and] at h
      subst h
      exact ⟨[], by simpa using hb, List.Forall₂.nil⟩
  | cons v rest ih =>
      intro st st' cells hr hb h
      simp only [run_visits] at h
      cases hv : render_visit E a host v st with
      | mk o s1 =>
          rw [hv] at h
          cases o with
          | error e => simp at h
          | crash => simp at h
          | ok =>
              dsimp only at h
              obtain ⟨hp, c, hc, hcase⟩ := render_visit_ok E a host v st s1 hv
              rcases hcase with ⟨_, hterm⟩ | ⟨hno, _⟩
              · obtain ⟨lf, hlf, hcs⟩ := terminal_out_cases E st s1 c _ _ a.settings true hterm
                rcases hcs with ⟨_, cells', hb', hs1⟩ | ⟨hskip, _, _⟩
                · rw [hb] at hb'
                  simp only [Option.some.injEq] at hb'
                  subst hb'
                  have hr1 : s1.redraw_all = true := by rw [hs1]; exact hr
                  have hb1 : s1.frame.buffer
                      = some (cells ++ [⟨v.world_x - a.left_edge, v.world_y - a.top_edge, c⟩]) := by
                    rw [hs1]; rfl
                  obtain ⟨em, hem, hall⟩ := ih s1 st' _ hr1 hb1 h
                  refine ⟨⟨v.world_x - a.left_edge, v.world_y - a.top_edge, c⟩ :: em, ?_, ?_⟩
                  · rw [hem]; simp
                  · refine List.Forall₂.cons ⟨rfl, hc, hp⟩ ?_
                    refine List.Forall₂.imp ?_ hall
                    intro e v' hev
                    refine ⟨hev.1, ?_, hev.2.2⟩
                    rw [← hev.2.1]
                    apply (resolve_visit_congr E a host st s1 v' _ _).symm
                    · rw [hs1]; rfl
                    · rw [hs1]; rfl
                · simp [hr] at hskip
              · exact absurd hto hno

theorem count_column_visits (a : RenderArgs) (wx x y : Int) (items : List Nat) :
    ∀ wy0 : Int,
      ((column_visits a wx items wy0).map (Visit.pos a)).count (x, y)
        = if x = wx - a.left_edge ∧ wy0 ≤ a.top_edge + y
            ∧ a.top_edge + y < wy0 + (items.length : Int) ∧ 0 ≤ y
            ∧ a.top_edge + y < a.bottom_edge then 1 else 0 := by
  induction items with
  | nil =>
      intro wy0
      have : ¬ (x = wx - a.left_edge ∧ wy0 ≤ a.top_edge + y
          ∧ a.top_edge + y < wy0 + (([] : List Nat).length : Int) ∧ 0 ≤ y
          ∧ a.top_edge + y < a.bottom_edge) := by
        simp only [List.length_nil, Nat.cast_zero]; omega
      rw [if_neg this]; rfl
  | cons p rest ih =>
      intro wy0
      unfold column_visits
      by_cases hr : wy0 ≥ a.top_edge ∧ wy0 < a.bottom_edge
      · simp only [hr, and_self, if_true, List.map_cons, List.count_cons, ih (wy0 + 1),
          Visit.pos, List.length_cons, Nat.cast_add, Nat.cast_one, beq_iff_eq, Prod.mk.injEq]
        split_ifs <;> omega
      · simp only [hr, if_false, ih (wy0 + 1), List.length_cons, Nat.cast_add, Nat.cast_one]
        split_ifs <;> omega

theorem mem_column_visits (a : RenderArgs) (wx : Int) (items : List Nat) :
    ∀ (wy0 wy : Int), wy0 ≤ wy → wy < wy0 + (items.length : Int) → a.top_edge ≤ wy →
      wy < a.bottom_edge →
      (⟨wx, wy, items.getD (wy - wy0).toNat 0⟩ : Visit) ∈ column_visits a wx items wy0 := by
  induction items with
  | nil => intro wy0 wy h1 h2; simp only [List.length_nil, Nat.cast_zero] at h2; omega
  | cons p rest ih =>
      intro wy0 wy h1 h2 h3 h4
      simp only [List.length_cons, Nat.cast_add, Nat.cast_one] at h2
      unfold column_visits
      by_cases he : wy = wy0
      · subst he
        have hr : wy ≥ a.top_edge ∧ wy < a.bottom_edge := ⟨h3, h4⟩
        simp [hr]
      · have hstep := ih (wy0 + 1) wy (by omega) (by omega) h3 h4
        have hidx : (wy - wy0).toNat = (wy - (wy0 + 1)).toNat + 1 := by omega
        rw [hidx, List.getD_cons_succ]
        split_ifs
        · exact List.mem_cons_of_mem _ hstep
        · exact hstep

theorem getItem_dict_of_not_mem (cols : List (Int × PyColumn)) (x : Int)
    (h : x ∉ cols.map Prod.fst) : (PyMap.dict cols).getItem x = none := by
  unfold PyMap.getItem
  simp only [Option.map_eq_none', List.find?_eq_none, beq_iff_eq]
  intro kv hkv hx
  exact h (List.mem_map.mpr ⟨kv, hkv, hx⟩)

theorem get_block_dict_cons_ne (wx : Int) (col : PyColumn) (rest : List (Int × PyColumn))
    (x y : Int) (h : wx ≠ x) :
    get_block x y (PyMap.dict ((wx, col) :: rest)) = get_block x y (PyMap.dict rest) := by
  unfold get_block PyMap.getItem
  simp [List.find?_cons, h]

theorem get_block_dict_cons_eq (wx : Int) (col : PyColumn) (rest : List (Int × PyColumn))
    (y : Int) :
    get_block wx y (PyMap.dict ((wx, col) :: rest))
      = match col with
        | PyColumn.list items =>
            if y < (items.length : Int) then (if 0 ≤ y then items.getD y.toNat 0 else 0) else 0
        | PyColumn.notList => 0 := by
  unfold get_block PyMap.getItem
  cases col <;> simp [List.find?_cons]

theorem count_map_visits (a : RenderArgs) (x y : Int) (cols : List (Int × PyColumn)) :
    (cols.map Prod.fst).Nodup → (∀ v ∈ map_visits a cols, v.pixel ≠ 0) →
    ((map_visits a cols).map (Visit.pos a)).count (x, y)
      = if 0 ≤ x ∧ x < a.right_edge - a.left_edge ∧ 0 ≤ y ∧ y < a.bottom_edge - a.top_edge
          ∧ get_block (a.left_edge + x) (a.top_edge + y) (PyMap.dict cols) ≠ 0 then 1
        else 0 := by
  induction cols with
  | nil =>
      intro _ _
      have : get_block (a.left_edge + x) (a.top_edge + y) (PyMap.dict []) = 0 := by
        simp [get_block, PyMap.getItem]
      simp [map_visits, this]
  | cons kv rest ih =>
      obtain ⟨wx, col⟩ := kv
      intro hnd hpix
      simp only [List.map_cons, List.nodup_cons] at hnd
      obtain ⟨hnotin, hnd'⟩ := hnd
      by_cases hwx : wx = a.left_edge + x
      · -- this column holds the pixel, the rest cannot
        have hrest0 : get_block (a.left_edge + x) (a.top_edge + y) (PyMap.dict rest) = 0 := by
          unfold get_block
          rw [getItem_dict_of_not_mem rest _ (hwx ▸ hnotin)]
        subst hwx
        rw [get_block_dict_cons_eq]
        unfold map_visits at hpix ⊢
        by_cases hr : a.left_edge + x ≥ a.left_edge ∧ a.left_edge + x < a.right_edge
        · simp only [hr, and_self, not_true_eq_false, if_false] at hpix ⊢
          cases col with
          | notList =>
              dsimp only at hpix ⊢
              rw [ih hnd' hpix, hrest0]
          | list items =>
              dsimp only at hpix ⊢
              have hpr : ∀ v ∈ map_visits a rest, v.pixel ≠ 0 :=
                fun v hv => hpix v (List.mem_append_right _ hv)
              rw [List.map_append, List.count_append, ih hnd' hpr, hrest0,
                count_column_visits]
              by_cases hin : 0 ≤ a.top_edge + y ∧ a.top_edge + y < (items.length : Int) ∧ 0 ≤ y
                  ∧ a.top_edge + y < a.bottom_edge
              · have hmem := mem_column_visits a (a.left_edge + x) items 0 (a.top_edge + y)
                  hin.1 (by omega) (by omega) hin.2.2.2
                have hne := hpix _ (List.mem_append_left _ hmem)
                simp only [sub_zero] at hne
                have hne' : items.getD (a.top_edge + y).toNat 0 ≠ 0 := hne
                have h1 : (a.left_edge + x - a.left_edge = x) := by ring
                rw [if_pos (by omega), if_pos hin.2.1, if_pos hin.1]
                simp only [ne_eq, not_true_eq_false, and_false, if_false, add_zero]
                rw [if_pos ⟨by omega, by omega, by omega, by omega, hne'⟩]
              · have hneg : ¬ (x = a.left_edge + x - a.left_edge ∧ 0 ≤ a.top_edge + y
                    ∧ a.top_edge + y < 0 + (items.length : Int) ∧ 0 ≤ y
                    ∧ a.top_edge + y < a.bottom_edge) := by
                  intro h; apply hin; omega
                rw [if_neg hneg]
                simp only [ne_eq, not_true_eq_false, and_false, if_false, add_zero]
                symm
                rw [if_neg]
                intro h
                apply hin
                obtain ⟨h1, h2, h3, h4, h5⟩ := h
                by_cases hlen : a.top_edge + y < (items.length : Int)
                · by_cases h0 : 0 ≤ a.top_edge + y
                  · omega
                  · simp [hlen, h0] at h5
                · simp [hlen] at h5
        · simp only [hr, not_false_eq_true, if_true] at hpix ⊢
          rw [ih hnd' hpix, hrest0]
          simp only [ne_eq, not_true_eq_false, and_false, if_false]
          symm
          rw [if_neg]
          intro h
          apply hr
          omega
      · rw [get_block_dict_cons_ne wx col rest _ _ hwx]
        unfold map_visits at hpix ⊢
        by_cases hr : wx ≥ a.left_edge ∧ wx < a.right_edge
        · simp only [hr, and_self, not_true_eq_false, if_false] at hpix ⊢
          cases col with
          | notList =>
              dsimp only at hpix ⊢
              exact ih hnd' hpix
          | list items =>
              dsimp only at hpix ⊢
              have hpr : ∀ v ∈ map_visits a rest, v.pixel ≠ 0 :=
                fun v hv => hpix v (List.mem_append_right _ hv)
              rw [List.map_append, List.count_append, ih hnd' hpr, count_column_visits]
              have hneg : ¬ (x = wx - a.left_edge ∧ 0 ≤ a.top_edge + y
                  ∧ a.top_edge + y < 0 + (items.length : Int) ∧ 0 ≤ y
                  ∧ a.top_edge + y < a.bottom_edge) := by
                intro h; apply hwx; omega
              rw [if_neg hneg, zero_add]
        · simp only [hr, not_false_eq_true, if_true] at hpix ⊢
          exact ih hnd' hpix

theorem run_visits_same (E : Env) (a : RenderArgs) (host : Host) (vs : List Visit) :
    ∀ st st', run_visits E a host vs st = (Outcome.ok, st') →
      st'.width = st.width ∧ st'.height = st.height ∧ st'.resize = st.resize
        ∧ st'.redraw_all = st.redraw_all ∧ st'.lighting_buffer = st.lighting_buffer
        ∧ st'.frame.size = st.frame.size
        ∧ (st.frame.buffer = none → st'.frame.buffer = none) := by
  induction vs with
  | nil =>
      intro st st' h
      simp only [run_visits, Prod.mk.injEq, true_and] at h
      subst h
      exact ⟨rfl, rfl, rfl, rfl, rfl, rfl, id⟩
  | cons v rest ih =>
      intro st st' h
      simp only [run_visits] at h
      cases hv : render_visit E a host v st with
      | mk o s1 =>
          rw [hv] at h
          cases o with
          | error e => simp at h
          | crash => simp at h
          | ok =>
              dsimp only at h
              obtain ⟨h1, h2, h3, h4, h5, h6, h7⟩ := ih s1 st' h
              obtain ⟨_, c, _, hcase⟩ := render_visit_ok E a host v st s1 hv
              have hs1 : s1.width = st.width ∧ s1.height = st.height ∧ s1.resize = st.resize
                  ∧ s1.redraw_all = st.redraw_all ∧ s1.lighting_buffer = st.lighting_buffer
                  ∧ s1.frame.size = st.frame.size
                  ∧ (st.frame.buffer = none → s1.frame.buffer = none) := by
                rcases hcase with ⟨_, hterm⟩ | ⟨_, hst⟩
                · obtain ⟨lf, _, hcs⟩ := terminal_out_cases E st s1 c _ _ a.settings true hterm
                  rcases hcs with ⟨_, cells, hb, hs1⟩ | ⟨_, hs1, _⟩
                  · rw [hs1]
                    refine ⟨rfl, rfl, rfl, rfl, rfl, rfl, ?_⟩
                    intro hn; rw [hn] at hb; simp at hb
                  · rw [hs1]; exact ⟨rfl, rfl, rfl, rfl, rfl, rfl, id⟩
                · rw [hst]; exact ⟨rfl, rfl, rfl, rfl, rfl, rfl, id⟩
              obtain ⟨g1, g2, g3, g4, g5, g6, g7⟩ := hs1
              exact ⟨h1.trans g1, h2.trans g2, h3.trans g3, h4.trans g4, h5.trans g5,
                h6.trans g6, fun hn => h7 (g7 hn)⟩

theorem render_map_ok (E : Env) (st st' : State) (a : RenderArgs) (host : Host)
    (cols : List (Int × PyColumn)) (hmap : a.map = PyMap.dict cols)
    (hok : render_map E st a host = (Outcome.ok, st')) :
    ∃ st1 lb,
      setup_frame E { st with redraw_all := a.redraw_all } host
          (a.right_edge - a.left_edge) (a.bottom_edge - a.top_edge) = (true, st1)
      ∧ create_lighting_buffer E st1.width st1.height st1.lighting_buffer a.lights a.map
          a.slice_heights a.day a.sky_colour a.left_edge a.top_edge = some lb
      ∧ render_columns E a host cols { st1 with lighting_buffer := lb } = (Outcome.ok, st')
      ∧ (a.settings.terminal_output > 0 →
          st'.frame.buffer ≠ none ∧ (host.wprintf % 2 ^ 64).toNat = st'.frame.cur_pos) := by
  unfold render_map at hok
  dsimp only at hok
  cases hsf : setup_frame E { st with redraw_all := a.redraw_all } host
      (a.right_edge - a.left_edge) (a.bottom_edge - a.top_edge) with
  | mk b st1 =>
      rw [hsf] at hok
      cases b with
      | false => simp at hok
      | true =>
          dsimp only at hok
          rw [hmap] at hok
          dsimp only at hok
          rw [← hmap] at hok
          cases hlb : create_lighting_buffer E st1.width st1.height st1.lighting_buffer a.lights
              a.map a.slice_heights a.day a.sky_colour a.left_edge a.top_edge with
          | none => rw [hlb] at hok; simp at hok
          | some lb =>
              rw [hlb] at hok
              dsimp only at hok
              cases hrc : render_columns E a host cols { st1 with lighting_buffer := lb } with
              | mk o s3 =>
                  rw [hrc] at hok
                  cases o with
                  | error e => simp at hok
                  | crash => simp at hok
                  | ok =>
                      dsimp only at hok
                      have hfinal : s3 = st' ∧ (a.settings.terminal_output > 0 →
                          s3.frame.buffer ≠ none
                            ∧ (host.wprintf % 2 ^ 64).toNat = s3.frame.cur_pos) := by
                        by_cases ht : a.settings.terminal_output > 0
                        · simp only [ht, if_true] at hok
                          cases hb : s3.frame.buffer with
                          | none => rw [hb] at hok; simp at hok
                          | some cells =>
                              rw [hb] at hok
                              dsimp only at hok
                              split_ifs at hok with hw
                              · simp at hok
                              · simp only [Prod.mk.injEq, true_and] at hok
                                exact ⟨hok, fun _ => ⟨by simp, by simpa using hw⟩⟩
                        · simp only [ht, if_false, Prod.mk.injEq, true_and] at hok
                          exact ⟨hok, fun h => absurd h ht⟩
                      obtain ⟨he, hrest⟩ := hfinal
                      subst he
                      exact ⟨st1, lb, rfl, hlb, hrc, hrest⟩

theorem forall₂_emitted_visits (E : Env) (a : RenderArgs) (host : Host) (st : State)
    (em : List Emitted) (vs : List Visit)
    (hall : List.Forall₂
      (fun (e : Emitted) (v : Visit) =>
        (e.x, e.y) = v.pos a ∧ resolve_visit E a host st v = some e.c ∧ v.pixel ≠ 0)
      em vs) :
    em.map (fun e => (e.x, e.y)) = vs.map (Visit.pos a) ∧ ∀ v ∈ vs, v.pixel ≠ 0 := by
  induction hall with
  | nil => exact ⟨rfl, fun v hv => by simp at hv⟩
  | cons h _ ih =>
      refine ⟨by simp only [List.map_cons, h.1, ih.1], ?_⟩
      intro v hv
      rcases List.mem_cons.mp hv with rfl | hv'
      · exact h.2.2
      · exact ih.2 v hv'

/-- C2 (as amended). Forced redraw completeness: a successful render with
`force_redraw = true` and terminal output enabled emits exactly once every
cell `(x, y)` of the viewport at which the map holds a glyph (`get_block` at
`(left_edge + x, top_edge + y)` is not `0`), and emits no other cell, whatever
the cache held. -/
theorem forced_redraw_emits_map_cells (E : Env) (st st' : State) (a : RenderArgs)
    (host : Host) (cols : List (Int × PyColumn)) (hmap : a.map = PyMap.dict cols)
    (hnodup : (cols.map Prod.fst).Nodup) (hforce : a.redraw_all = true)
    (hto : a.settings.terminal_output > 0)
    (hok : render_map E st a host = (Outcome.ok, st')) :
    ∃ cells, st'.frame.buffer = some cells
      ∧ ∀ x y : Int,
          (cells.map (fun e => (e.x, e.y))).count (x, y)
            = if 0 ≤ x ∧ x < a.right_edge - a.left_edge ∧ 0 ≤ y
                ∧ y < a.bottom_edge - a.top_edge
                ∧ get_block (a.left_edge + x) (a.top_edge + y) a.map ≠ 0 then 1
              else 0 := by
  obtain ⟨st1, lb, hsf, _, hrc, hfin⟩ := render_map_ok E st st' a host cols hmap hok
  obtain ⟨_, _, _, hredraw, hbuf, _, _⟩ := setup_frame_ok E _ st1 host _ _ hsf
  have hrv := render_columns_eq_run_visits E a host cols _ st' hrc
  have hsame := run_visits_same E a host _ _ st' hrv
  have hb0 : ({ st1 with lighting_buffer := lb } : State).frame.buffer = some [] := by
    rcases hbuf with hn | hs
    · exact absurd (hsame.2.2.2.2.2.2 hn) (hfin hto).1
    · exact hs
  have hr0 : ({ st1 with lighting_buffer := lb } : State).redraw_all = true := by
    show st1.redraw_all = true
    rw [hredraw]; exact hforce
  obtain ⟨em, hem, hall⟩ := run_visits_forced E a host hto _ _ st' [] hr0 hb0 hrv
  refine ⟨em, by simpa using hem, ?_⟩
  intro x y
  obtain ⟨hpos, hpix⟩ := forall₂_emitted_visits E a host _ em (map_visits a cols) hall
  rw [hpos, count_map_visits a x y cols hnodup hpix, hmap]

theorem forced_redraw_emits_map_cells_witness :
    ∃ cells, (render_map demoEnv State.initial (demoArgs 2 0 true) demoHost).2.frame.buffer
        = some cells
      ∧ ∀ x y : Int,
          (cells.map (fun e => (e.x, e.y))).count (x, y)
            = if 0 ≤ x ∧ x < (demoArgs 2 0 true).right_edge - (demoArgs 2 0 true).left_edge
                ∧ 0 ≤ y ∧ y < (demoArgs 2 0 true).bottom_edge - (demoArgs 2 0 true).top_edge
                ∧ get_block ((demoArgs 2 0 true).left_edge + x)
                    ((demoArgs 2 0 true).top_edge + y) (demoArgs 2 0 true).map ≠ 0 then 1
              else 0 :=
  forced_redraw_emits_map_cells demoEnv State.initial
    (render_map demoEnv State.initial (demoArgs 2 0 true) demoHost).2 (demoArgs 2 0 true)
    demoHost [(0, PyColumn.list [35])] rfl (by decide) rfl (by decide)
    (Prod.ext (by decide!) rfl)

/-- C2, as stated, fails where the viewport reaches beyond the map: a forced
render of the 2 x 1 viewport over the map `{0: ['#']}` succeeds and emits the
cell `(0, 0)` only; the cell `(1, 0)` of the viewport is not emitted. -/
theorem forced_redraw_skips_cells_off_the_map :
    (render_map demoEnv State.initial (demoArgs 2 0 true) demoHost).1 = Outcome.ok
      ∧ (render_map demoEnv State.initial (demoArgs 2 0 true) demoHost).2.frame.buffer
          = some [⟨0, 0, demoCell⟩]
      ∧ ([(⟨0, 0, demoCell⟩ : Emitted)].map (fun e => (e.x, e.y))).count (1, 0) = 0 := by
  decide!

/-! ## Cell resolution in the render pass -/

theorem create_lit_block_unlit (E : Env) (width x y world_x world_y : Int) (map : PyMap)
    (pixel_f_key : Nat) (lighting_buffer : LightingBuffer) (settings : Settings)
    (result : PrintableChar) (hfancy : ¬ settings.fancy_lights > 0) :
    create_lit_block E width x y world_x world_y map pixel_f_key [] lighting_buffer settings
        result
      = some (unlit_block_cell E map world_x world_y pixel_f_key result) := by
  unfold create_lit_block unlit_block_cell
  simp only [get_obj_pixel, hfancy, decide_False, Bool.false_and, Bool.false_eq_true, if_false,
    bne_self_eq_false, Option.some.injEq]
  cases hbg : Flt.ge (E.get_block_data pixel_f_key).colours.bg.r (Flt.fin 0) <;>
    cases hfg : Flt.ge (E.get_block_data pixel_f_key).colours.fg.r (Flt.fin 0) <;> simp

theorem get_sky_colour_underground_plain (E : Env) (x y world_x : Int) (map : PyMap)
    (slice_heights : Int → Int) (lights : List PyLight) (colour_behind : Colour)
    (settings : Settings) (hunder : E.world_gen_height - y < slice_heights (world_x + x))
    (hfancy : ¬ settings.fancy_lights > 0) :
    get_sky_colour E x y world_x map slice_heights lights colour_behind settings
      = underground_base E := by
  unfold get_sky_colour underground_base
  simp only [hunder, if_true, hfancy, if_false]

/-- C10 (as amended). End-to-end scenario: in a successful render of the
1 x 1 viewport over the map `{0: [glyph]}` with no objects, terminal output on
and fancy lights off, the cell the render pass resolves carries the block's own
colours from the block table (`unlit_block_cell`), whatever the lights and the
ground height are: either that cell is the one cell written to the output, or
nothing is written because the cached cell compares equal to it.  The fixed
dark grey `(0.1, 0.1, 0.1)` is what `get_sky_colour` returns for the
underground pixel, and `render_map` does not call it. -/
theorem render_single_cell_block_colours (E : Env) (st st' : State) (a : RenderArgs)
    (host : Host) (glyph : Nat) (hmap : a.map = PyMap.dict [(0, PyColumn.list [glyph])])
    (hleft : a.left_edge = 0) (hright : a.right_edge = 1) (htop : a.top_edge = 0)
    (hbottom : a.bottom_edge = 1) (hobjects : a.objects = [])
    (hfancy : ¬ a.settings.fancy_lights > 0) (hto : a.settings.terminal_output > 0)
    (hok : render_map E st a host = (Outcome.ok, st')) :
    (st'.frame.buffer = some [⟨0, 0, unlit_block_cell E a.map 0 0 glyph (host.stack 0 0)⟩]
      ∨ (st'.frame.buffer = some []
          ∧ ∃ last_frame, st'.last_frame = some last_frame
            ∧ printable_char_eq E (last_frame 0)
                (unlit_block_cell E a.map 0 0 glyph (host.stack 0 0)) = true))
    ∧ (E.world_gen_height - 0 < a.slice_heights (0 + 0) →
        get_sky_colour E 0 0 0 a.map a.slice_heights a.lights a.sky_colour a.settings
          = underground_base E) := by
  refine ⟨?_, fun hunder =>
    get_sky_colour_underground_plain E 0 0 0 a.map a.slice_heights a.lights a.sky_colour
      a.settings hunder hfancy⟩
  obtain ⟨st1, lb, hsf, _, hrc, hfin⟩ := render_map_ok E st st' a host _ hmap hok
  obtain ⟨_, _, _, _, hbuf, _, _⟩ := setup_frame_ok E _ st1 host _ _ hsf
  have hrv := render_columns_eq_run_visits E a host _ _ st' hrc
  have hsame := run_visits_same E a host _ _ st' hrv
  have hb0 : ({ st1 with lighting_buffer := lb } : State).frame.buffer = some [] := by
    rcases hbuf with hn | hs
    · exact absurd (hsame.2.2.2.2.2.2 hn) (hfin hto).1
    · exact hs
  have hvis : map_visits a [(0, PyColumn.list [glyph])] = [⟨0, 0, glyph⟩] := by
    simp [map_visits, column_visits, hleft, hright, htop, hbottom]
  rw [hvis] at hrv
  simp only [run_visits] at hrv
  cases hv : render_visit E a host ⟨0, 0, glyph⟩ { st1 with lighting_buffer := lb } with
  | mk o s1 =>
      rw [hv] at hrv
      cases o with
      | error e => simp at hrv
      | crash => simp at hrv
      | ok =>
          simp only [Prod.mk.injEq, true_and] at hrv
          subst hrv
          obtain ⟨_, c, hc, hcase⟩ := render_visit_ok E a host _ _ s1 hv
          have hc' : c = unlit_block_cell E a.map 0 0 glyph (host.stack 0 0) := by
            unfold resolve_visit at hc
            simp only [hleft, htop, sub_zero, hobjects] at hc
            rw [create_lit_block_unlit E _ 0 0 0 0 a.map glyph _ a.settings _ hfancy] at hc
            exact (Option.some.inj hc).symm
          subst hc'
          rcases hcase with ⟨_, hterm⟩ | ⟨hno, _⟩
          · simp only [hleft, htop, sub_zero] at hterm
            obtain ⟨lf, hlf, hcs⟩ := terminal_out_cases E _ s1 _ 0 0 a.settings true hterm
            rcases hcs with ⟨_, cells, hb', hs1⟩ | ⟨hskip, hs1, _⟩
            · left
              rw [hb0] at hb'
              simp only [Option.some.injEq] at hb'
              subst hb'
              rw [hs1]
              rfl
            · right
              rw [hs1]
              refine ⟨hb0, lf, hlf, ?_⟩
              have hfp : frame_pos ({ st1 with lighting_buffer := lb } : State).width 0 0 = 0 := by
                simp [frame_pos]
              rw [hfp] at hskip
              simp only [Bool.or_eq_false_iff, Bool.not_eq_false'] at hskip
              exact hskip.1.1
          · exact absurd hto hno

theorem render_single_cell_block_colours_witness :
    ((render_map demoEnv State.initial (demoArgs 1 201 false) demoHost).2.frame.buffer
        = some [⟨0, 0, unlit_block_cell demoEnv (demoArgs 1 201 false).map 0 0 35
            (demoHost.stack 0 0)⟩]
      ∨ ((render_map demoEnv State.initial (demoArgs 1 201 false) demoHost).2.frame.buffer
            = some []
          ∧ ∃ last_frame,
            (render_map demoEnv State.initial (demoArgs 1 201 false) demoHost).2.last_frame
              = some last_frame
            ∧ printable_char_eq demoEnv (last_frame 0)
                (unlit_block_cell demoEnv (demoArgs 1 201 false).map 0 0 35
                  (demoHost.stack 0 0)) = true))
    ∧ (demoEnv.world_gen_height - 0 < (demoArgs 1 201 false).slice_heights (0 + 0) →
        get_sky_colour demoEnv 0 0 0 (demoArgs 1 201 false).map
            (demoArgs 1 201 false).slice_heights (demoArgs 1 201 false).lights
            (demoArgs 1 201 false).sky_colour (demoArgs 1 201 false).settings
          = underground_base demoEnv) :=
  render_single_cell_block_colours demoEnv State.initial
    (render_map demoEnv State.initial (demoArgs 1 201 false) demoHost).2
    (demoArgs 1 201 false) demoHost 35 rfl rfl rfl rfl rfl rfl (by decide) (by decide)
    (Prod.ext (by decide!) rfl)

/-- C10, as stated, fails: in the scenario of the claim (1 x 1 viewport, the
solid white glyph `#` at world `(0, 0)`, ground height 201 above the cell, no
lights, no objects, day level 1, fancy lights off) the render succeeds and the
one cell it resolves and writes is `#` in the block's white on an unset
background; neither colour is the underground base `(0.1, 0.1, 0.1)`. -/
theorem render_underground_cell_not_grey :
    (render_map demoEnv State.initial (demoArgs 1 201 false) demoHost).1 = Outcome.ok
      ∧ demoEnv.world_gen_height - 0 < (demoArgs 1 201 false).slice_heights 0
      ∧ (render_map demoEnv State.initial (demoArgs 1 201 false) demoHost).2.frame.buffer
          = some [⟨0, 0, demoCell⟩]
      ∧ demoCell.fg ≠ underground_base demoEnv
      ∧ demoCell.bg ≠ underground_base demoEnv := by
  decide!

/-! ## Diff minimality -/

theorem frame_pos_injective (w h x y x' y' : Int) (hsize : w * h ≤ 2 ^ 64)
    (hx : 0 ≤ x ∧ x < w) (hy : 0 ≤ y ∧ y < h) (hx' : 0 ≤ x' ∧ x' < w)
    (hy' : 0 ≤ y' ∧ y' < h) (heq : frame_pos w x y = frame_pos w x' y') :
    x = x' ∧ y = y' := by
  have hw : 0 < w := by omega
  have b1 : 0 ≤ y * w + x := by nlinarith
  have b2 : y * w + x < 2 ^ 64 := by nlinarith
  have b1' : 0 ≤ y' * w + x' := by nlinarith
  have b2' : y' * w + x' < 2 ^ 64 := by nlinarith
  unfold frame_pos at heq
  rw [Int.emod_eq_of_lt b1 b2, Int.emod_eq_of_lt b1' b2'] at heq
  have heq' : y * w + x = y' * w + x' := by
    have := congrArg (fun n : Nat => (n : Int)) heq
    simpa [Int.toNat_of_nonneg b1, Int.toNat_of_nonneg b1'] using this
  have hyy : y = y' := by
    rcases lt_trichotomy y y' with hlt | he | hgt
    · exfalso; nlinarith
    · exact he
    · exfalso; nlinarith
  subst hyy
  exact ⟨by omega, rfl⟩

theorem run_visits_cache_frame (E : Env) (a : RenderArgs) (host : Host) (vs : List Visit) :
    ∀ (st st' : State) (lf : Nat → PrintableChar),
      run_visits E a host vs st = (Outcome.ok, st') → st.last_frame = some lf →
      ∃ lf', st'.last_frame = some lf'
        ∧ ∀ p, p ∉ vs.map (Visit.frame_pos a st.width) → lf' p = lf p := by
  induction vs with
  | nil =>
      intro st st' lf h hl
      simp only [run_visits, Prod.mk.injEq, true_and] at h
      subst h
      exact ⟨lf, hl, fun _ _ => rfl⟩
  | cons v rest ih =>
      intro st st' lf h hl
      simp only [run_visits] at h
      cases hv : render_visit E a host v st with
      | mk o s1 =>
          rw [hv] at h
          cases o with
          | error e => simp at h
          | crash => simp at h
          | ok =>
              dsimp only at h
              obtain ⟨_, c, _, hcase⟩ := render_visit_ok E a host v st s1 hv
              have hs1 : s1.width = st.width ∧ ∃ lf1, s1.last_frame = some lf1
                  ∧ ∀ p, p ≠ Visit.frame_pos a st.width v → lf1 p = lf p := by
                rcases hcase with ⟨_, hterm⟩ | ⟨_, hst⟩
                · obtain ⟨lf0, hlf0, hcs⟩ :=
                    terminal_out_cases E st s1 c _ _ a.settings true hterm
                  rw [hl] at hlf0
                  simp only [Option.some.injEq] at hlf0
                  subst hlf0
                  rcases hcs with ⟨_, cells, _, hs1⟩ | ⟨_, hs1, _⟩
                  · rw [hs1]
                    refine ⟨rfl, _, rfl, ?_⟩
                    intro p hp
                    exact Function.update_noteq hp _ _
                  · rw [hs1]; exact ⟨rfl, lf, hl, fun _ _ => rfl⟩
                · rw [hst]; exact ⟨rfl, lf, hl, fun _ _ => rfl⟩
              obtain ⟨hw, lf1, hlf1, hkeep⟩ := hs1
              obtain ⟨lf', hlf', hrest⟩ := ih s1 st' lf1 h hlf1
              refine ⟨lf', hlf', ?_⟩
              intro p hp
              simp only [List.map_cons, List.mem_cons, not_or] at hp
              rw [hrest p (by rw [hw]; exact hp.2), hkeep p hp.1]

theorem run_visits_cache (E : Env) (a : RenderArgs) (host : Host)
    (hto : a.settings.terminal_output > 0) (vs : List Visit) :
    ∀ (st st' : State), run_visits E a host vs st = (Outcome.ok, st') →
      (vs.map (Visit.frame_pos a st.width)).Nodup →
      ∀ v ∈ vs, ∃ c lf', resolve_visit E a host st v = some c ∧ st'.last_frame = some lf'
        ∧ (printable_char_eq E c c = true →
            printable_char_eq E (lf' (Visit.frame_pos a st.width v)) c = true) := by
  induction vs with
  | nil => intro st st' _ _ v hv; simp at hv
  | cons v0 rest ih =>
      intro st st' h hnd v hv
      simp only [run_visits] at h
      simp only [List.map_cons, List.nodup_cons] at hnd
      cases hv0 : render_visit E a host v0 st with
      | mk o s1 =>
          rw [hv0] at h
          cases o with
          | error e => simp at h
          | crash => simp at h
          | ok =>
              dsimp only at h
              obtain ⟨_, c, hc, hcase⟩ := render_visit_ok E a host v0 st s1 hv0
              rcases hcase with ⟨_, hterm⟩ | ⟨hno, _⟩
              · obtain ⟨lf0, hlf0, hcs⟩ :=
                  terminal_out_cases E st s1 c _ _ a.settings true hterm
                have hs1 : s1.width = st.width ∧ s1.lighting_buffer = st.lighting_buffer
                    ∧ ∃ lf1, s1.last_frame = some lf1
                      ∧ (printable_char_eq E c c = true →
                          printable_char_eq E (lf1 (Visit.frame_pos a st.width v0)) c = true) := by
                  rcases hcs with ⟨_, cells, _, hs1⟩ | ⟨hskip, hs1, _⟩
                  · rw [hs1]
                    refine ⟨rfl, rfl, _, rfl, ?_⟩
                    intro hrefl
                    show printable_char_eq E
                      (Function.update lf0 (frame_pos st.width (v0.world_x - a.left_edge)
                        (v0.world_y - a.top_edge)) c (Visit.frame_pos a st.width v0)) c = true
                    unfold Visit.frame_pos
                    rw [Function.update_same]
                    exact hrefl
                  · rw [hs1]
                    refine ⟨rfl, rfl, lf0, hlf0, fun _ => ?_⟩
                    simp only [Bool.or_eq_false_iff, Bool.not_eq_false'] at hskip
                    exact hskip.1.1
                obtain ⟨hw, hlb, lf1, hlf1, hcache⟩ := hs1
                rcases List.mem_cons.mp hv with rfl | hv'
                · obtain ⟨lf', hlf', hrest⟩ := run_visits_cache_frame E a host rest s1 st' lf1 h hlf1
                  refine ⟨c, lf', hc, hlf', fun hrefl => ?_⟩
                  rw [hrest _ (by rw [hw]; exact hnd.1)]
                  exact hcache hrefl
                · obtain ⟨c', lf', hc', hlf', hres⟩ := ih s1 st' h (by rw [hw]; exact hnd.2) v hv'
                  refine ⟨c', lf', ?_, hlf', ?_⟩
                  · rw [← hc']
                    exact (resolve_visit_congr E a host st s1 v hw hlb).symm
                  · rw [hw] at hres; exact hres
              · exact absurd hto hno

theorem run_visits_skip (E : Env) (a : RenderArgs) (host : Host) (vs : List Visit) :
    ∀ (st st' : State), st.resize = false → st.redraw_all = false →
      run_visits E a host vs st = (Outcome.ok, st') →
      (∀ v ∈ vs, ∃ c lf, resolve_visit E a host st v = some c ∧ st.last_frame = some lf
        ∧ printable_char_eq E (lf (Visit.frame_pos a st.width v)) c = true) →
      st' = st := by
  induction vs with
  | nil =>
      intro st st' _ _ h _
      simp only [run_visits, Prod.mk.injEq, true_and] at h
      exact h.symm
  | cons v0 rest ih =>
      intro st st' hrs hrd h hall
      simp only [run_visits] at h
      cases hv0 : render_visit E a host v0 st with
      | mk o s1 =>
          rw [hv0] at h
          cases o with
          | error e => simp at h
          | crash => simp at h
          | ok =>
              dsimp only at h
              obtain ⟨_, c, hc, hcase⟩ := render_visit_ok E a host v0 st s1 hv0
              obtain ⟨c0, lf, hc0, hlf, heq⟩ := hall v0 (List.mem_cons_self _ _)
              rw [hc] at hc0
              simp only [Option.some.injEq] at hc0
              subst hc0
              have hs1 : s1 = st := by
                rcases hcase with ⟨_, hterm⟩ | ⟨_, hst⟩
                · obtain ⟨lf0, hlf0, hcs⟩ :=
                    terminal_out_cases E st s1 c _ _ a.settings true hterm
                  rw [hlf] at hlf0
                  simp only [Option.some.injEq] at hlf0
                  subst hlf0
                  rcases hcs with ⟨hemit, _⟩ | ⟨_, hs1, _⟩
                  · unfold Visit.frame_pos at heq
                    simp [heq, hrs, hrd] at hemit
                  · exact hs1
                · exact hst
              subst hs1
              exact ih s1 st' hrs hrd h (fun v hv => hall v (List.mem_cons_of_mem _ hv))

theorem run_visits_pixels (E : Env) (a : RenderArgs) (host : Host) (vs : List Visit) :
    ∀ (st st' : State), run_visits E a host vs st = (Outcome.ok, st') →
      ∀ v ∈ vs, v.pixel ≠ 0 := by
  induction vs with
  | nil => intro st st' _ v hv; simp at hv
  | cons v0 rest ih =>
      intro st st' h v hv
      simp only [run_visits] at h
      cases hv0 : render_visit E a host v0 st with
      | mk o s1 =>
          rw [hv0] at h
          cases o with
          | error e => simp at h
          | crash => simp at h
          | ok =>
              dsimp only at h
              rcases List.mem_cons.mp hv with rfl | hv'
              · exact (render_visit_ok E a host _ st s1 hv0).1
              · exact ih s1 st' h v hv'

theorem setup_frame_same_size (E : Env) (st : State) (host : Host) (w h : Int)
    (hw : st.width = w) (hh : st.height = h) :
    setup_frame E st host w h
      = (true,
          { st with
              resize := false
              frame :=
                { st.frame with cur_pos := 0, buffer := st.frame.buffer.map (fun _ => []) } }) := by
  unfold setup_frame
  simp [hw, hh]

theorem nodup_of_count_le_one {α : Type} [BEq α] [LawfulBEq α] (l : List α)
    (h : ∀ a, l.count a ≤ 1) : l.Nodup := by
  induction l with
  | nil => exact List.nodup_nil
  | cons b l ih =>
      rw [List.nodup_cons]
      constructor
      · intro hb
        have h1 := h b
        have h2 : 0 < l.count b := List.count_pos_iff.mpr hb
        rw [List.count_cons_self] at h1
        omega
      · apply ih
        intro a
        have h1 := h a
        rw [List.count_cons] at h1
        omega

theorem map_visits_frame_pos_nodup (a : RenderArgs) (cols : List (Int × PyColumn))
    (hnodup : (cols.map Prod.fst).Nodup) (hpix : ∀ v ∈ map_visits a cols, v.pixel ≠ 0)
    (hsize : (a.right_edge - a.left_edge) * (a.bottom_edge - a.top_edge) ≤ 2 ^ 64) :
    ((map_visits a cols).map (Visit.frame_pos a (a.right_edge - a.left_edge))).Nodup := by
  have hpos : ((map_visits a cols).map (Visit.pos a)).Nodup := by
    apply nodup_of_count_le_one
    intro p
    obtain ⟨x, y⟩ := p
    rw [count_map_visits a x y cols hnodup hpix]
    split_ifs <;> omega
  have hbound : ∀ p ∈ (map_visits a cols).map (Visit.pos a),
      (0 ≤ p.1 ∧ p.1 < a.right_edge - a.left_edge)
        ∧ (0 ≤ p.2 ∧ p.2 < a.bottom_edge - a.top_edge) := by
    intro p hp
    obtain ⟨x, y⟩ := p
    have hc := List.count_pos_iff.mpr hp
    rw [count_map_visits a x y cols hnodup hpix] at hc
    split_ifs at hc with hcond
    · exact ⟨⟨hcond.1, hcond.2.1⟩, ⟨hcond.2.2.1, hcond.2.2.2.1⟩⟩
    · omega
  have hmap : (map_visits a cols).map (Visit.frame_pos a (a.right_edge - a.left_edge))
      = ((map_visits a cols).map (Visit.pos a)).map
          (fun p => frame_pos (a.right_edge - a.left_edge) p.1 p.2) := by
    rw [List.map_map]; rfl
  rw [hmap]
  apply List.Nodup.map_on _ hpos
  intro p hp q hq hpq
  obtain ⟨hp1, hp2⟩ := hbound p hp
  obtain ⟨hq1, hq2⟩ := hbound q hq
  obtain ⟨e1, e2⟩ := frame_pos_injective _ _ _ _ _ _ hsize hp1 hp2 hq1 hq2 hpq
  exact Prod.ext e1 e2

/-- Two renders in a row with the same arguments, terminal output enabled and
`force_redraw` false: when both calls succeed and every cell the second call
resolves is the cell the first call resolved at that position and compares
equal to itself under `printable_char_eq`, the second call appends nothing to
the output buffer. -/
theorem render_twice_same_cells (E : Env) (st st1 st2 : State) (a : RenderArgs)
    (host1 host2 : Host) (cols : List (Int × PyColumn)) (hmap : a.map = PyMap.dict cols)
    (hnodup : (cols.map Prod.fst).Nodup)
    (hsize : (a.right_edge - a.left_edge) * (a.bottom_edge - a.top_edge) ≤ 2 ^ 64)
    (hforce : a.redraw_all = false) (hto : a.settings.terminal_output > 0)
    (hok1 : render_map E st a host1 = (Outcome.ok, st1))
    (hok2 : render_map E st1 a host2 = (Outcome.ok, st2))
    (hsame : ∀ v ∈ map_visits a cols, ∃ c, render_resolves E st a host1 v = some c
      ∧ render_resolves E st1 a host2 v = some c ∧ printable_char_eq E c c = true) :
    st2.frame.cur_pos = 0 ∧ st2.frame.buffer = some [] := by
  -- the first call
  obtain ⟨sA, lbA, hsfA, hlbA, hrcA, hfinA⟩ := render_map_ok E st st1 a host1 cols hmap hok1
  obtain ⟨hwA, hhA, _, _, _, _, _⟩ := setup_frame_ok E _ sA host1 _ _ hsfA
  have hrvA := render_columns_eq_run_visits E a host1 cols _ st1 hrcA
  obtain ⟨hw1, hh1, _, _, _, _, _⟩ := run_visits_same E a host1 _ _ st1 hrvA
  have hpix := run_visits_pixels E a host1 _ _ st1 hrvA
  have hnd := map_visits_frame_pos_nodup a cols hnodup hpix hsize
  have hcache := run_visits_cache E a host1 hto _ _ st1 hrvA
    (by show ((map_visits a cols).map (Visit.frame_pos a sA.width)).Nodup
        rw [hwA]; exact hnd)
  -- the second call
  obtain ⟨sB, lbB, hsfB, hlbB, hrcB, _⟩ := render_map_ok E st1 st2 a host2 cols hmap hok2
  have hw1' : st1.width = a.right_edge - a.left_edge := by rw [hw1]; exact hwA
  have hh1' : st1.height = a.bottom_edge - a.top_edge := by rw [hh1]; exact hhA
  rw [setup_frame_same_size E ({ st1 with redraw_all := a.redraw_all }) host2 _ _ hw1' hh1']
    at hsfB
  simp only [Prod.mk.injEq, true_and] at hsfB
  have hrvB := render_columns_eq_run_visits E a host2 cols _ st2 hrcB
  have hst2 := run_visits_skip E a host2 _ _ st2
    (by rw [← hsfB]) (by rw [← hsfB]; exact hforce) hrvB
    (by
      intro v hv
      obtain ⟨c, hc1, hc2, hrefl⟩ := hsame v hv
      obtain ⟨c', lf', hc', hlf', hres⟩ := hcache v hv
      have hcc : c' = c := by
        unfold render_resolves at hc1
        rw [hsfA] at hc1
        simp only [hlbA, Option.some_bind] at hc1
        rw [hc1] at hc'
        exact (Option.some.inj hc').symm
      subst hcc
      refine ⟨c', lf', ?_, ?_, ?_⟩
      · unfold render_resolves at hc2
        rw [setup_frame_same_size E ({ st1 with redraw_all := a.redraw_all }) host2 _ _ hw1'
          hh1', hsfB] at hc2
        simp only [hlbB, Option.some_bind] at hc2
        exact hc2
      · rw [← hsfB]; exact hlf'
      · have hwB : ({ sB with lighting_buffer := lbB } : State).width = sA.width := by
          rw [← hsfB]; show st1.width = sA.width; exact hw1
        rw [hwB]
        exact hres hrefl)
  rw [hst2, ← hsfB]
  refine ⟨rfl, ?_⟩
  show st1.frame.buffer.map (fun _ => []) = some []
  cases hb : st1.frame.buffer with
  | none => exact absurd hb (hfinA hto).1
  | some cells => rfl

/-- A cell is also written again when a resolved colour has a NaN component:
with the foreground object `@` at `(0, 0)` whose colour has a NaN red
component, two renders in a row of the same 1 x 1 viewport with `force_redraw`
false both succeed, and the second one writes the cell again (its write cursor
is 16 at the flush), because `colour_eq` compares floats exactly and a NaN is
not equal to itself. -/
theorem render_twice_nan_colour_emits_again :
    demoArgsNaN.redraw_all = false ∧ demoArgsNaN.settings.terminal_output > 0
      ∧ (render_map demoEnv State.initial demoArgsNaN demoHost).1 = Outcome.ok
      ∧ (render_map demoEnv (render_map demoEnv State.initial demoArgsNaN demoHost).2
          demoArgsNaN demoHost).1 = Outcome.ok
      ∧ (render_map demoEnv (render_map demoEnv State.initial demoArgsNaN demoHost).2
          demoArgsNaN demoHost).2.frame.cur_pos ≠ 0 := by
  decide!

/-! ## Edge substitution rule -/

/-- C17. Edge-substitution rule: `get_char` returns the block's left variant
when the block below is absent or non-solid, the left neighbour is a solid
block and a left variant is defined; otherwise the right variant when the
block below is absent or non-solid, the right neighbour is a solid block and a
right variant is defined; otherwise the base glyph.  In particular it returns
the base glyph whenever the block below is solid. -/
theorem get_char_rule (E : Env) (x y : Int) (map : PyMap) (pixel : BlockData) :
    get_char E x y map pixel
        = (if (get_block x (y + 1) map = 0
                ∨ (E.get_block_data (get_block x (y + 1) map)).solid = false)
              ∧ (get_block (x - 1) y map ≠ 0
                ∧ (E.get_block_data (get_block (x - 1) y map)).solid = true)
              ∧ pixel.character_left ≠ 0 then pixel.character_left
          else if (get_block x (y + 1) map = 0
                ∨ (E.get_block_data (get_block x (y + 1) map)).solid = false)
              ∧ (get_block (x + 1) y map ≠ 0
                ∧ (E.get_block_data (get_block (x + 1) y map)).solid = true)
              ∧ pixel.character_right ≠ 0 then pixel.character_right
          else pixel.character)
      ∧ ((get_block x (y + 1) map ≠ 0
            ∧ (E.get_block_data (get_block x (y + 1) map)).solid = true) →
          get_char E x y map pixel = pixel.character) := by
  unfold get_char
  by_cases hb0 : get_block x (y + 1) map = 0 <;>
    cases hbs : (E.get_block_data (get_block x (y + 1) map)).solid <;>
    by_cases hl0 : get_block (x - 1) y map = 0 <;>
    cases hls : (E.get_block_data (get_block (x - 1) y map)).solid <;>
    by_cases hr0 : get_block (x + 1) y map = 0 <;>
    cases hrs : (E.get_block_data (get_block (x + 1) y map)).solid <;>
    by_cases hcl : pixel.character_left = 0 <;>
    by_cases hcr : pixel.character_right = 0 <;>
    simp [hb0, hl0, hr0, hcl, hcr, hbs, hls, hrs]
/-! ## Visibility tier check -/

theorem is_light_behind_rows_false (E : Env) (map : PyMap) (left_edge x : Int) (ys : List Int)
    (result : Bool)
    (h : ∃ y ∈ ys, get_block (left_edge + x) y map = 0
      ∨ (E.get_block_data (get_block (left_edge + x) y map)).solid = false) :
    is_light_behind_a_solid_block_rows E map left_edge x ys result = false := by
  induction ys with
  | nil => obtain ⟨y, hy, _⟩ := h; simp at hy
  | cons y0 ys ih =>
      unfold is_light_behind_a_solid_block_rows
      by_cases hc : (get_block (left_edge + x) y0 map == 0
          || !(E.get_block_data (get_block (left_edge + x) y0 map)).solid) = true
      · simp only [hc, if_true]
      · simp only [hc, if_false]
        apply ih
        obtain ⟨y, hy, hyc⟩ := h
        rcases List.mem_cons.mp hy with rfl | hy'
        · exfalso
          apply hc
          rcases hyc with h0 | hs
          · simp [h0]
          · simp [hs]
        · exact ⟨y, hy', hyc⟩

theorem is_light_behind_rows_false_keeps (E : Env) (map : PyMap) (left_edge x : Int)
    (ys : List Int) :
    is_light_behind_a_solid_block_rows E map left_edge x ys false = false := by
  induction ys with
  | nil => rfl
  | cons y0 ys ih =>
      unfold is_light_behind_a_solid_block_rows
      dsimp only
      split_ifs
      · rfl
      · exact ih

theorem is_light_behind_false_of_gap (E : Env) (lx ly l_height l_width : Int) (map : PyMap)
    (left_edge : Int)
    (h : ∃ x y, lx ≤ x ∧ x < lx + l_width ∧ ly - l_height < y ∧ y ≤ ly
      ∧ (get_block (left_edge + x) y map = 0
        ∨ (E.get_block_data (get_block (left_edge + x) y map)).solid = false)) :
    is_light_behind_a_solid_block E lx ly l_height l_width map left_edge = false := by
  obtain ⟨x0, y0, hx1, hx2, hy1, hy2, hgap⟩ := h
  unfold is_light_behind_a_solid_block
  have hy0 : y0 ∈ (List.range l_height.toNat).map (fun (k : Nat) => ly - (k : Int)) := by
    rw [List.mem_map]
    refine ⟨(ly - y0).toNat, List.mem_range.mpr (by omega), by omega⟩
  have hcols : ∀ (xs : List Int) (r : Bool), (x0 ∈ xs ∨ r = false) →
      xs.foldl
        (fun result x =>
          is_light_behind_a_solid_block_rows E map left_edge x
            ((List.range l_height.toNat).map (fun (k : Nat) => ly - (k : Int))) result)
        r = false := by
    intro xs
    induction xs with
    | nil => intro r h; rcases h with h | h
             · simp at h
             · simpa using h
    | cons x xs ih =>
        intro r h
        rw [List.foldl_cons]
        apply ih
        by_cases hx : x = x0
        · right
          subst hx
          exact is_light_behind_rows_false E map left_edge x _ r ⟨y0, hy0, hgap⟩
        · rcases h with h | h
          · rcases List.mem_cons.mp h with h' | h'
            · exact absurd h'.symm hx
            · exact Or.inl h'
          · right
            subst h
            exact is_light_behind_rows_false_keeps E map left_edge x _
  apply hcols
  left
  unfold loop_range
  rw [List.mem_map]
  exact ⟨(x0 - lx).toNat, List.mem_range.mpr (by omega), by omega⟩

theorem is_light_behind_iff (E : Env) (lx ly l_height l_width : Int) (map : PyMap)
    (left_edge : Int) :
    is_light_behind_a_solid_block E lx ly l_height l_width map left_edge = false
      ↔ ∃ x y, lx ≤ x ∧ x < lx + l_width ∧ ly - l_height < y ∧ y ≤ ly
        ∧ (get_block (left_edge + x) y map = 0
          ∨ (E.get_block_data (get_block (left_edge + x) y map)).solid = false) := by
  constructor
  · intro hf
    by_contra hne
    have hall : ∀ x y, lx ≤ x → x < lx + l_width → ly - l_height < y → y ≤ ly →
        get_block (left_edge + x) y map ≠ 0
          ∧ (E.get_block_data (get_block (left_edge + x) y map)).solid = true := by
      intro x y h1 h2 h3 h4
      constructor
      · intro h0; exact hne ⟨x, y, h1, h2, h3, h4, Or.inl h0⟩
      · cases hs : (E.get_block_data (get_block (left_edge + x) y map)).solid
        · exact absurd ⟨x, y, h1, h2, h3, h4, Or.inr hs⟩ hne
        · rfl
    rw [is_light_behind_of_solid E lx ly l_height l_width map left_edge hall] at hf
    exact Bool.noConfusion hf
  · exact is_light_behind_false_of_gap E lx ly l_height l_width map left_edge

/-- The branches of `check_light_z`, with the row test as the code computes
it in `float` and the probe quantified over its cells. -/
theorem check_light_z_float_iff (E : Env) (py_light : PyLight) (light : Light)
    (left_edge top_edge : Int) (map : PyMap) (slice_heights : Int → Int) :
    (check_light_z E py_light light left_edge top_edge map slice_heights = true
      ↔ (light.z = 0
        ∨ (light.z = -1
          ∧ Flt.lt (Flt.ofInt E.rnd32 (light.y - top_edge))
              (ground_height_buffer E slice_heights (left_edge + light.x) top_edge) = true
          ∧ ∃ x y, light.x ≤ x ∧ x < light.x + probe_width py_light
              ∧ light.y - probe_height py_light < y ∧ y ≤ light.y
              ∧ (get_block (left_edge + x) y map = 0
                ∨ (E.get_block_data (get_block (left_edge + x) y map)).solid = false))))
    ∧ (light.z = -2 →
        check_light_z E py_light light left_edge top_edge map slice_heights = false)
    ∧ (light.z ≠ 0 → light.z ≠ -1 →
        check_light_z E py_light light left_edge top_edge map slice_heights = false) := by
  have hiff := is_light_behind_iff E light.x light.y (probe_height py_light)
    (probe_width py_light) map left_edge
  have hval : check_light_z E py_light light left_edge top_edge map slice_heights
      = (decide (light.z = 0)
        || (decide (light.z = -1)
          && Flt.lt (Flt.ofInt E.rnd32 (light.y - top_edge))
              (ground_height_buffer E slice_heights (left_edge + light.x) top_edge)
          && !(is_light_behind_a_solid_block E light.x light.y (probe_height py_light)
              (probe_width py_light) map left_edge))) := by
    unfold check_light_z probe_height probe_width
    by_cases h2 : light.z = -2
    · simp [h2]
    · by_cases h1 : light.z = -1
      · simp [h1]
      · by_cases h0 : light.z = 0
        · simp [h0]
        · simp [h2, h1, h0]
  refine ⟨?_, ?_, ?_⟩
  · rw [hval, Bool.or_eq_true, Bool.and_eq_true, Bool.and_eq_true, decide_eq_true_eq,
      decide_eq_true_eq, Bool.not_eq_true', hiff, and_assoc]
  · intro h2
    rw [hval]
    simp [h2]
  · intro h0 h1
    rw [hval]
    simp [h0, h1]
/-! ## Frame counter -/

theorem setup_frame_current_frame (E : Env) (st : State) (host : Host) (w h : Int) :
    (setup_frame E st host w h).2.lighting_buffer.current_frame
      = st.lighting_buffer.current_frame := by
  unfold setup_frame
  dsimp only
  split_ifs <;> rfl

theorem create_lighting_buffer_current_frame (E : Env) (width height : Int)
    (lighting_buffer lb : LightingBuffer) (lights : List PyLight) (map : PyMap)
    (slice_heights : Int → Int) (day : Flt) (sky_colour : Colour) (left_edge top_edge : Int)
    (h : create_lighting_buffer E width height lighting_buffer lights map slice_heights day
      sky_colour left_edge top_edge = some lb) :
    lb.current_frame = lighting_buffer.current_frame + 1 := by
  unfold create_lighting_buffer at h
  cases hs : lighting_buffer.screen with
  | none =>
      simp only [hs] at h
      split_ifs at h
      simp only [Option.some.injEq] at h
      rw [← h]
  | some screen =>
      simp only [hs, Option.some.injEq] at h
      rw [← h]

theorem terminal_out_lighting_buffer (E : Env) (st st' : State) (c : PrintableChar)
    (x y : Int) (settings : Settings) (ok : Bool)
    (h : terminal_out E st c x y settings = some (ok, st')) :
    st'.lighting_buffer = st.lighting_buffer := by
  obtain ⟨lf, _, hcs⟩ := terminal_out_cases E st st' c x y settings ok h
  rcases hcs with ⟨_, cells, _, hs⟩ | ⟨_, hs, _⟩
  · rw [hs]; rfl
  · rw [hs]

theorem render_column_lighting_buffer (E : Env) (a : RenderArgs) (host : Host)
    (world_x_l x : Int) (items : List Nat) :
    ∀ (world_y_l : Int) (st : State),
      (render_column E a host world_x_l x items world_y_l st).2.lighting_buffer
        = st.lighting_buffer := by
  induction items with
  | nil => intro wy st; rfl
  | cons p rest ih =>
      intro wy st
      unfold render_column
      by_cases hr : wy ≥ a.top_edge ∧ wy < a.bottom_edge
      · simp only [hr, and_self, if_true]
        by_cases hp : p = 0
        · simp [hp]
        · simp only [hp, if_false]
          cases hc : create_lit_block E st.width x (wy - a.top_edge) world_x_l wy a.map p
              a.objects st.lighting_buffer a.settings (host.stack x (wy - a.top_edge)) with
          | none => rfl
          | some c =>
              dsimp only
              by_cases ht : a.settings.terminal_output > 0
              · simp only [ht, if_true]
                cases hto : terminal_out E st c x (wy - a.top_edge) a.settings with
                | none => rfl
                | some r =>
                    obtain ⟨ok, st'⟩ := r
                    have hlb := terminal_out_lighting_buffer E st st' c _ _ a.settings ok hto
                    cases ok
                    · exact hlb
                    · exact (ih (wy + 1) st').trans hlb
              · simp only [ht, if_false]
                exact ih (wy + 1) st
      · simp only [hr, if_false]
        exact ih (wy + 1) st

theorem render_columns_lighting_buffer (E : Env) (a : RenderArgs) (host : Host)
    (cols : List (Int × PyColumn)) :
    ∀ st : State, (render_columns E a host cols st).2.lighting_buffer = st.lighting_buffer := by
  induction cols with
  | nil => intro st; rfl
  | cons kv rest ih =>
      intro st
      obtain ⟨wx, column⟩ := kv
      unfold render_columns
      by_cases hr : wx ≥ a.left_edge ∧ wx < a.right_edge
      · simp only [hr, and_self, not_true_eq_false, if_false]
        cases column with
        | notList => rfl
        | list items =>
            dsimp only
            have hcol := render_column_lighting_buffer E a host wx (wx - a.left_edge) items 0 st
            cases hrc : render_column E a host wx (wx - a.left_edge) items 0 st with
            | mk o s1 =>
                rw [hrc] at hcol
                cases o with
                | ok => exact (ih s1).trans hcol
                | error e => exact hcol
                | crash => exact hcol
      · simp only [hr, not_false_eq_true, if_true]
        exact ih st

theorem render_column_outcome (E : Env) (a : RenderArgs) (host : Host)
    (world_x_l x : Int) (items : List Nat) :
    ∀ (world_y_l : Int) (st : State),
      (render_column E a host world_x_l x items world_y_l st).1 = Outcome.ok
        ∨ (render_column E a host world_x_l x items world_y_l st).1 = Outcome.crash
        ∨ (render_column E a host world_x_l x items world_y_l st).1
            = Outcome.error RenderError.cannot_get_char
        ∨ (render_column E a host world_x_l x items world_y_l st).1
            = Outcome.error RenderError.terminal_out_failed := by
  induction items with
  | nil => intro wy st; exact Or.inl rfl
  | cons p rest ih =>
      intro wy st
      unfold render_column
      by_cases hr : wy ≥ a.top_edge ∧ wy < a.bottom_edge
      · simp only [hr, and_self, if_true]
        by_cases hp : p = 0
        · simp [hp]
        · simp only [hp, if_false]
          cases hc : create_lit_block E st.width x (wy - a.top_edge) world_x_l wy a.map p
              a.objects st.lighting_buffer a.settings (host.stack x (wy - a.top_edge)) with
          | none => exact Or.inr (Or.inl rfl)
          | some c =>
              dsimp only
              by_cases ht : a.settings.terminal_output > 0
              · simp only [ht, if_true]
                cases hto : terminal_out E st c x (wy - a.top_edge) a.settings with
                | none => exact Or.inr (Or.inl rfl)
                | some r =>
                    obtain ⟨ok, st'⟩ := r
                    cases ok
                    · exact Or.inr (Or.inr (Or.inr rfl))
                    · exact ih (wy + 1) st'
              · simp only [ht, if_false]
                exact ih (wy + 1) st
      · simp only [hr, if_false]
        exact ih (wy + 1) st

theorem render_columns_outcome (E : Env) (a : RenderArgs) (host : Host)
    (cols : List (Int × PyColumn)) :
    ∀ st : State,
      (render_columns E a host cols st).1 = Outcome.ok
        ∨ (render_columns E a host cols st).1 = Outcome.crash
        ∨ (render_columns E a host cols st).1 = Outcome.error RenderError.cannot_get_char
        ∨ (render_columns E a host cols st).1 = Outcome.error RenderError.terminal_out_failed
        ∨ (render_columns E a host cols st).1
            = Outcome.error RenderError.column_not_a_list := by
  induction cols with
  | nil => intro st; exact Or.inl rfl
  | cons kv rest ih =>
      intro st
      obtain ⟨wx, column⟩ := kv
      unfold render_columns
      by_cases hr : wx ≥ a.left_edge ∧ wx < a.right_edge
      · simp only [hr, and_self, not_true_eq_false, if_false]
        cases column with
        | notList => exact Or.inr (Or.inr (Or.inr (Or.inr rfl)))
        | list items =>
            dsimp only
            have hcol := render_column_outcome E a host wx (wx - a.left_edge) items 0 st
            cases hrc : render_column E a host wx (wx - a.left_edge) items 0 st with
            | mk o s1 =>
                rw [hrc] at hcol
                cases o with
                | ok => exact ih s1
                | crash => exact Or.inr (Or.inl rfl)
                | error e =>
                    rcases hcol with h | h | h | h
                    · exact absurd h (by simp)
                    · exact absurd h (by simp)
                    · exact Or.inr (Or.inr (Or.inl h))
                    · exact Or.inr (Or.inr (Or.inr (Or.inl h)))
      · simp only [hr, not_false_eq_true, if_true]
        exact ih st

theorem render_map_cases (E : Env) (st : State) (a : RenderArgs) (host : Host) :
    ((render_map E st a host).1 = Outcome.error RenderError.setup_frame_failed
        ∧ (render_map E st a host).2.lighting_buffer.current_frame
          = st.lighting_buffer.current_frame)
      ∨ ((render_map E st a host).1 = Outcome.error RenderError.map_not_a_dict
        ∧ (render_map E st a host).2.lighting_buffer.current_frame
          = st.lighting_buffer.current_frame)
      ∨ (render_map E st a host).1 = Outcome.crash
      ∨ (((render_map E st a host).1 = Outcome.ok
          ∨ (render_map E st a host).1 = Outcome.error RenderError.column_not_a_list
          ∨ (render_map E st a host).1 = Outcome.error RenderError.cannot_get_char
          ∨ (render_map E st a host).1 = Outcome.error RenderError.terminal_out_failed
          ∨ (render_map E st a host).1 = Outcome.error RenderError.wprintf_messed_up)
        ∧ (render_map E st a host).2.lighting_buffer.current_frame
          = st.lighting_buffer.current_frame + 1) := by
  have hsf := setup_frame_current_frame E { st with redraw_all := a.redraw_all } host
    (a.right_edge - a.left_edge) (a.bottom_edge - a.top_edge)
  unfold render_map
  dsimp only
  cases hs : setup_frame E { st with redraw_all := a.redraw_all } host
      (a.right_edge - a.left_edge) (a.bottom_edge - a.top_edge) with
  | mk b st1 =>
      rw [hs] at hsf
      have hsf' : st1.lighting_buffer.current_frame = st.lighting_buffer.current_frame := hsf
      cases b with
      | false => exact Or.inl ⟨rfl, hsf'⟩
      | true =>
          dsimp only
          cases hm : a.map with
          | notDict => exact Or.inr (Or.inl ⟨rfl, hsf'⟩)
          | dict cols =>
              dsimp only
              rw [← hm]
              cases hlb : create_lighting_buffer E st1.width st1.height st1.lighting_buffer
                  a.lights a.map a.slice_heights a.day a.sky_colour a.left_edge a.top_edge with
              | none => exact Or.inr (Or.inr (Or.inl rfl))
              | some lb =>
                  dsimp only
                  have hcf := create_lighting_buffer_current_frame E _ _ _ lb _ _ _ _ _ _ _ hlb
                  have hrc := render_columns_lighting_buffer E a host cols
                    { st1 with lighting_buffer := lb }
                  have hout := render_columns_outcome E a host cols
                    { st1 with lighting_buffer := lb }
                  cases hr : render_columns E a host cols { st1 with lighting_buffer := lb } with
                  | mk o s3 =>
                      rw [hr] at hrc hout
                      have hfin : s3.lighting_buffer.current_frame
                          = st.lighting_buffer.current_frame + 1 := by
                        have h1 : s3.lighting_buffer = lb := hrc
                        rw [h1, hcf, hsf']
                      cases o with
                      | crash => exact Or.inr (Or.inr (Or.inl rfl))
                      | error e =>
                          right; right; right
                          refine ⟨?_, hfin⟩
                          rcases hout with h | h | h | h | h
                          · exact absurd h (by simp)
                          · exact absurd h (by simp)
                          · exact Or.inr (Or.inr (Or.inl h))
                          · exact Or.inr (Or.inr (Or.inr (Or.inl h)))
                          · exact Or.inr (Or.inl h)
                      | ok =>
                          dsimp only
                          by_cases ht : a.settings.terminal_output > 0
                          · simp only [ht, if_true]
                            cases hb : s3.frame.buffer with
                            | none => exact Or.inr (Or.inr (Or.inl rfl))
                            | some cells =>
                                dsimp only
                                by_cases hw : (host.wprintf % 2 ^ 64).toNat ≠ s3.frame.cur_pos
                                · rw [if_pos hw]
                                  exact Or.inr (Or.inr (Or.inr
                                    ⟨Or.inr (Or.inr (Or.inr (Or.inr rfl))), hfin⟩))
                                · rw [if_neg hw]
                                  exact Or.inr (Or.inr (Or.inr ⟨Or.inl rfl, hfin⟩))
                          · rw [if_neg ht]
                            exact Or.inr (Or.inr (Or.inr ⟨Or.inl rfl, hfin⟩))

/-- C11 (as amended). Frame counter: a call of `render_map` that returns
successfully, or with an error raised after the lighting buffer was built (a
column that is not a list, a glyph that cannot be read, a failure of
`terminal_out` or of `wprintf`), leaves the frame counter of the lighting
buffer increased by exactly one; a call that fails in `setup_frame`, or
because the map is not a dict, returns before `create_lighting_buffer` and
leaves the frame counter unchanged. -/
theorem render_frame_counter (E : Env) (st : State) (a : RenderArgs) (host : Host) :
    (((render_map E st a host).1 = Outcome.ok
        ∨ (render_map E st a host).1 = Outcome.error RenderError.column_not_a_list
        ∨ (render_map E st a host).1 = Outcome.error RenderError.cannot_get_char
        ∨ (render_map E st a host).1 = Outcome.error RenderError.terminal_out_failed
        ∨ (render_map E st a host).1 = Outcome.error RenderError.wprintf_messed_up) →
      (render_map E st a host).2.lighting_buffer.current_frame
        = st.lighting_buffer.current_frame + 1)
    ∧ (((render_map E st a host).1 = Outcome.error RenderError.setup_frame_failed
        ∨ (render_map E st a host).1 = Outcome.error RenderError.map_not_a_dict) →
      (render_map E st a host).2.lighting_buffer.current_frame
        = st.lighting_buffer.current_frame) := by
  rcases render_map_cases E st a host with ⟨h, hc⟩ | ⟨h, hc⟩ | h | ⟨h, hc⟩
  · exact ⟨fun h' => by rw [h] at h'; simp at h', fun _ => hc⟩
  · exact ⟨fun h' => by rw [h] at h'; simp at h', fun _ => hc⟩
  · exact ⟨fun h' => by rw [h] at h'; simp at h', fun h' => by rw [h] at h'; simp at h'⟩
  · refine ⟨fun _ => hc, fun h' => ?_⟩
    rcases h with h | h | h | h | h <;> (rw [h] at h'; simp at h')

/-- C11, as stated, fails on the early error exits: a render whose `map`
argument is not a dict returns with the error "Map is not a dict!" before the
lighting buffer is built, and the frame counter is still `0`, not `1`. -/
theorem render_not_a_dict_keeps_frame_counter :
    (render_map demoEnv State.initial demoArgsNotDict demoHost).1
        = Outcome.error RenderError.map_not_a_dict
      ∧ (render_map demoEnv State.initial demoArgsNotDict demoHost).2.lighting_buffer.current_frame
        ≠ State.initial.lighting_buffer.current_frame + 1 := by
  decide!

/-! ## Resize after a failed allocation -/

/-- C12: the code at the failing input.  From the initial statics (size 0 x 0),
`setup_frame(1, 1)` whose third `realloc` fails returns false with the stored
width and height already `1`; the next `setup_frame(1, 1)` therefore sees no
resize, calls no `realloc` and returns true with the lighting buffer still
null, and a render of that 1 x 1 viewport after the failed one dereferences
the null pointer. -/
theorem setup_frame_failed_realloc_keeps_new_size :
    State.initial.width = 0 ∧ State.initial.height = 0
      ∧ (setup_frame demoEnv State.initial demoHostNoScreen 1 1).1 = false
      ∧ (setup_frame demoEnv State.initial demoHostNoScreen 1 1).2.width = 1
      ∧ (setup_frame demoEnv State.initial demoHostNoScreen 1 1).2.height = 1
      ∧ (setup_frame demoEnv (setup_frame demoEnv State.initial demoHostNoScreen 1 1).2
          demoHost 1 1).1 = true
      ∧ (setup_frame demoEnv (setup_frame demoEnv State.initial demoHostNoScreen 1 1).2
          demoHost 1 1).2.resize = false
      ∧ (setup_frame demoEnv (setup_frame demoEnv State.initial demoHostNoScreen 1 1).2
          demoHost 1 1).2.lighting_buffer.screen.isNone = true
      ∧ (render_map demoEnv State.initial (demoArgs 1 0 false) demoHostNoScreen).1
          = Outcome.error RenderError.setup_frame_failed
      ∧ (render_map demoEnv
          (render_map demoEnv State.initial (demoArgs 1 0 false) demoHostNoScreen).2
          (demoArgs 1 0 false) demoHost).1 = Outcome.crash := by
  decide!

/-! ## Cell resolution: objects and lighting -/

theorem create_lit_block_plain (E : Env) (width x y world_x world_y : Int) (map : PyMap)
    (pixel_f_key : Nat) (objects : List PyObj) (lighting_buffer : LightingBuffer)
    (settings : Settings) (result : PrintableChar)
    (h : ¬ settings.fancy_lights > 0
      ∨ (light_bg E pixel_f_key = false ∧ light_fg E x world_y objects pixel_f_key = false)) :
    create_lit_block E width x y world_x world_y map pixel_f_key objects lighting_buffer
        settings result
      = some (plain_cell E x world_x world_y map pixel_f_key objects result) := by
  have hcond : (decide (settings.fancy_lights > 0)
      && (light_bg E pixel_f_key || light_fg E x world_y objects pixel_f_key)) = false := by
    rcases h with h | ⟨h1, h2⟩
    · simp [h]
    · simp [h1, h2]
  unfold light_bg light_fg found_object at hcond
  unfold create_lit_block plain_cell found_object
  simp only [hcond, Bool.false_eq_true, if_false, Option.some.injEq]
  cases hbg : Flt.ge (E.get_block_data pixel_f_key).colours.bg.r (Flt.fin 0) <;>
    cases hfg : Flt.ge (E.get_block_data pixel_f_key).colours.fg.r (Flt.fin 0) <;>
    by_cases ho : (get_obj_pixel E x world_y objects
      (0, ⟨Flt.fin 0, Flt.fin 0, Flt.fin 0⟩)).1 = 0 <;>
    simp [ho]

theorem get_obj_pixel_first (E : Env) (x y : Int) (before after : List PyObj) (o : PyObj)
    (results : Nat × Colour) (hbefore : ∀ o' ∈ before, ¬ (o'.x = x ∧ o'.y = y))
    (ho : o.x = x ∧ o.y = y) :
    get_obj_pixel E x y (before ++ o :: after) results = (o.char, object_colour E o) := by
  induction before with
  | nil =>
      simp only [List.nil_append, get_obj_pixel, ho, and_self, if_true, object_colour]
  | cons b rest ih =>
      have hb := hbefore b (List.mem_cons_self _ _)
      simp only [List.cons_append, get_obj_pixel, hb, if_false]
      exact ih (fun o' ho' => hbefore o' (List.mem_cons_of_mem _ ho'))

/-- C18 (as amended). Foreground object precedence: when some foreground
object has `x` equal to the cell's viewport column (`world_x - left_edge`, the
argument `x` of `create_lit_block`) and `y` equal to the cell's world row, and
the first such object has a readable glyph, the resolved cell carries the glyph
and the colour of that first object rather than the block's, for every
lighting buffer and every setting: the foreground is not scaled by the
lightness even when fancy lighting is enabled.  The cell is resolved whenever
the lighting buffer is allocated. -/
theorem create_lit_block_object_first (E : Env) (width x y world_x world_y : Int)
    (map : PyMap) (pixel_f_key : Nat) (before after : List PyObj) (o : PyObj)
    (lighting_buffer : LightingBuffer) (settings : Settings) (result : PrintableChar)
    (hbefore : ∀ o' ∈ before, ¬ (o'.x = x ∧ o'.y = world_y))
    (ho : o.x = x ∧ o.y = world_y) (hchar : o.char ≠ 0) :
    (∀ c, create_lit_block E width x y world_x world_y map pixel_f_key (before ++ o :: after)
        lighting_buffer settings result = some c →
      c.character = o.char ∧ c.fg = object_colour E o)
    ∧ (lighting_buffer.screen ≠ none →
      ∃ c, create_lit_block E width x y world_x world_y map pixel_f_key
        (before ++ o :: after) lighting_buffer settings result = some c) := by
  have hobj := get_obj_pixel_first E x world_y before after o
    (0, ⟨Flt.fin 0, Flt.fin 0, Flt.fin 0⟩) hbefore ho
  have hne : (o.char != 0) = true := by simpa using hchar
  constructor
  · intro c hc
    unfold create_lit_block at hc
    simp only [hobj, hne, if_true] at hc
    split at hc
    · cases hs : lighting_buffer.screen with
      | none => rw [hs] at hc; simp at hc
      | some screen =>
          rw [hs] at hc
          simp only [Bool.false_eq_true, if_false, Option.some.injEq] at hc
          rw [← hc]
          split_ifs <;> exact ⟨rfl, rfl⟩
    · simp only [Option.some.injEq] at hc
      rw [← hc]
      split_ifs <;> exact ⟨rfl, rfl⟩
  · intro hs
    cases hsc : lighting_buffer.screen with
    | none => exact absurd hsc hs
    | some screen =>
        unfold create_lit_block
        simp only [hsc]
        split_ifs <;> exact ⟨_, rfl⟩

theorem create_lit_block_object_first_witness :
    (∀ c, create_lit_block demoEnv 1 0 0 5 0 demoMap 35 ([] ++ ⟨0, 0, 64, none⟩ :: [])
        demoLightingBuffer demoSettings blankCell = some c →
      c.character = (⟨0, 0, 64, none⟩ : PyObj).char
        ∧ c.fg = object_colour demoEnv ⟨0, 0, 64, none⟩)
    ∧ (demoLightingBuffer.screen ≠ none →
      ∃ c, create_lit_block demoEnv 1 0 0 5 0 demoMap 35 ([] ++ ⟨0, 0, 64, none⟩ :: [])
        demoLightingBuffer demoSettings blankCell = some c) :=
  create_lit_block_object_first demoEnv 1 0 0 5 0 demoMap 35 [] [] ⟨0, 0, 64, none⟩
    demoLightingBuffer demoSettings blankCell (by simp) ⟨rfl, rfl⟩ (by decide)

/-- C18, as stated, fails when the viewport does not start at world column 0:
in a forced render of the viewport `[5, 6) x [0, 1)` over the map `{5: ['#']}`
the object `@` with `x = 5`, `y = 0` is at the exact world position of the one
cell, yet the cell written is the block `#` in its own white: `render_map`
looks objects up by the viewport column `0`. -/
theorem render_object_at_world_x_not_drawn :
    (⟨5, 0, 64, none⟩ : PyObj) ∈ demoArgsObject.objects
      ∧ get_block 5 0 demoArgsObject.map = 35
      ∧ (render_map demoEnv State.initial demoArgsObject demoHost).1 = Outcome.ok
      ∧ (render_map demoEnv State.initial demoArgsObject demoHost).2.frame.buffer
          = some [⟨0, 0, demoCell⟩]
      ∧ demoCell.character ≠ 64 := by
  decide!
/-! ## Background décor -/

theorem sky_object_scan_first (E : Env) (x y world_x : Int) (slice_heights : Int → Int)
    (before after : List PyBkObj) (o : PyBkObj) (result : Colour)
    (hbefore : ∀ o' ∈ before, ¬ bk_object_covers E x y world_x slice_heights o')
    (ho : bk_object_covers E x y world_x slice_heights o) :
    sky_object_scan E x y world_x slice_heights (before ++ o :: after) result
      = PyColour_AsColour o.colour := by
  induction before with
  | nil =>
      unfold bk_object_covers at ho
      simp only [List.nil_append, sky_object_scan, ho, and_self, if_true]
  | cons b rest ih =>
      have hb := hbefore b (List.mem_cons_self _ _)
      unfold bk_object_covers at hb
      simp only [List.cons_append, sky_object_scan, hb, if_false]
      exact ih (fun o' ho' => hbefore o' (List.mem_cons_of_mem _ ho'))

theorem sky_object_scan_none (E : Env) (x y world_x : Int) (slice_heights : Int → Int)
    (objects : List PyBkObj) (result : Colour)
    (hnone : ∀ o ∈ objects, ¬ bk_object_covers E x y world_x slice_heights o) :
    sky_object_scan E x y world_x slice_heights objects result = result := by
  induction objects with
  | nil => rfl
  | cons b rest ih =>
      have hb := hnone b (List.mem_cons_self _ _)
      unfold bk_object_covers at hb
      simp only [sky_object_scan, hb, if_false]
      exact ih (fun o' ho' => hnone o' (List.mem_cons_of_mem _ ho'))

/-- C20 (as amended). Background décor occlusion: `sky` takes the first
background object, in iteration order, whose position lies in the rectangle of
the object's size that starts at the pixel (`x ≤ ox < x + width` and
`y ≤ oy < y + height`) while the pixel is above the local ground surface.  If
there is one and the first component of its colour is not negative, `sky`
returns that object's colour, whatever the lights and the sky colour are; if
its colour is absent or has a negative first component, and likewise if no
object passes the test, `sky` returns the ground/sky shading of
`get_sky_colour`. -/
theorem sky_rule (E : Env) (x y world_x : Int) (map : PyMap) (slice_heights : Int → Int)
    (bk_objects : List PyBkObj) (sky_colour : Colour) (lights : List PyLight)
    (settings : Settings) :
    (∀ before o after, bk_objects = before ++ o :: after →
      (∀ o' ∈ before, ¬ bk_object_covers E x y world_x slice_heights o') →
      bk_object_covers E x y world_x slice_heights o →
      (Flt.lt (PyColour_AsColour o.colour).r (Flt.fin 0) = false →
        sky E x y world_x map slice_heights bk_objects sky_colour lights settings
          = PyColour_AsColour o.colour)
      ∧ (Flt.lt (PyColour_AsColour o.colour).r (Flt.fin 0) = true →
        sky E x y world_x map slice_heights bk_objects sky_colour lights settings
          = get_sky_colour E x y world_x map slice_heights lights sky_colour settings))
    ∧ ((∀ o ∈ bk_objects, ¬ bk_object_covers E x y world_x slice_heights o) →
      sky E x y world_x map slice_heights bk_objects sky_colour lights settings
        = get_sky_colour E x y world_x map slice_heights lights sky_colour settings) := by
  constructor
  · intro before o after hsplit hbefore ho
    unfold sky
    rw [hsplit, sky_object_scan_first E x y world_x slice_heights before after o _ hbefore ho]
    constructor
    · intro hr; simp only [hr, Bool.false_eq_true, if_false]
    · intro hr; simp only [hr, if_true]
  · intro hnone
    unfold sky
    rw [sky_object_scan_none E x y world_x slice_heights bk_objects _ hnone]
    have : Flt.lt (Flt.fin (-1)) (Flt.fin 0) = true := by
      simp [Flt.lt]
    simp only [this, if_true]

/-- C20, as stated, fails for a pixel inside the object's rectangle but not at
its first column: for the blue object of width 3 and height 1 at `(0, 0)` and
the pixel `(1, 0)`, above ground, the pixel is within `ox ≤ x < ox + width`
and `oy ≤ y < oy + height`, yet `sky` returns the sky colour, because its
test is `x ≤ ox` and `ox < x + width`. -/
theorem sky_pixel_inside_rectangle_not_covered :
    (demoBkObject.x ≤ 1 ∧ 1 < demoBkObject.x + demoBkObject.width
        ∧ demoBkObject.y ≤ 0 ∧ 0 < demoBkObject.y + demoBkObject.height
        ∧ demoEnv.world_gen_height - 0 > (fun _ => (0 : Int)) (0 + 1))
      ∧ sky demoEnv 1 0 0 demoMap (fun _ => 0) [demoBkObject] white [] demoSettings
          ≠ PyColour_AsColour demoBkObject.colour
      ∧ sky demoEnv 1 0 0 demoMap (fun _ => 0) [demoBkObject] white [] demoSettings = white := by
  decide!

/-! ## Lighting buffer: every pixel is stamped -/

theorem daylight_pixel_stamp (f : Int) (v : Flt) (p : PixelLighting) :
    (daylight_pixel f v p).lightness_set_on_frame = f := by
  unfold daylight_pixel
  split_ifs with h
  · rfl
  · simp only [Bool.or_eq_true, decide_eq_true_eq, not_or, not_not] at h
    exact h.2

theorem mem_loop_range_iff (lo x : Int) (n : Nat) :
    x ∈ loop_range lo n ↔ lo ≤ x ∧ x < lo + (n : Int) := by
  unfold loop_range
  rw [List.mem_map]
  constructor
  · rintro ⟨k, hk, rfl⟩
    have := List.mem_range.mp hk
    omega
  · intro h
    exact ⟨(x - lo).toNat, List.mem_range.mpr (by omega), by omega⟩

theorem foldl_preserve {κ σ : Type} (P : σ → Prop) (step : σ → κ → σ)
    (hpres : ∀ s k, P s → P (step s k)) (keys : List κ) :
    ∀ s, P s → P (keys.foldl step s) := by
  induction keys with
  | nil => intro s h; exact h
  | cons k ks ih => intro s h; exact ih _ (hpres s k h)

theorem foldl_establish {κ σ : Type} (P : σ → Prop) (step : σ → κ → σ) (k0 : κ)
    (hpres : ∀ s k, P s → P (step s k)) (hest : ∀ s, P (step s k0)) (keys : List κ) :
    ∀ s, k0 ∈ keys → P (keys.foldl step s) := by
  induction keys with
  | nil => intro s h; simp at h
  | cons k ks ih =>
      intro s h
      rw [List.foldl_cons]
      rcases List.mem_cons.mp h with rfl | h'
      · exact foldl_preserve P step hpres ks _ (hest s)
      · exact ih _ h'

theorem daylight_stamps (E : Env) (w h f : Int) (sh : Int → Int) (day : Flt) (l t : Int)
    (s : Int → PixelLighting) (x y : Int) (hx : 0 ≤ x ∧ x < w) (hy : 0 ≤ y ∧ y < h) :
    ((add_daylight_lightness_to_lighting_buffer E w h f sh day l t s)
      (get_lighting_buffer_pixel w x y)).lightness_set_on_frame = f := by
  unfold add_daylight_lightness_to_lighting_buffer
  have hinner_pres : ∀ (x' : Int) (s : Int → PixelLighting) (y' : Int),
      (s (get_lighting_buffer_pixel w x y)).lightness_set_on_frame = f →
      ((Function.update s (get_lighting_buffer_pixel w x' y')
        (daylight_pixel f
          (daylight_lightness E day (ground_height_buffer E sh (l + x') t) y')
          (s (get_lighting_buffer_pixel w x' y'))))
        (get_lighting_buffer_pixel w x y)).lightness_set_on_frame = f := by
    intro x' s y' hs
    by_cases he : get_lighting_buffer_pixel w x y = get_lighting_buffer_pixel w x' y'
    · rw [he, Function.update_same]; exact daylight_pixel_stamp _ _ _
    · rw [Function.update_noteq he]; exact hs
  apply foldl_establish
    (fun s : Int → PixelLighting =>
      (s (get_lighting_buffer_pixel w x y)).lightness_set_on_frame = f) _ x
  · intro s x' hs
    exact foldl_preserve _ _ (fun s y' hs => hinner_pres x' s y' hs) _ s hs
  · intro s
    apply foldl_establish
      (fun s : Int → PixelLighting =>
        (s (get_lighting_buffer_pixel w x y)).lightness_set_on_frame = f) _ y
    · intro s y' hs
      exact hinner_pres x s y' hs
    · intro s
      show ((Function.update s (get_lighting_buffer_pixel w x y) _)
        (get_lighting_buffer_pixel w x y)).lightness_set_on_frame = f
      rw [Function.update_same]
      exact daylight_pixel_stamp _ _ _
    · rw [mem_loop_range_iff]; omega
  · rw [mem_loop_range_iff]; omega

/-- C15. Every lightness entry is valid after build: with the lighting buffer
allocated, after `create_lighting_buffer` every pixel `(x, y)` with
`0 ≤ x < width` and `0 ≤ y < height` has `lightness_set_on_frame` equal to the
buffer's new frame counter, whatever the inputs and the prior contents of the
buffer are. -/
theorem every_pixel_stamped (E : Env) (width height : Int) (lighting_buffer : LightingBuffer)
    (screen : Int → PixelLighting) (hscreen : lighting_buffer.screen = some screen)
    (lights : List PyLight) (map : PyMap) (slice_heights : Int → Int) (day : Flt)
    (sky_colour : Colour) (left_edge top_edge : Int) :
    ∃ lb s', create_lighting_buffer E width height lighting_buffer lights map slice_heights
          day sky_colour left_edge top_edge = some lb
      ∧ lb.screen = some s'
      ∧ lb.current_frame = lighting_buffer.current_frame + 1
      ∧ ∀ x y, 0 ≤ x → x < width → 0 ≤ y → y < height →
          (s' (get_lighting_buffer_pixel width x y)).lightness_set_on_frame
            = lb.current_frame := by
  refine ⟨_, _, create_lighting_buffer_some E width height lighting_buffer screen hscreen
    lights map slice_heights day sky_colour left_edge top_edge, rfl, rfl, ?_⟩
  intro x y hx0 hx1 hy0 hy1
  exact daylight_stamps E width height _ slice_heights day left_edge top_edge _ x y
    ⟨hx0, hx1⟩ ⟨hy0, hy1⟩

theorem every_pixel_stamped_witness :
    ∃ lb s', create_lighting_buffer demoEnv 2 1 demoLightingBuffer [demoLight 0] demoMap
          (fun _ => 0) (Flt.fin 1) white 0 0 = some lb
      ∧ lb.screen = some s'
      ∧ lb.current_frame = demoLightingBuffer.current_frame + 1
      ∧ ∀ x y, 0 ≤ x → x < 2 → 0 ≤ y → y < 1 →
          (s' (get_lighting_buffer_pixel 2 x y)).lightness_set_on_frame = lb.current_frame :=
  every_pixel_stamped demoEnv 2 1 demoLightingBuffer (fun _ => blankPixel) rfl [demoLight 0]
    demoMap (fun _ => 0) (Flt.fin 1) white 0 0
/-! ## Lighting buffer: the fold at one pixel -/

theorem to_int_of_range (v : Int) (h0 : 0 ≤ v) (h1 : v < 2 ^ 31) : to_int v = v := by
  unfold to_int
  omega

theorem pixel_index_eq (w x y : Int) (hw : w ≤ 2 ^ 31) (hx0 : 0 ≤ x) (hx1 : x < w)
    (hy0 : 0 ≤ y) (hy1 : y < 2 ^ 31) : get_lighting_buffer_pixel w x y = y * w + x := by
  unfold get_lighting_buffer_pixel
  rw [to_int_of_range y hy0 hy1, to_int_of_range x hx0 (by omega)]

theorem pixel_index_inj (w h x y x' y' : Int) (hw : w ≤ 2 ^ 31) (hh : h ≤ 2 ^ 31)
    (hx : 0 ≤ x ∧ x < w) (hy : 0 ≤ y ∧ y < h) (hx' : 0 ≤ x' ∧ x' < w)
    (hy' : 0 ≤ y' ∧ y' < h)
    (he : get_lighting_buffer_pixel w x y = get_lighting_buffer_pixel w x' y') :
    x = x' ∧ y = y' := by
  rw [pixel_index_eq w x y hw hx.1 hx.2 hy.1 (by omega),
    pixel_index_eq w x' y' hw hx'.1 hx'.2 hy'.1 (by omega)] at he
  have hyy : y = y' := by
    rcases lt_trichotomy y y' with hlt | heq | hgt
    · exfalso
      have : (y + 1) * w ≤ y' * w := by
        apply mul_le_mul_of_nonneg_right (by omega) (by omega)
      nlinarith
    · exact heq
    · exfalso
      have : (y' + 1) * w ≤ y * w := by
        apply mul_le_mul_of_nonneg_right (by omega) (by omega)
      nlinarith
  subst hyy
  exact ⟨by omega, rfl⟩

theorem loop_range_nodup (lo : Int) (n : Nat) : (loop_range lo n).Nodup := by
  unfold loop_range
  apply List.Nodup.map _ (List.nodup_range n)
  intro a b hab
  simp only at hab
  omega

theorem foldl_point_none {κ P : Type} (step : (Int → P) → κ → (Int → P)) (i0 : Int)
    (keys : List κ) (h : ∀ k ∈ keys, ∀ s, step s k i0 = s i0) :
    ∀ s, (keys.foldl step s) i0 = s i0 := by
  induction keys with
  | nil => intro s; rfl
  | cons k ks ih =>
      intro s
      rw [List.foldl_cons, ih (fun k' hk' => h k' (List.mem_cons_of_mem _ hk')),
        h k (List.mem_cons_self _ _)]

theorem foldl_point {κ P : Type} [DecidableEq κ] (step : (Int → P) → κ → (Int → P))
    (i0 : Int) (k0 : κ) (g : P → P) (keys : List κ)
    (hother : ∀ k ∈ keys, k ≠ k0 → ∀ s, step s k i0 = s i0)
    (hk0 : ∀ s, step s k0 i0 = g (s i0)) (hnd : keys.Nodup) :
    ∀ s, (keys.foldl step s) i0 = if k0 ∈ keys then g (s i0) else s i0 := by
  induction keys with
  | nil => intro s; simp
  | cons k ks ih =>
      intro s
      rw [List.foldl_cons]
      have hnd' := List.nodup_cons.mp hnd
      by_cases hk : k = k0
      · subst hk
        rw [foldl_point_none step i0 ks
          (fun k' hk' s => hother k' (List.mem_cons_of_mem _ hk')
            (fun e => hnd'.1 (e ▸ hk')) s), hk0]
        simp
      · rw [ih (fun k' hk' => hother k' (List.mem_cons_of_mem _ hk')) hnd'.2,
          hother k (List.mem_cons_self _ _) hk]
        have : (k0 ∈ k :: ks) ↔ k0 ∈ ks := by
          rw [List.mem_cons]
          constructor
          · rintro (e | e)
            · exact absurd e.symm hk
            · exact e
          · exact Or.inr
        simp only [this]

theorem daylight_at (E : Env) (w h f : Int) (sh : Int → Int) (day : Flt) (l t : Int)
    (hw : w ≤ 2 ^ 31) (hh : h ≤ 2 ^ 31) (x0 y0 : Int) (hx : 0 ≤ x0 ∧ x0 < w)
    (hy : 0 ≤ y0 ∧ y0 < h) (s : Int → PixelLighting) :
    (add_daylight_lightness_to_lighting_buffer E w h f sh day l t s)
        (get_lighting_buffer_pixel w x0 y0)
      = daylight_pixel f (daylight_lightness E day (ground_height_buffer E sh (l + x0) t) y0)
          (s (get_lighting_buffer_pixel w x0 y0)) := by
  unfold add_daylight_lightness_to_lighting_buffer
  have hxmem : ∀ x, x ∈ loop_range 0 w.toNat → 0 ≤ x ∧ x < w := by
    intro x hxm
    have := (mem_loop_range_iff 0 x _).mp hxm
    omega
  have hymem : ∀ y, y ∈ loop_range 0 h.toNat → 0 ≤ y ∧ y < h := by
    intro y hym
    have := (mem_loop_range_iff 0 y _).mp hym
    omega
  rw [foldl_point _ (get_lighting_buffer_pixel w x0 y0) x0
    (fun p => daylight_pixel f
      (daylight_lightness E day (ground_height_buffer E sh (l + x0) t) y0) p)
    _ _ _ (loop_range_nodup _ _)]
  · rw [if_pos ((mem_loop_range_iff 0 x0 _).mpr (by omega))]
  · intro x hxm hne s
    apply foldl_point_none
    intro y hym s
    show Function.update s _ _ _ = _
    rw [Function.update_noteq]
    intro he
    exact hne (pixel_index_inj w h x0 y0 x y hw hh hx hy (hxmem x hxm) (hymem y hym) he).1.symm
  · intro s
    rw [foldl_point _ (get_lighting_buffer_pixel w x0 y0) y0
      (fun p => daylight_pixel f
        (daylight_lightness E day (ground_height_buffer E sh (l + x0) t) y0) p)
      _ _ _ (loop_range_nodup _ _)]
    · rw [if_pos ((mem_loop_range_iff 0 y0 _).mpr (by omega))]
    · intro y hym hne s
      show Function.update s _ _ _ = _
      rw [Function.update_noteq]
      intro he
      exact hne (pixel_index_inj w h x0 y0 x0 y hw hh hx hy hx (hymem y hym) he).2.symm
    · intro s
      show Function.update s _ _ _ = _
      rw [Function.update_same]

theorem light_pixel_at_other (E : Env) (w h f : Int) (light : Light) (add : Bool)
    (map : PyMap) (sky : Colour) (l t : Int) (hw : w ≤ 2 ^ 31) (hh : h ≤ 2 ^ 31)
    (x0 y0 : Int) (hx : 0 ≤ x0 ∧ x0 < w) (hy : 0 ≤ y0 ∧ y0 < h) (x y : Int)
    (hne : ¬(x = x0 ∧ y = y0)) (s : Int → PixelLighting) :
    (light_pixel E w h f light add map sky l t x y s) (get_lighting_buffer_pixel w x0 y0)
      = s (get_lighting_buffer_pixel w x0 y0) := by
  unfold light_pixel
  dsimp only
  by_cases h1 : ((decide (x ≥ 0) && decide (x < w)) && (decide (y ≥ 0) && decide (y < h)))
      = true
  · rw [if_pos h1]
    by_cases h2 : Flt.lt (lit E x y light.x (light.y - t) light.radius) (Flt.fin 1) = true
    · rw [if_pos h2]
      simp only [Bool.and_eq_true, decide_eq_true_eq, ge_iff_le] at h1
      rw [Function.update_noteq]
      intro he
      have := pixel_index_inj w h x0 y0 x y hw hh hx hy h1.1 h1.2 he
      exact hne ⟨this.1.symm, this.2.symm⟩
    · rw [if_neg h2]
  · rw [if_neg h1]

theorem light_pixel_at_same (E : Env) (w h f : Int) (light : Light) (add : Bool)
    (map : PyMap) (sky : Colour) (l t : Int)
    (x0 y0 : Int) (hx : 0 ≤ x0 ∧ x0 < w) (hy : 0 ≤ y0 ∧ y0 < h) (s : Int → PixelLighting) :
    (light_pixel E w h f light add map sky l t x0 y0 s) (get_lighting_buffer_pixel w x0 y0)
      = if Flt.lt (lit E x0 y0 light.x (light.y - t) light.radius) (Flt.fin 1) then
          light_pixel_update E f light add map sky l t x0 y0
            (s (get_lighting_buffer_pixel w x0 y0))
        else s (get_lighting_buffer_pixel w x0 y0) := by
  unfold light_pixel
  dsimp only
  have h1 : ((decide (x0 ≥ 0) && decide (x0 < w)) && (decide (y0 ≥ 0) && decide (y0 < h)))
      = true := by
    simp only [Bool.and_eq_true, decide_eq_true_eq, ge_iff_le]
    exact ⟨hx, hy⟩
  rw [if_pos h1]
  by_cases h2 : Flt.lt (lit E x0 y0 light.x (light.y - t) light.radius) (Flt.fin 1) = true
  · rw [if_pos h2, if_pos h2, Function.update_same]
    rfl
  · rw [if_neg h2, if_neg h2]

theorem add_light_at (E : Env) (w h f : Int) (map : PyMap) (sh : Int → Int) (sky : Colour)
    (l t : Int) (hw : w ≤ 2 ^ 31) (hh : h ≤ 2 ^ 31) (x0 y0 : Int) (hx : 0 ≤ x0 ∧ x0 < w)
    (hy : 0 ≤ y0 ∧ y0 < h) (s : Int → PixelLighting) (py : PyLight) :
    (add_light E w h f map sh sky l t s py) (get_lighting_buffer_pixel w x0 y0)
      = if light_reaches E t (Light.ofPy E py) x0 y0 then
          light_pixel_update E f (Light.ofPy E py)
            (check_light_z E py (Light.ofPy E py) l t map sh) map sky l t x0 y0
            (s (get_lighting_buffer_pixel w x0 y0))
        else s (get_lighting_buffer_pixel w x0 y0) := by
  unfold add_light
  rw [foldl_point _ (get_lighting_buffer_pixel w x0 y0) x0
    (fun p =>
      if y0 ∈ loop_range ((Light.ofPy E py).y - t - (Light.ofPy E py).radius)
          (2 * (Light.ofPy E py).radius + 1).toNat then
        if Flt.lt (lit E x0 y0 (Light.ofPy E py).x ((Light.ofPy E py).y - t)
            (Light.ofPy E py).radius) (Flt.fin 1) then
          light_pixel_update E f (Light.ofPy E py)
            (check_light_z E py (Light.ofPy E py) l t map sh) map sky l t x0 y0 p
        else p
      else p)
    _ _ _ (loop_range_nodup _ _)]
  · simp only [mem_loop_range_iff, light_reaches, Bool.and_eq_true, decide_eq_true_eq]
    by_cases hxb : (Light.ofPy E py).x - (Light.ofPy E py).radius ≤ x0
        ∧ x0 < (Light.ofPy E py).x - (Light.ofPy E py).radius
            + ((2 * (Light.ofPy E py).radius + 1).toNat : Int)
    · rw [if_pos hxb]
      by_cases hyb : (Light.ofPy E py).y - t - (Light.ofPy E py).radius ≤ y0
          ∧ y0 < (Light.ofPy E py).y - t - (Light.ofPy E py).radius
              + ((2 * (Light.ofPy E py).radius + 1).toNat : Int)
      · rw [if_pos hyb]
        by_cases hl : Flt.lt (lit E x0 y0 (Light.ofPy E py).x ((Light.ofPy E py).y - t)
            (Light.ofPy E py).radius) (Flt.fin 1) = true
        · rw [if_pos hl, if_pos]
          refine ⟨⟨⟨⟨hxb.1, ?_⟩, hyb.1⟩, ?_⟩, hl⟩ <;> omega
        · rw [if_neg hl, if_neg]
          intro hc
          exact hl hc.2
      · rw [if_neg hyb, if_neg]
        intro hc
        apply hyb
        refine ⟨hc.1.1.2, ?_⟩
        have := hc.1.2
        have := hc.1.1.2
        omega
    · rw [if_neg hxb, if_neg]
      intro hc
      apply hxb
      refine ⟨hc.1.1.1.1, ?_⟩
      have := hc.1.1.1.2
      have := hc.1.1.1.1
      omega
  · intro x _ hne s
    apply foldl_point_none
    intro y _ s
    exact light_pixel_at_other E w h f _ _ map sky l t hw hh x0 y0 hx hy x y
      (fun hc => hne hc.1) s
  · intro s
    rw [foldl_point _ (get_lighting_buffer_pixel w x0 y0) y0
      (fun p =>
        if Flt.lt (lit E x0 y0 (Light.ofPy E py).x ((Light.ofPy E py).y - t)
            (Light.ofPy E py).radius) (Flt.fin 1) then
          light_pixel_update E f (Light.ofPy E py)
            (check_light_z E py (Light.ofPy E py) l t map sh) map sky l t x0 y0 p
        else p)
      _ _ _ (loop_range_nodup _ _)]
    · intro y _ hne s
      exact light_pixel_at_other E w h f _ _ map sky l t hw hh x0 y0 hx hy x0 y
        (fun hc => hne hc.2) s
    · intro s
      exact light_pixel_at_same E w h f _ _ map sky l t x0 y0 hx hy s

/-! ## Lighting buffer: the running maximum -/

theorem flt_lt_irrefl (a : Flt) : Flt.lt a a = false := by
  cases a <;> simp [Flt.lt]

theorem flt_lt_trans (a b c : Flt) (h1 : Flt.lt a b = true) (h2 : Flt.lt b c = true) :
    Flt.lt a c = true := by
  cases a <;> cases b <;> cases c <;> simp [Flt.lt] at h1 h2 ⊢
  exact lt_trans h1 h2

theorem flt_not_lt_trans (a b c : Flt) (ha : a ≠ Flt.nan) (hb : b ≠ Flt.nan)
    (hc : c ≠ Flt.nan) (h1 : Flt.lt a b = false) (h2 : Flt.lt b c = false) :
    Flt.lt a c = false := by
  cases a <;> cases b <;> cases c <;> simp [Flt.lt] at h1 h2 ha hb hc ⊢
  exact le_trans h2 h1

theorem flt_eq_of_not_lt (a b : Flt) (ha : a ≠ Flt.nan) (hb : b ≠ Flt.nan)
    (h1 : Flt.lt a b = false) (h2 : Flt.lt b a = false) : a = b := by
  cases a <;> cases b <;> simp [Flt.lt] at h1 h2 ha hb ⊢
  exact le_antisymm h2 h1

theorem keep_max_fold_some {α : Type} (key : α → Flt) (vs : List α) :
    ∀ m : α, ∃ m', vs.foldl (keep_max key) (some m) = some m' := by
  induction vs with
  | nil => intro m; exact ⟨m, rfl⟩
  | cons v vs ih =>
      intro m
      rw [List.foldl_cons]
      by_cases hlt : Flt.lt (key m) (key v) = true
      · have hk : keep_max key (some m) v = some v := by simp [keep_max, hlt]
        rw [hk]
        exact ih v
      · have hk : keep_max key (some m) v = some m := by simp [keep_max, hlt]
        rw [hk]
        exact ih m

theorem keep_max_fold_eq_none {α : Type} (key : α → Flt) (vs : List α) :
    vs.foldl (keep_max key) none = none ↔ vs = [] := by
  cases vs with
  | nil => simp
  | cons v vs =>
      rw [List.foldl_cons]
      obtain ⟨m', hm'⟩ := keep_max_fold_some key vs v
      simp [keep_max, hm']

theorem keep_max_fold {α : Type} (key : α → Flt) (vs : List α)
    (hn : ∀ v ∈ vs, key v ≠ Flt.nan) :
    ∀ acc : Option α, (∀ m, acc = some m → key m ≠ Flt.nan) → (vs ≠ [] ∨ acc ≠ none) →
      ∃ m, vs.foldl (keep_max key) acc = some m ∧ (m ∈ vs ∨ acc = some m)
        ∧ (∀ v ∈ vs, Flt.lt (key m) (key v) = false)
        ∧ (∀ m0, acc = some m0 → Flt.lt (key m) (key m0) = false) := by
  induction vs with
  | nil =>
      intro acc _ hne
      cases acc with
      | none => simp at hne
      | some m =>
          refine ⟨m, rfl, Or.inr rfl, by simp, ?_⟩
          intro m0 h0
          cases h0
          exact flt_lt_irrefl _
  | cons v vs ih =>
      intro acc hacc _
      have hv : key v ≠ Flt.nan := hn v (List.mem_cons_self _ _)
      have hn' : ∀ v' ∈ vs, key v' ≠ Flt.nan := fun v' hv' => hn v' (List.mem_cons_of_mem _ hv')
      rw [List.foldl_cons]
      cases acc with
      | none =>
          obtain ⟨m, hm, hmem, hmax, hacc'⟩ := ih hn' (some v)
            (fun m h => by cases h; exact hv) (Or.inr (by simp))
          refine ⟨m, hm, Or.inl ?_, ?_, by simp⟩
          · rcases hmem with h | h
            · exact List.mem_cons_of_mem _ h
            · cases h; exact List.mem_cons_self _ _
          · intro v' hv'
            rcases List.mem_cons.mp hv' with rfl | h
            · exact hacc' _ rfl
            · exact hmax v' h
      | some m0 =>
          have hm0 : key m0 ≠ Flt.nan := hacc m0 rfl
          by_cases hlt : Flt.lt (key m0) (key v) = true
          · have hk : keep_max key (some m0) v = some v := by simp [keep_max, hlt]
            rw [hk]
            obtain ⟨m, hm, hmem, hmax, hacc'⟩ := ih hn' (some v)
              (fun m h => by cases h; exact hv) (Or.inr (by simp))
            have hmn : key m ≠ Flt.nan := by
              rcases hmem with h | h
              · exact hn' m h
              · cases h; exact hv
            have hmv := hacc' v rfl
            refine ⟨m, hm, Or.inl ?_, ?_, ?_⟩
            · rcases hmem with h | h
              · exact List.mem_cons_of_mem _ h
              · cases h; exact List.mem_cons_self _ _
            · intro v' hv'
              rcases List.mem_cons.mp hv' with rfl | h
              · exact hmv
              · exact hmax v' h
            · intro m1 h1
              cases h1
              cases hc : Flt.lt (key m) (key m0) with
              | false => rfl
              | true =>
                  have := flt_lt_trans _ _ _ hc hlt
                  rw [this] at hmv
                  exact absurd hmv (by simp)
          · have hlt' : Flt.lt (key m0) (key v) = false := by
              cases h : Flt.lt (key m0) (key v) with
              | false => rfl
              | true => exact absurd h hlt
            have hk : keep_max key (some m0) v = some m0 := by simp [keep_max, hlt']
            rw [hk]
            obtain ⟨m, hm, hmem, hmax, hacc'⟩ := ih hn' (some m0)
              (fun m h => by cases h; exact hm0) (Or.inr (by simp))
            have hmn : key m ≠ Flt.nan := by
              rcases hmem with h | h
              · exact hn' m h
              · cases h; exact hm0
            have hmm0 := hacc' m0 rfl
            refine ⟨m, hm, ?_, ?_, ?_⟩
            · rcases hmem with h | h
              · exact Or.inl (List.mem_cons_of_mem _ h)
              · exact Or.inr h
            · intro v' hv'
              rcases List.mem_cons.mp hv' with rfl | h
              · exact flt_not_lt_trans _ _ _ hmn hm0 hv hmm0 hlt'
              · exact hmax v' h
            · intro m1 h1
              cases h1
              exact hmm0

theorem lights_fold_at (E : Env) (w h f : Int) (map : PyMap) (sh : Int → Int) (sky : Colour)
    (l t : Int) (hw : w ≤ 2 ^ 31) (hh : h ≤ 2 ^ 31) (x0 y0 : Int) (hx : 0 ≤ x0 ∧ x0 < w)
    (hy : 0 ≤ y0 ∧ y0 < h) (lights : List PyLight) :
    ∀ s : Int → PixelLighting,
      (lights.foldl (add_light E w h f map sh sky l t) s) (get_lighting_buffer_pixel w x0 y0)
        = lights.foldl
            (fun p py =>
              if light_reaches E t (Light.ofPy E py) x0 y0 then
                light_pixel_update E f (Light.ofPy E py)
                  (check_light_z E py (Light.ofPy E py) l t map sh) map sky l t x0 y0 p
              else p)
            (s (get_lighting_buffer_pixel w x0 y0)) := by
  induction lights with
  | nil => intro s; rfl
  | cons py rest ih =>
      intro s
      rw [List.foldl_cons, List.foldl_cons, ih, add_light_at E w h f map sh sky l t hw hh x0 y0
        hx hy]

theorem colour_step_lightness (E : Env) (f : Int) (p : PixelLighting) (x y : Int) (d : Flt)
    (light : Light) (map : PyMap) (sky : Colour) (l t : Int) :
    (add_light_pixel_colour_to_lighting_buffer E f p x y d light map sky l t).lightness
        = p.lightness
      ∧ (add_light_pixel_colour_to_lighting_buffer E f p x y d light map sky l t
          ).lightness_set_on_frame = p.lightness_set_on_frame := by
  unfold add_light_pixel_colour_to_lighting_buffer
  dsimp only
  split_ifs <;> exact ⟨rfl, rfl⟩

theorem daylight_pixel_background (f : Int) (v : Flt) (p : PixelLighting) :
    (daylight_pixel f v p).background_colour = p.background_colour
      ∧ (daylight_pixel f v p).background_colour_lightness = p.background_colour_lightness
      ∧ (daylight_pixel f v p).background_colour_set_on_frame
          = p.background_colour_set_on_frame := by
  unfold daylight_pixel
  split_ifs <;> exact ⟨rfl, rfl, rfl⟩

theorem tracks_daylight_pixel (f : Int) (v : Flt) (p : PixelLighting) (acc : Option Flt)
    (h : Tracks f p.lightness_set_on_frame p.lightness acc) :
    Tracks f (daylight_pixel f v p).lightness_set_on_frame (daylight_pixel f v p).lightness
      (keep_max id acc v) := by
  cases acc with
  | none =>
      have h' : p.lightness_set_on_frame ≠ f := h
      simp [daylight_pixel, h', keep_max, Tracks]
  | some m =>
      have h' : p.lightness_set_on_frame = f ∧ p.lightness = m := h
      by_cases hlt : Flt.lt m v = true
      · simp [daylight_pixel, h'.1, h'.2, hlt, keep_max, Tracks]
      · simp [daylight_pixel, h'.1, h'.2, hlt, keep_max, Tracks]

theorem tracks_light_update_lightness (E : Env) (f : Int) (light : Light) (add : Bool)
    (map : PyMap) (sky : Colour) (l t x y : Int) (p : PixelLighting) (acc : Option Flt)
    (h : Tracks f p.lightness_set_on_frame p.lightness acc) :
    Tracks f (light_pixel_update E f light add map sky l t x y p).lightness_set_on_frame
      (light_pixel_update E f light add map sky l t x y p).lightness
      (if add then keep_max id acc (light_pixel_lightness E light t x y) else acc) := by
  unfold light_pixel_update
  rw [(colour_step_lightness E f _ x y _ light map sky l t).1,
    (colour_step_lightness E f _ x y _ light map sky l t).2]
  cases add with
  | false => simpa using h
  | true =>
      simp only [if_true]
      exact tracks_daylight_pixel f (light_pixel_lightness E light t x y) p acc h

theorem tracks_lights_lightness (E : Env) (f : Int) (map : PyMap) (sh : Int → Int)
    (sky : Colour) (l t x y : Int) (lights : List PyLight) :
    ∀ (p : PixelLighting) (acc : Option Flt),
      Tracks f p.lightness_set_on_frame p.lightness acc →
      Tracks f
        (lights.foldl
          (fun p py =>
            if light_reaches E t (Light.ofPy E py) x y then
              light_pixel_update E f (Light.ofPy E py)
                (check_light_z E py (Light.ofPy E py) l t map sh) map sky l t x y p
            else p) p).lightness_set_on_frame
        (lights.foldl
          (fun p py =>
            if light_reaches E t (Light.ofPy E py) x y then
              light_pixel_update E f (Light.ofPy E py)
                (check_light_z E py (Light.ofPy E py) l t map sh) map sky l t x y p
            else p) p).lightness
        (((lights.filter (fun py =>
              check_light_z E py (Light.ofPy E py) l t map sh
                && light_reaches E t (Light.ofPy E py) x y)).map
            (fun py => light_pixel_lightness E (Light.ofPy E py) t x y)).foldl
          (keep_max id) acc) := by
  induction lights with
  | nil => intro p acc h; exact h
  | cons py rest ih =>
      intro p acc h
      rw [List.foldl_cons]
      by_cases hr : light_reaches E t (Light.ofPy E py) x y = true
      · have hstep := tracks_light_update_lightness E f (Light.ofPy E py)
          (check_light_z E py (Light.ofPy E py) l t map sh) map sky l t x y p acc h
        have := ih _ _ hstep
        rw [if_pos hr]
        by_cases hc : check_light_z E py (Light.ofPy E py) l t map sh = true
        · rw [if_pos hc] at this
          rw [List.filter_cons_of_pos (by simp [hc, hr]), List.map_cons, List.foldl_cons]
          exact this
        · rw [if_neg hc] at this
          rw [List.filter_cons_of_neg (by simp [hc])]
          exact this
      · rw [if_neg hr, List.filter_cons_of_neg (by simp [hr])]
        exact ih _ _ h

theorem lightness_tracks (E : Env) (w h f : Int) (lights : List PyLight) (map : PyMap)
    (sh : Int → Int) (day : Flt) (sky : Colour) (l t : Int) (hw : w ≤ 2 ^ 31)
    (hh : h ≤ 2 ^ 31) (x y : Int) (hx : 0 ≤ x ∧ x < w) (hy : 0 ≤ y ∧ y < h)
    (s : Int → PixelLighting)
    (hfresh : (s (get_lighting_buffer_pixel w x y)).lightness_set_on_frame ≠ f) :
    Tracks f
      ((add_daylight_lightness_to_lighting_buffer E w h f sh day l t
          (lights.foldl (add_light E w h f map sh sky l t) s))
        (get_lighting_buffer_pixel w x y)).lightness_set_on_frame
      ((add_daylight_lightness_to_lighting_buffer E w h f sh day l t
          (lights.foldl (add_light E w h f map sh sky l t) s))
        (get_lighting_buffer_pixel w x y)).lightness
      ((lightness_values E lights map sh day l t x y).foldl (keep_max id) none) := by
  rw [daylight_at E w h f sh day l t hw hh x y hx hy,
    lights_fold_at E w h f map sh sky l t hw hh x y hx hy]
  unfold lightness_values
  rw [List.foldl_append]
  exact tracks_daylight_pixel f _ _ _
    (tracks_lights_lightness E f map sh sky l t x y lights _ none hfresh)

theorem lightness_maximum_core (E : Env) (w h f : Int) (lights : List PyLight) (map : PyMap)
    (sh : Int → Int) (day : Flt) (sky : Colour) (l t : Int) (hw : w ≤ 2 ^ 31)
    (hh : h ≤ 2 ^ 31) (x y : Int) (hx : 0 ≤ x ∧ x < w) (hy : 0 ≤ y ∧ y < h)
    (s : Int → PixelLighting)
    (hfresh : (s (get_lighting_buffer_pixel w x y)).lightness_set_on_frame ≠ f)
    (hnan : ∀ v ∈ lightness_values E lights map sh day l t x y, v ≠ Flt.nan) :
    ((add_daylight_lightness_to_lighting_buffer E w h f sh day l t
          (lights.foldl (add_light E w h f map sh sky l t) s))
        (get_lighting_buffer_pixel w x y)).lightness
        ∈ lightness_values E lights map sh day l t x y
      ∧ ∀ v ∈ lightness_values E lights map sh day l t x y,
          Flt.lt ((add_daylight_lightness_to_lighting_buffer E w h f sh day l t
              (lights.foldl (add_light E w h f map sh sky l t) s))
            (get_lighting_buffer_pixel w x y)).lightness v = false := by
  have htr := lightness_tracks E w h f lights map sh day sky l t hw hh x y hx hy s hfresh
  obtain ⟨m, hm, hmem, hmax, -⟩ := keep_max_fold id
    (lightness_values E lights map sh day l t x y) hnan none (by simp)
    (Or.inl (by simp [lightness_values]))
  rw [hm] at htr
  have htr' := htr.2
  rw [htr']
  rcases hmem with hmem | hmem
  · exact ⟨hmem, hmax⟩
  · simp at hmem

/-- C13 (as amended). Maximum lightness: let the lighting buffer be allocated
for a viewport of at most `2 ^ 31` columns and rows, and let `(x, y)` be a
viewport pixel whose lightness stamp is not the new frame number.  If none of
the candidate values of the pixel is a NaN (the daylight value of the pixel
and `1 - distance * luminance(light colour)` for every light whose tier check
passes, whose pixel loops reach the pixel and whose clamped distance to it is
`< 1`), then after build the lightness of the pixel is one of the candidates
and no candidate exceeds it; and the same lightness results from every other
prior buffer content that is fresh at the pixel and from every reordering of
the lights. -/
theorem lightness_is_maximum (E : Env) (width height : Int) (lighting_buffer : LightingBuffer)
    (screen : Int → PixelLighting) (hscreen : lighting_buffer.screen = some screen)
    (lights : List PyLight) (map : PyMap) (slice_heights : Int → Int) (day : Flt)
    (sky_colour : Colour) (left_edge top_edge x y : Int)
    (hw : width ≤ 2 ^ 31) (hh : height ≤ 2 ^ 31)
    (hx0 : 0 ≤ x) (hx1 : x < width) (hy0 : 0 ≤ y) (hy1 : y < height)
    (hfresh : (screen (get_lighting_buffer_pixel width x y)).lightness_set_on_frame
      ≠ lighting_buffer.current_frame + 1)
    (hnan : ∀ v ∈ lightness_values E lights map slice_heights day left_edge top_edge x y,
      v ≠ Flt.nan) :
    ∃ lb s', create_lighting_buffer E width height lighting_buffer lights map slice_heights
          day sky_colour left_edge top_edge = some lb
      ∧ lb.screen = some s'
      ∧ (s' (get_lighting_buffer_pixel width x y)).lightness
          ∈ lightness_values E lights map slice_heights day left_edge top_edge x y
      ∧ (∀ v ∈ lightness_values E lights map slice_heights day left_edge top_edge x y,
          Flt.lt (s' (get_lighting_buffer_pixel width x y)).lightness v = false)
      ∧ ∀ (lights' : List PyLight) (screen' : Int → PixelLighting),
          lights'.Perm lights →
          (screen' (get_lighting_buffer_pixel width x y)).lightness_set_on_frame
            ≠ lighting_buffer.current_frame + 1 →
          ∃ lb' s'', create_lighting_buffer E width height
                ⟨lighting_buffer.current_frame, some screen'⟩ lights' map slice_heights day
                sky_colour left_edge top_edge = some lb'
            ∧ lb'.screen = some s''
            ∧ (s'' (get_lighting_buffer_pixel width x y)).lightness
                = (s' (get_lighting_buffer_pixel width x y)).lightness := by
  have hcore := lightness_maximum_core E width height (lighting_buffer.current_frame + 1)
    lights map slice_heights day sky_colour left_edge top_edge hw hh x y ⟨hx0, hx1⟩
    ⟨hy0, hy1⟩ screen hfresh hnan
  refine ⟨_, _, create_lighting_buffer_some E width height lighting_buffer screen hscreen
    lights map slice_heights day sky_colour left_edge top_edge, rfl, hcore.1, hcore.2, ?_⟩
  intro lights' screen' hperm hfresh'
  have hvals : (lightness_values E lights' map slice_heights day left_edge top_edge x y).Perm
      (lightness_values E lights map slice_heights day left_edge top_edge x y) := by
    unfold lightness_values
    exact List.Perm.append_right _ (List.Perm.map _ (List.Perm.filter _ hperm))
  have hnan' : ∀ v ∈ lightness_values E lights' map slice_heights day left_edge top_edge x y,
      v ≠ Flt.nan := fun v hv => hnan v (hvals.mem_iff.mp hv)
  have hcore' := lightness_maximum_core E width height (lighting_buffer.current_frame + 1)
    lights' map slice_heights day sky_colour left_edge top_edge hw hh x y ⟨hx0, hx1⟩
    ⟨hy0, hy1⟩ screen' hfresh' hnan'
  refine ⟨_, _, create_lighting_buffer_some E width height
    ⟨lighting_buffer.current_frame, some screen'⟩ screen' rfl lights' map slice_heights day
    sky_colour left_edge top_edge, rfl, ?_⟩
  exact flt_eq_of_not_lt _ _ (hnan' _ hcore'.1) (hnan _ hcore.1)
    (hcore'.2 _ (hvals.mem_iff.mpr hcore.1)) (hcore.2 _ (hvals.mem_iff.mp hcore'.1))

theorem lightness_is_maximum_witness :
    ∃ lb s', create_lighting_buffer demoEnv 1 1 demoLightingBuffer [demoLight 0] demoMap
          (fun _ => 0) (Flt.fin (1 / 2)) white 0 0 = some lb
      ∧ lb.screen = some s'
      ∧ (s' (get_lighting_buffer_pixel 1 0 0)).lightness
          ∈ lightness_values demoEnv [demoLight 0] demoMap (fun _ => 0) (Flt.fin (1 / 2)) 0 0
              0 0
      ∧ (∀ v ∈ lightness_values demoEnv [demoLight 0] demoMap (fun _ => 0) (Flt.fin (1 / 2))
            0 0 0 0,
          Flt.lt (s' (get_lighting_buffer_pixel 1 0 0)).lightness v = false)
      ∧ ∀ (lights' : List PyLight) (screen' : Int → PixelLighting),
          lights'.Perm [demoLight 0] →
          (screen' (get_lighting_buffer_pixel 1 0 0)).lightness_set_on_frame
            ≠ demoLightingBuffer.current_frame + 1 →
          ∃ lb' s'', create_lighting_buffer demoEnv 1 1
                ⟨demoLightingBuffer.current_frame, some screen'⟩ lights' demoMap (fun _ => 0)
                (Flt.fin (1 / 2)) white 0 0 = some lb'
            ∧ lb'.screen = some s''
            ∧ (s'' (get_lighting_buffer_pixel 1 0 0)).lightness
                = (s' (get_lighting_buffer_pixel 1 0 0)).lightness :=
  lightness_is_maximum demoEnv 1 1 demoLightingBuffer (fun _ => blankPixel) rfl [demoLight 0]
    demoMap (fun _ => 0) (Flt.fin (1 / 2)) white 0 0 0 0 (by norm_num) (by norm_num)
    (by decide) (by decide) (by decide) (by decide) (by decide) (by decide!)

/-- C13, as stated, fails when the colour of a light holds a NaN: the lightness
kept for the pixel then depends on the order of the lights.  Both lights pass
the tier check and are at distance `0` of the pixel; with the NaN light first
the pixel keeps a NaN lightness (no later value compares greater), with the
white light first it keeps `1`. -/
theorem lightness_depends_on_light_order :
    stored_lightness
        (create_lighting_buffer demoEnv 1 1 demoLightingBuffer [demoLightNaN, demoLight 0]
          demoMap (fun _ => 0) (Flt.fin (1 / 2)) white 0 0)
        (get_lighting_buffer_pixel 1 0 0) = some Flt.nan
      ∧ stored_lightness
        (create_lighting_buffer demoEnv 1 1 demoLightingBuffer [demoLight 0, demoLightNaN]
          demoMap (fun _ => 0) (Flt.fin (1 / 2)) white 0 0)
        (get_lighting_buffer_pixel 1 0 0) = some (Flt.fin 1)
      ∧ check_light_z demoEnv demoLightNaN (Light.ofPy demoEnv demoLightNaN) 0 0 demoMap
          (fun _ => 0) = true
      ∧ check_light_z demoEnv (demoLight 0) (Light.ofPy demoEnv (demoLight 0)) 0 0 demoMap
          (fun _ => 0) = true
      ∧ Flt.lt (lit demoEnv 0 0 demoLightNaN.x (demoLightNaN.y - 0) demoLightNaN.radius)
          (Flt.fin 1) = true
      ∧ Flt.lt (lit demoEnv 0 0 (demoLight 0).x ((demoLight 0).y - 0) (demoLight 0).radius)
          (Flt.fin 1) = true := by
  decide!

/-! ## Lighting buffer: the background colour -/

theorem lightness_step_background (E : Env) (f : Int) (p : PixelLighting) (d : Flt)
    (light : Light) (add : Bool) :
    (if add then add_light_pixel_lightness_to_lighting_buffer E f p d light
        else p).background_colour = p.background_colour
      ∧ (if add then add_light_pixel_lightness_to_lighting_buffer E f p d light
          else p).background_colour_lightness = p.background_colour_lightness
      ∧ (if add then add_light_pixel_lightness_to_lighting_buffer E f p d light
          else p).background_colour_set_on_frame = p.background_colour_set_on_frame := by
  cases add with
  | false => exact ⟨rfl, rfl, rfl⟩
  | true =>
      simp only [if_true]
      exact daylight_pixel_background f _ p

theorem tracks_colour_step_visible (E : Env) (f : Int) (p : PixelLighting) (x y : Int)
    (light : Light) (map : PyMap) (sky : Colour) (l t : Int)
    (hvis : glyph_transparent E map l t x y = true) (acc : Option (Colour × Flt))
    (h : Tracks f p.background_colour_set_on_frame
      (p.background_colour, p.background_colour_lightness) acc) :
    Tracks f
      (add_light_pixel_colour_to_lighting_buffer E f p x y
        (lit E x y light.x (light.y - t) light.radius) light map sky l t
        ).background_colour_set_on_frame
      ((add_light_pixel_colour_to_lighting_buffer E f p x y
          (lit E x y light.x (light.y - t) light.radius) light map sky l t
          ).background_colour,
        (add_light_pixel_colour_to_lighting_buffer E f p x y
          (lit E x y light.x (light.y - t) light.radius) light map sky l t
          ).background_colour_lightness)
      (keep_max Prod.snd acc
        (blended_colour E sky light t x y, lightness E (blended_colour E sky light t x y))) := by
  unfold glyph_transparent at hvis
  unfold add_light_pixel_colour_to_lighting_buffer blended_colour
  cases acc with
  | none =>
      have h' : p.background_colour_set_on_frame ≠ f := h
      simp [h', hvis, keep_max, Tracks]
  | some m =>
      obtain ⟨c, v⟩ := m
      have h' : p.background_colour_set_on_frame = f
          ∧ (p.background_colour, p.background_colour_lightness) = (c, v) := h
      have hc : p.background_colour = c := congrArg Prod.fst h'.2
      have hv : p.background_colour_lightness = v := congrArg Prod.snd h'.2
      by_cases hlt : Flt.lt v
          (lightness E (E.hsv_to_rgb
            (E.lerp_colour light.hsv (lit E x y light.x (light.y - t) light.radius) sky)))
          = true
      · simp [h'.1, hc, hv, hlt, keep_max, Tracks]
      · simp [h'.1, hc, hv, hlt, keep_max, Tracks]

theorem tracks_colour_step_hidden (E : Env) (f : Int) (p : PixelLighting) (x y : Int)
    (d : Flt) (light : Light) (map : PyMap) (sky : Colour) (l t : Int)
    (hvis : glyph_transparent E map l t x y = false)
    (h : p.background_colour_set_on_frame ≠ f) :
    add_light_pixel_colour_to_lighting_buffer E f p x y d light map sky l t = p := by
  unfold glyph_transparent at hvis
  unfold add_light_pixel_colour_to_lighting_buffer
  simp [h, hvis]

theorem tracks_lights_colour_visible (E : Env) (f : Int) (map : PyMap) (sh : Int → Int)
    (sky : Colour) (l t x y : Int) (hvis : glyph_transparent E map l t x y = true)
    (lights : List PyLight) :
    ∀ (p : PixelLighting) (acc : Option (Colour × Flt)),
      Tracks f p.background_colour_set_on_frame
        (p.background_colour, p.background_colour_lightness) acc →
      Tracks f
        (lights.foldl
          (fun p py =>
            if light_reaches E t (Light.ofPy E py) x y then
              light_pixel_update E f (Light.ofPy E py)
                (check_light_z E py (Light.ofPy E py) l t map sh) map sky l t x y p
            else p) p).background_colour_set_on_frame
        ((lights.foldl
          (fun p py =>
            if light_reaches E t (Light.ofPy E py) x y then
              light_pixel_update E f (Light.ofPy E py)
                (check_light_z E py (Light.ofPy E py) l t map sh) map sky l t x y p
            else p) p).background_colour,
         (lights.foldl
          (fun p py =>
            if light_reaches E t (Light.ofPy E py) x y then
              light_pixel_update E f (Light.ofPy E py)
                (check_light_z E py (Light.ofPy E py) l t map sh) map sky l t x y p
            else p) p).background_colour_lightness)
        (((lights.filter (fun py => light_reaches E t (Light.ofPy E py) x y)).map
            (fun py => (blended_colour E sky (Light.ofPy E py) t x y,
              lightness E (blended_colour E sky (Light.ofPy E py) t x y)))).foldl
          (keep_max Prod.snd) acc) := by
  induction lights with
  | nil => intro p acc h; exact h
  | cons py rest ih =>
      intro p acc h
      rw [List.foldl_cons]
      by_cases hr : light_reaches E t (Light.ofPy E py) x y = true
      · rw [if_pos hr,
          List.filter_cons_of_pos (p := fun py => light_reaches E t (Light.ofPy E py) x y) hr,
          List.map_cons, List.foldl_cons]
        apply ih
        unfold light_pixel_update
        apply tracks_colour_step_visible E f _ x y (Light.ofPy E py) map sky l t hvis
        obtain ⟨e1, e2, e3⟩ := lightness_step_background E f p
          (lit E x y (Light.ofPy E py).x ((Light.ofPy E py).y - t) (Light.ofPy E py).radius)
          (Light.ofPy E py) (check_light_z E py (Light.ofPy E py) l t map sh)
        rw [e1, e2, e3]
        exact h
      · rw [if_neg hr,
          List.filter_cons_of_neg (p := fun py => light_reaches E t (Light.ofPy E py) x y) hr]
        exact ih _ _ h

theorem tracks_lights_colour_hidden (E : Env) (f : Int) (map : PyMap) (sh : Int → Int)
    (sky : Colour) (l t x y : Int) (hvis : glyph_transparent E map l t x y = false)
    (lights : List PyLight) :
    ∀ (p : PixelLighting), p.background_colour_set_on_frame ≠ f →
      (lights.foldl
          (fun p py =>
            if light_reaches E t (Light.ofPy E py) x y then
              light_pixel_update E f (Light.ofPy E py)
                (check_light_z E py (Light.ofPy E py) l t map sh) map sky l t x y p
            else p) p).background_colour_set_on_frame ≠ f := by
  induction lights with
  | nil => intro p h; exact h
  | cons py rest ih =>
      intro p h
      rw [List.foldl_cons]
      apply ih
      by_cases hr : light_reaches E t (Light.ofPy E py) x y = true
      · rw [if_pos hr]
        unfold light_pixel_update
        obtain ⟨-, -, e3⟩ := lightness_step_background E f p
          (lit E x y (Light.ofPy E py).x ((Light.ofPy E py).y - t) (Light.ofPy E py).radius)
          (Light.ofPy E py) (check_light_z E py (Light.ofPy E py) l t map sh)
        rw [tracks_colour_step_hidden E f _ x y _ (Light.ofPy E py) map sky l t hvis
          (by rw [e3]; exact h), e3]
        exact h
      · rw [if_neg hr]
        exact h

theorem background_tracks (E : Env) (w h f : Int) (lights : List PyLight) (map : PyMap)
    (sh : Int → Int) (day : Flt) (sky : Colour) (l t : Int) (hw : w ≤ 2 ^ 31)
    (hh : h ≤ 2 ^ 31) (x y : Int) (hx : 0 ≤ x ∧ x < w) (hy : 0 ≤ y ∧ y < h)
    (s : Int → PixelLighting)
    (hfresh : (s (get_lighting_buffer_pixel w x y)).background_colour_set_on_frame ≠ f) :
    Tracks f
      ((add_daylight_lightness_to_lighting_buffer E w h f sh day l t
          (lights.foldl (add_light E w h f map sh sky l t) s))
        (get_lighting_buffer_pixel w x y)).background_colour_set_on_frame
      (((add_daylight_lightness_to_lighting_buffer E w h f sh day l t
          (lights.foldl (add_light E w h f map sh sky l t) s))
        (get_lighting_buffer_pixel w x y)).background_colour,
       ((add_daylight_lightness_to_lighting_buffer E w h f sh day l t
          (lights.foldl (add_light E w h f map sh sky l t) s))
        (get_lighting_buffer_pixel w x y)).background_colour_lightness)
      (if glyph_transparent E map l t x y then
        ((lights.filter (fun py => light_reaches E t (Light.ofPy E py) x y)).map
            (fun py => (blended_colour E sky (Light.ofPy E py) t x y,
              lightness E (blended_colour E sky (Light.ofPy E py) t x y)))).foldl
          (keep_max Prod.snd) none
      else none) := by
  rw [daylight_at E w h f sh day l t hw hh x y hx hy,
    lights_fold_at E w h f map sh sky l t hw hh x y hx hy]
  obtain ⟨e1, e2, e3⟩ := daylight_pixel_background f
    (daylight_lightness E day (ground_height_buffer E sh (l + x) t) y)
    (lights.foldl
      (fun p py =>
        if light_reaches E t (Light.ofPy E py) x y then
          light_pixel_update E f (Light.ofPy E py)
            (check_light_z E py (Light.ofPy E py) l t map sh) map sky l t x y p
        else p)
      (s (get_lighting_buffer_pixel w x y)))
  rw [e1, e2, e3]
  by_cases hvis : glyph_transparent E map l t x y = true
  · rw [if_pos hvis]
    exact tracks_lights_colour_visible E f map sh sky l t x y hvis lights _ none hfresh
  · rw [if_neg hvis]
    have hvis' : glyph_transparent E map l t x y = false := by
      cases hg : glyph_transparent E map l t x y with
      | false => rfl
      | true => exact absurd hg hvis
    exact tracks_lights_colour_hidden E f map sh sky l t x y hvis' lights _ hfresh

/-- C16 (as amended). Background-colour contribution only where visible: let
the lighting buffer be allocated for a viewport of at most `2 ^ 31` columns and
rows, and let `(x, y)` be a viewport pixel whose background-colour stamp is
not the new frame number.  After build the pixel has its background colour
stamped with the new frame exactly when the map glyph at
`(left_edge + x, top_edge + y)` is absent or has no opaque background and
some light reaches the pixel (its pixel loops visit the pixel and its clamped
distance to it is `< 1`); and when no blended colour of such a light has a NaN
luminance, the stored colour of a stamped pixel is the blended colour of one of
these lights and no blended colour of these lights has a greater luminance. -/
theorem background_colour_is_maximum (E : Env) (width height : Int)
    (lighting_buffer : LightingBuffer) (screen : Int → PixelLighting)
    (hscreen : lighting_buffer.screen = some screen) (lights : List PyLight) (map : PyMap)
    (slice_heights : Int → Int) (day : Flt) (sky_colour : Colour)
    (left_edge top_edge x y : Int) (hw : width ≤ 2 ^ 31) (hh : height ≤ 2 ^ 31)
    (hx0 : 0 ≤ x) (hx1 : x < width) (hy0 : 0 ≤ y) (hy1 : y < height)
    (hfresh : (screen (get_lighting_buffer_pixel width x y)).background_colour_set_on_frame
      ≠ lighting_buffer.current_frame + 1) :
    ∃ lb s', create_lighting_buffer E width height lighting_buffer lights map slice_heights
          day sky_colour left_edge top_edge = some lb
      ∧ lb.screen = some s'
      ∧ ((s' (get_lighting_buffer_pixel width x y)).background_colour_set_on_frame
            = lb.current_frame
          ↔ glyph_transparent E map left_edge top_edge x y = true
            ∧ ∃ py ∈ lights, light_reaches E top_edge (Light.ofPy E py) x y = true)
      ∧ ((∀ py ∈ lights, light_reaches E top_edge (Light.ofPy E py) x y = true →
            lightness E (blended_colour E sky_colour (Light.ofPy E py) top_edge x y)
              ≠ Flt.nan) →
          (s' (get_lighting_buffer_pixel width x y)).background_colour_set_on_frame
            = lb.current_frame →
          ∃ py ∈ lights, light_reaches E top_edge (Light.ofPy E py) x y = true
            ∧ (s' (get_lighting_buffer_pixel width x y)).background_colour
                = blended_colour E sky_colour (Light.ofPy E py) top_edge x y
            ∧ ∀ py' ∈ lights, light_reaches E top_edge (Light.ofPy E py') x y = true →
                Flt.lt
                  (lightness E (s' (get_lighting_buffer_pixel width x y)).background_colour)
                  (lightness E (blended_colour E sky_colour (Light.ofPy E py') top_edge x y))
                  = false) := by
  have htr := background_tracks E width height (lighting_buffer.current_frame + 1) lights map
    slice_heights day sky_colour left_edge top_edge hw hh x y ⟨hx0, hx1⟩ ⟨hy0, hy1⟩ screen
    hfresh
  refine ⟨_, _, create_lighting_buffer_some E width height lighting_buffer screen hscreen
    lights map slice_heights day sky_colour left_edge top_edge, rfl, ?_, ?_⟩
  · show _ = lighting_buffer.current_frame + 1 ↔ _
    by_cases hvis : glyph_transparent E map left_edge top_edge x y = true
    · rw [if_pos hvis] at htr
      cases hacc : ((lights.filter
          (fun py => light_reaches E top_edge (Light.ofPy E py) x y)).map
          (fun py => (blended_colour E sky_colour (Light.ofPy E py) top_edge x y,
            lightness E (blended_colour E sky_colour (Light.ofPy E py) top_edge x y)))).foldl
          (keep_max Prod.snd) none with
      | none =>
          rw [hacc] at htr
          have hne : _ ≠ lighting_buffer.current_frame + 1 := htr
          have hnil := (keep_max_fold_eq_none _ _).mp hacc
          rw [List.map_eq_nil_iff, List.filter_eq_nil_iff] at hnil
          constructor
          · intro he; exact absurd he hne
          · rintro ⟨-, py, hpy, hr⟩
            exact absurd hr (hnil py hpy)
      | some m =>
          rw [hacc] at htr
          have he : _ = lighting_buffer.current_frame + 1 ∧ _ := htr
          constructor
          · intro _
            refine ⟨hvis, ?_⟩
            by_contra hno
            have hnil : (lights.filter
                (fun py => light_reaches E top_edge (Light.ofPy E py) x y)) = [] := by
              rw [List.filter_eq_nil_iff]
              intro py hpy hr
              exact hno ⟨py, hpy, hr⟩
            rw [hnil] at hacc
            simp at hacc
          · intro _; exact he.1
    · rw [if_neg hvis] at htr
      have hne : _ ≠ lighting_buffer.current_frame + 1 := htr
      constructor
      · intro he; exact absurd he hne
      · rintro ⟨hv, -⟩; exact absurd hv hvis
  · intro hnan hst
    have hst' : ((add_daylight_lightness_to_lighting_buffer E width height
        (lighting_buffer.current_frame + 1) slice_heights day left_edge top_edge
        (lights.foldl
          (add_light E width height (lighting_buffer.current_frame + 1) map slice_heights
            sky_colour left_edge top_edge) screen))
        (get_lighting_buffer_pixel width x y)).background_colour_set_on_frame
        = lighting_buffer.current_frame + 1 := hst
    by_cases hvis : glyph_transparent E map left_edge top_edge x y = true
    · rw [if_pos hvis] at htr
      have hn : ∀ v ∈ (lights.filter
          (fun py => light_reaches E top_edge (Light.ofPy E py) x y)).map
          (fun py => (blended_colour E sky_colour (Light.ofPy E py) top_edge x y,
            lightness E (blended_colour E sky_colour (Light.ofPy E py) top_edge x y))),
          Prod.snd v ≠ Flt.nan := by
        intro v hv
        obtain ⟨py, hpy, rfl⟩ := List.mem_map.mp hv
        have hpy' := List.mem_filter.mp hpy
        exact hnan py hpy'.1 hpy'.2
      have hne : (lights.filter
          (fun py => light_reaches E top_edge (Light.ofPy E py) x y)).map
          (fun py => (blended_colour E sky_colour (Light.ofPy E py) top_edge x y,
            lightness E (blended_colour E sky_colour (Light.ofPy E py) top_edge x y)))
          ≠ [] := by
        intro hnil
        rw [hnil] at htr
        exact (htr : _ ≠ lighting_buffer.current_frame + 1) hst'
      obtain ⟨m, hm, hmem, hmax, -⟩ := keep_max_fold Prod.snd _ hn none (by simp)
        (Or.inl hne)
      rw [hm] at htr
      have hval : (_, _) = m := (htr : _ = lighting_buffer.current_frame + 1 ∧ _).2
      rcases hmem with hmem | hmem
      · obtain ⟨py, hpy, hitem⟩ := List.mem_map.mp hmem
        have hpy' := List.mem_filter.mp hpy
        have hcol := congrArg Prod.fst (hval.trans hitem.symm)
        have hkey : Prod.snd m
            = lightness E (blended_colour E sky_colour (Light.ofPy E py) top_edge x y) := by
          rw [← hitem]
        refine ⟨py, hpy'.1, hpy'.2, hcol, ?_⟩
        intro py' hpy1 hr1
        have := hmax _ (List.mem_map.mpr ⟨py', List.mem_filter.mpr ⟨hpy1, hr1⟩, rfl⟩)
        rw [hkey] at this
        have hcol' : ((add_daylight_lightness_to_lighting_buffer E width height
            (lighting_buffer.current_frame + 1) slice_heights day left_edge top_edge
            (lights.foldl
              (add_light E width height (lighting_buffer.current_frame + 1) map slice_heights
                sky_colour left_edge top_edge) screen))
            (get_lighting_buffer_pixel width x y)).background_colour
            = blended_colour E sky_colour (Light.ofPy E py) top_edge x y := hcol
        rw [hcol']
        exact this
      · simp at hmem
    · rw [if_neg hvis] at htr
      exact absurd hst' htr

theorem background_colour_is_maximum_witness :
    ∃ lb s', create_lighting_buffer demoEnv 1 1 demoLightingBuffer [demoLightGrey]
          (PyMap.dict []) (fun _ => 0) (Flt.fin 1) white 0 0 = some lb
      ∧ lb.screen = some s'
      ∧ ((s' (get_lighting_buffer_pixel 1 0 0)).background_colour_set_on_frame
            = lb.current_frame
          ↔ glyph_transparent demoEnv (PyMap.dict []) 0 0 0 0 = true
            ∧ ∃ py ∈ [demoLightGrey],
                light_reaches demoEnv 0 (Light.ofPy demoEnv py) 0 0 = true)
      ∧ ((∀ py ∈ [demoLightGrey], light_reaches demoEnv 0 (Light.ofPy demoEnv py) 0 0 = true →
            lightness demoEnv (blended_colour demoEnv white (Light.ofPy demoEnv py) 0 0 0)
              ≠ Flt.nan) →
          (s' (get_lighting_buffer_pixel 1 0 0)).background_colour_set_on_frame
            = lb.current_frame →
          ∃ py ∈ [demoLightGrey], light_reaches demoEnv 0 (Light.ofPy demoEnv py) 0 0 = true
            ∧ (s' (get_lighting_buffer_pixel 1 0 0)).background_colour
                = blended_colour demoEnv white (Light.ofPy demoEnv py) 0 0 0
            ∧ ∀ py' ∈ [demoLightGrey],
                light_reaches demoEnv 0 (Light.ofPy demoEnv py') 0 0 = true →
                Flt.lt
                  (lightness demoEnv (s' (get_lighting_buffer_pixel 1 0 0)).background_colour)
                  (lightness demoEnv
                    (blended_colour demoEnv white (Light.ofPy demoEnv py') 0 0 0))
                  = false) :=
  background_colour_is_maximum demoEnv 1 1 demoLightingBuffer (fun _ => blankPixel) rfl
    [demoLightGrey] (PyMap.dict []) (fun _ => 0) (Flt.fin 1) white 0 0 0 0 (by norm_num)
    (by norm_num) (by decide) (by decide) (by decide) (by decide) (by decide)

/-- C16, as stated, fails for a light of negative radius: its pixel loops are
empty, so it never contributes, although its clamped elliptical distance to
the pixel is `0`.  With a white light of radius `-1` and a grey light of
radius `2` at the pixel, over an absent glyph, the stored background colour is
the grey one, whose luminance is less than that of the blended colour of the
white light. -/
theorem background_colour_ignores_inverted_light :
    stored_background
        (create_lighting_buffer demoEnv 1 1 demoLightingBuffer
          [demoLightInverted, demoLightGrey] (PyMap.dict []) (fun _ => 0) (Flt.fin 1) white
          0 0)
        (get_lighting_buffer_pixel 1 0 0) = some (grey, 2)
      ∧ get_block (0 + 0) (0 + 0) (PyMap.dict []) = 0
      ∧ Flt.lt (lit demoEnv 0 0 demoLightInverted.x (demoLightInverted.y - 0)
          demoLightInverted.radius) (Flt.fin 1) = true
      ∧ Flt.lt (lit demoEnv 0 0 demoLightGrey.x (demoLightGrey.y - 0) demoLightGrey.radius)
          (Flt.fin 1) = true
      ∧ blended_colour demoEnv white (Light.ofPy demoEnv demoLightInverted) 0 0 0 = white
      ∧ Flt.lt (lightness demoEnv grey) (lightness demoEnv white) = true := by
  decide!

/-! ## Sky and background -/

/-- C21 (as amended). Underground base colour: for every pixel strictly below
the ground surface row of its column (`world_gen_height - y < slice_height`),
with fancy lighting disabled, `sky` returns the fixed dark grey
`(.1f, .1f, .1f)`, whatever the lights, the background objects and the sky
colour are. -/
theorem sky_underground_plain (E : Env) (x y world_x : Int) (map : PyMap)
    (slice_heights : Int → Int) (bk_objects : List PyBkObj) (sky_colour : Colour)
    (lights : List PyLight) (settings : Settings)
    (hunder : E.world_gen_height - y < slice_heights (world_x + x))
    (hfancy : ¬ settings.fancy_lights > 0) :
    sky E x y world_x map slice_heights bk_objects sky_colour lights settings
      = underground_base E := by
  unfold sky
  rw [sky_object_scan_none E x y world_x slice_heights bk_objects _
    (fun o _ hc => by unfold bk_object_covers at hc; omega)]
  have hlt : Flt.lt (Flt.fin (-1)) (Flt.fin 0) = true := by simp [Flt.lt]
  simp only [hlt, if_true]
  exact get_sky_colour_underground_plain E x y world_x map slice_heights lights sky_colour
    settings hunder hfancy

theorem sky_underground_plain_witness :
    sky demoEnv 0 201 0 demoMap (fun _ => 0) [demoBkObject] white [demoLight 0] demoSettings
      = underground_base demoEnv :=
  sky_underground_plain demoEnv 0 201 0 demoMap (fun _ => 0) [demoBkObject] white
    [demoLight 0] demoSettings (by decide) (by decide)

/-- C21, as stated, fails on the ground surface row itself: the pixel with
`world_gen_height - y = slice_height` is not above the ground surface (no
background object covers it), but `get_sky_colour` takes it for overground and
returns the sky colour, not the dark grey. -/
theorem sky_at_ground_surface_not_grey :
    demoEnv.world_gen_height - 200 = (fun _ => (0 : Int)) (0 + 0)
      ∧ sky demoEnv 0 200 0 demoMap (fun _ => 0) [] white [] demoSettings = white
      ∧ white ≠ underground_base demoEnv := by
  decide!

theorem fold_min (vs : List Flt) (hn : ∀ v ∈ vs, v ≠ Flt.nan) :
    ∀ m0 : Flt, m0 ≠ Flt.nan →
      ((vs.foldl (fun m v => if Flt.lt v m then v else m) m0 = m0
          ∨ vs.foldl (fun m v => if Flt.lt v m then v else m) m0 ∈ vs)
        ∧ Flt.lt m0 (vs.foldl (fun m v => if Flt.lt v m then v else m) m0) = false
        ∧ ∀ v ∈ vs, Flt.lt v (vs.foldl (fun m v => if Flt.lt v m then v else m) m0) = false) := by
  induction vs with
  | nil =>
      intro m0 _
      exact ⟨Or.inl rfl, flt_lt_irrefl _, by simp⟩
  | cons v vs ih =>
      intro m0 hm0
      have hv : v ≠ Flt.nan := hn v (List.mem_cons_self _ _)
      have hn' : ∀ v' ∈ vs, v' ≠ Flt.nan := fun v' hv' => hn v' (List.mem_cons_of_mem _ hv')
      rw [List.foldl_cons]
      by_cases hlt : Flt.lt v m0 = true
      · rw [if_pos hlt]
        obtain ⟨hmem, hle, hall⟩ := ih hn' v hv
        have hmn : vs.foldl (fun m v => if Flt.lt v m then v else m) v ≠ Flt.nan := by
          rcases hmem with h | h
          · rw [h]; exact hv
          · exact hn' _ h
        refine ⟨Or.inr ?_, ?_, ?_⟩
        · rcases hmem with h | h
          · rw [h]; exact List.mem_cons_self _ _
          · exact List.mem_cons_of_mem _ h
        · cases hc : Flt.lt m0 (vs.foldl (fun m v => if Flt.lt v m then v else m) v) with
          | false => rfl
          | true =>
              have := flt_lt_trans _ _ _ hlt hc
              rw [this] at hle
              exact absurd hle (by simp)
        · intro v' hv'
          rcases List.mem_cons.mp hv' with rfl | h
          · exact hle
          · exact hall v' h
      · have hlt' : Flt.lt v m0 = false := by
          cases h : Flt.lt v m0 with
          | false => rfl
          | true => exact absurd h hlt
        rw [if_neg hlt]
        obtain ⟨hmem, hle, hall⟩ := ih hn' m0 hm0
        have hmn : vs.foldl (fun m v => if Flt.lt v m then v else m) m0 ≠ Flt.nan := by
          rcases hmem with h | h
          · rw [h]; exact hm0
          · exact hn' _ h
        refine ⟨?_, hle, ?_⟩
        · rcases hmem with h | h
          · exact Or.inl h
          · exact Or.inr (List.mem_cons_of_mem _ h)
        · intro v' hv'
          rcases List.mem_cons.mp hv' with rfl | h
          · exact flt_not_lt_trans _ _ _ hv hm0 hmn hlt' hle
          · exact hall v' h

theorem foldl_filter_map {α β γ : Type} (c : α → Bool) (val : α → β) (step : γ → β → γ)
    (items : List α) :
    ∀ acc : γ, items.foldl (fun acc a => if c a then step acc (val a) else acc) acc
      = ((items.filter c).map val).foldl step acc := by
  induction items with
  | nil => intro acc; rfl
  | cons a rest ih =>
      intro acc
      rw [List.foldl_cons, ih]
      by_cases hc : c a = true
      · rw [if_pos hc, List.filter_cons_of_pos hc, List.map_cons, List.foldl_cons]
      · rw [if_neg hc, List.filter_cons_of_neg hc]

theorem get_lightness_eq (E : Env) (x y world_x : Int) (map : PyMap)
    (slice_heights : Int → Int) (lights : List PyLight) :
    get_lightness E x y world_x map slice_heights lights
      = Flt.sub E.rnd32 (Flt.fin 1)
          (((lights.filter (fun light =>
              Flt.lt (lit E x y light.x light.y light.radius) (Flt.fin 1)
                && decide (light.z
                  ≥ get_z_at_pos E (world_x + light.x) light.y map slice_heights))).map
            (fun light =>
              Flt.mul E.rnd32 (lit E x y light.x light.y light.radius)
                (lightness E light.colour))).foldl
            (fun m v => if Flt.lt v m then v else m) (Flt.fin 1)) := by
  unfold get_lightness
  rw [← foldl_filter_map]
  dsimp only
  congr 1
  congr 1
  funext min light
  cases (Flt.lt (lit E x y light.x light.y light.radius) (Flt.fin 1)
    && decide (light.z ≥ get_z_at_pos E (world_x + light.x) light.y map slice_heights)) <;>
    simp

/-- C22 (as amended). Underground fancy blend: for every pixel strictly below
the ground surface row of its column, with fancy lighting enabled, each of the
three channels of the result of `sky` equals `(.1f + L) * .5f`, where `L` is
the value of `get_lightness` at the pixel, whatever the background objects,
the sky colour and the lighting buffer are; and when no product is a NaN,
`L = 1 - m` for the least `m` among `1` and the products
`distance * luminance` of the lights at clamped distance `< 1` whose tier is
at least the tier of their position. -/
theorem underground_fancy_uses_get_lightness (E : Env) (x y world_x : Int) (map : PyMap)
    (slice_heights : Int → Int) (bk_objects : List PyBkObj) (sky_colour : Colour)
    (lights : List PyLight) (settings : Settings)
    (hunder : E.world_gen_height - y < slice_heights (world_x + x))
    (hfancy : settings.fancy_lights > 0) :
    sky E x y world_x map slice_heights bk_objects sky_colour lights settings
        = underground_blend E (get_lightness E x y world_x map slice_heights lights)
      ∧ ((∀ v ∈ lightness_products E x y world_x map slice_heights lights, v ≠ Flt.nan) →
          ∃ m ∈ lightness_products E x y world_x map slice_heights lights,
            (∀ v ∈ lightness_products E x y world_x map slice_heights lights,
              Flt.lt v m = false)
            ∧ get_lightness E x y world_x map slice_heights lights
                = Flt.sub E.rnd32 (Flt.fin 1) m) := by
  constructor
  · unfold sky
    rw [sky_object_scan_none E x y world_x slice_heights bk_objects _
      (fun o _ hc => by unfold bk_object_covers at hc; omega)]
    have hlt : Flt.lt (Flt.fin (-1)) (Flt.fin 0) = true := by simp [Flt.lt]
    simp only [hlt, if_true]
    unfold get_sky_colour underground_blend
    simp only [hunder, if_true, hfancy]
  · intro hnan
    unfold lightness_products at hnan ⊢
    have h1 : Flt.fin 1 ≠ Flt.nan := by simp
    obtain ⟨hmem, hle, hall⟩ := fold_min _
      (fun v hv => hnan v (List.mem_cons_of_mem _ hv)) (Flt.fin 1) h1
    rw [get_lightness_eq]
    generalize ((lights.filter (fun light =>
              Flt.lt (lit E x y light.x light.y light.radius) (Flt.fin 1)
                && decide (light.z
                  ≥ get_z_at_pos E (world_x + light.x) light.y map slice_heights))).map
            (fun light =>
              Flt.mul E.rnd32 (lit E x y light.x light.y light.radius)
                (lightness E light.colour))).foldl
            (fun m v => if Flt.lt v m then v else m) (Flt.fin 1) = m at hmem hle hall
    refine ⟨m, ?_, ?_, rfl⟩
    · rcases hmem with h | h
      · rw [h]; exact List.mem_cons_self _ _
      · exact List.mem_cons_of_mem _ h
    · intro v hv
      rcases List.mem_cons.mp hv with rfl | h
      · exact hle
      · exact hall v h

theorem underground_fancy_uses_get_lightness_witness :
    sky demoEnv 0 203 0 demoMap (fun _ => 0) [demoBkObject] white [demoSurfaceLight]
          ⟨1, 1, 1⟩
        = underground_blend demoEnv
            (get_lightness demoEnv 0 203 0 demoMap (fun _ => 0) [demoSurfaceLight])
      ∧ ((∀ v ∈ lightness_products demoEnv 0 203 0 demoMap (fun _ => 0) [demoSurfaceLight],
            v ≠ Flt.nan) →
          ∃ m ∈ lightness_products demoEnv 0 203 0 demoMap (fun _ => 0) [demoSurfaceLight],
            (∀ v ∈ lightness_products demoEnv 0 203 0 demoMap (fun _ => 0)
                [demoSurfaceLight],
              Flt.lt v m = false)
            ∧ get_lightness demoEnv 0 203 0 demoMap (fun _ => 0) [demoSurfaceLight]
                = Flt.sub demoEnv.rnd32 (Flt.fin 1) m) :=
  underground_fancy_uses_get_lightness demoEnv 0 203 0 demoMap (fun _ => 0) [demoBkObject]
    white [demoSurfaceLight] ⟨1, 1, 1⟩ (by decide) (by decide)

/-- C22, as stated, fails: `get_sky_colour` does not read the lighting buffer
but calls `get_lightness`, whose tier test differs from that of the buffer.  A
tier `-1` light on the ground surface row is not above the surface, so it adds
nothing to the buffer, and the pixel three rows below holds the daylight value
`0` there; `get_lightness` counts the light, at distance `9 / 16`. -/
theorem underground_fancy_differs_from_buffer :
    demoEnv.world_gen_height - 203 < (fun _ => (0 : Int)) (0 + 0)
      ∧ sky demoEnv 0 203 0 demoMap (fun _ => 0) [] white [demoSurfaceLight] ⟨1, 1, 1⟩
          = underground_blend demoEnv (Flt.fin (7 / 16))
      ∧ underground_blend_of_buffer demoEnv 1
            (create_lighting_buffer demoEnv 1 1 demoLightingBuffer [demoSurfaceLight] demoMap
              (fun _ => 0) (Flt.fin 1) white 0 203)
            0 (203 - 203)
          = some (underground_blend demoEnv (Flt.fin 0))
      ∧ underground_blend demoEnv (Flt.fin (7 / 16)) ≠ underground_blend demoEnv (Flt.fin 0) := by
  decide!

theorem sky_light_scan_cons (E : Env) (x y : Int) (cb : Colour) (l : PyLight)
    (rest : List PyLight) (acc : Flt × Colour) :
    sky_light_scan E x y cb (l :: rest) acc
      = if in_reach E x y l then
          if Flt.lt acc.1 (lightness E (sky_blend E x y cb l)) then
            sky_light_scan E x y cb rest
              (lightness E (sky_blend E x y cb l), sky_blend E x y cb l)
          else sky_light_scan E x y cb rest acc
        else sky_light_scan E x y cb rest acc := rfl

theorem sky_light_scan_spec (E : Env) (x y : Int) (cb : Colour) (lights : List PyLight) :
    ∀ acc : Flt × Colour, acc.1 ≠ Flt.nan →
      (∀ l ∈ lights, in_reach E x y l = true →
        lightness E (sky_blend E x y cb l) ≠ Flt.nan) →
      (sky_light_scan E x y cb lights acc = acc
          ∧ ∀ l ∈ lights, in_reach E x y l = true →
              Flt.lt acc.1 (lightness E (sky_blend E x y cb l)) = false)
        ∨ ∃ pre l post, lights = pre ++ l :: post ∧ in_reach E x y l = true
            ∧ sky_light_scan E x y cb lights acc
                = (lightness E (sky_blend E x y cb l), sky_blend E x y cb l)
            ∧ Flt.lt acc.1 (lightness E (sky_blend E x y cb l)) = true
            ∧ (∀ l' ∈ pre, in_reach E x y l' = true →
                Flt.lt (lightness E (sky_blend E x y cb l'))
                  (lightness E (sky_blend E x y cb l)) = true)
            ∧ (∀ l' ∈ post, in_reach E x y l' = true →
                Flt.lt (lightness E (sky_blend E x y cb l))
                  (lightness E (sky_blend E x y cb l')) = false) := by
  induction lights with
  | nil =>
      intro acc _ _
      exact Or.inl ⟨rfl, by simp⟩
  | cons l rest ih =>
      intro acc hacc hnan
      have hnan' : ∀ l' ∈ rest, in_reach E x y l' = true →
          lightness E (sky_blend E x y cb l') ≠ Flt.nan :=
        fun l' hl' => hnan l' (List.mem_cons_of_mem _ hl')
      rw [sky_light_scan_cons]
      by_cases hr : in_reach E x y l = true
      · have hl : lightness E (sky_blend E x y cb l) ≠ Flt.nan :=
          hnan l (List.mem_cons_self _ _) hr
        rw [if_pos hr]
        by_cases hgt : Flt.lt acc.1 (lightness E (sky_blend E x y cb l)) = true
        · rw [if_pos hgt]
          rcases ih (lightness E (sky_blend E x y cb l), sky_blend E x y cb l) hl hnan' with
            ⟨heq, hall⟩ | ⟨pre, l1, post, hsplit, hr1, heq, hgt1, hpre, hpost⟩
          · exact Or.inr ⟨[], l, rest, rfl, hr, heq, hgt, by simp, hall⟩
          · refine Or.inr ⟨l :: pre, l1, post, by rw [hsplit]; rfl, hr1, heq,
              flt_lt_trans _ _ _ hgt hgt1, ?_, hpost⟩
            intro l' hl' hr'
            rcases List.mem_cons.mp hl' with rfl | h
            · exact hgt1
            · exact hpre l' h hr'
        · have hgt' : Flt.lt acc.1 (lightness E (sky_blend E x y cb l)) = false := by
            cases h : Flt.lt acc.1 (lightness E (sky_blend E x y cb l)) with
            | false => rfl
            | true => exact absurd h hgt
          rw [if_neg hgt]
          rcases ih acc hacc hnan' with
            ⟨heq, hall⟩ | ⟨pre, l1, post, hsplit, hr1, heq, hgt1, hpre, hpost⟩
          · refine Or.inl ⟨heq, ?_⟩
            intro l' hl' hr'
            rcases List.mem_cons.mp hl' with rfl | h
            · exact hgt'
            · exact hall l' h hr'
          · refine Or.inr ⟨l :: pre, l1, post, by rw [hsplit]; rfl, hr1, heq, hgt1, ?_, hpost⟩
            intro l' hl' hr'
            rcases List.mem_cons.mp hl' with rfl | h
            · cases hc : Flt.lt (lightness E (sky_blend E x y cb l'))
                  (lightness E (sky_blend E x y cb l1)) with
              | true => rfl
              | false =>
                  have hl1 : lightness E (sky_blend E x y cb l1) ≠ Flt.nan := by
                    intro hn
                    rw [hn] at hgt1
                    cases hacc1 : acc.1 <;> rw [hacc1] at hgt1 <;> simp [Flt.lt] at hgt1
                  have := flt_not_lt_trans _ _ _ hacc hl hl1 hgt' hc
                  rw [this] at hgt1
                  exact absurd hgt1 (by simp)
            · exact hpre l' h hr'
      · rw [if_neg hr]
        rcases ih acc hacc hnan' with
          ⟨heq, hall⟩ | ⟨pre, l1, post, hsplit, hr1, heq, hgt1, hpre, hpost⟩
        · refine Or.inl ⟨heq, ?_⟩
          intro l' hl' hr'
          rcases List.mem_cons.mp hl' with rfl | h
          · exact absurd hr' hr
          · exact hall l' h hr'
        · refine Or.inr ⟨l :: pre, l1, post, by rw [hsplit]; rfl, hr1, heq, hgt1, ?_, hpost⟩
          intro l' hl' hr'
          rcases List.mem_cons.mp hl' with rfl | h
          · exact absurd hr' hr
          · exact hpre l' h hr'

theorem sky_light_scan_none (E : Env) (x y : Int) (cb : Colour) (lights : List PyLight)
    (hnone : ∀ l ∈ lights, in_reach E x y l = false) :
    ∀ acc : Flt × Colour, sky_light_scan E x y cb lights acc = acc := by
  induction lights with
  | nil => intro acc; rfl
  | cons l rest ih =>
      intro acc
      rw [sky_light_scan_cons, hnone l (List.mem_cons_self _ _)]
      simp only [Bool.false_eq_true, if_false]
      exact ih (fun l' hl' => hnone l' (List.mem_cons_of_mem _ hl')) acc

theorem sky_marker_scan_none (E : Env) (x y : Int) (lights : List PyLight)
    (hnone : ∀ l ∈ lights, in_reach E x y l = false) :
    ∀ result : Colour, sky_marker_scan E x y lights result = result := by
  induction lights with
  | nil => intro result; rfl
  | cons l rest ih =>
      intro result
      have h := hnone l (List.mem_cons_self _ _)
      unfold in_reach at h
      unfold sky_marker_scan
      rw [h]
      simp only [Bool.false_eq_true, if_false]
      exact ih (fun l' hl' => hnone l' (List.mem_cons_of_mem _ hl')) result

/-- C23 (as amended). Brightest light wins above ground: for every pixel that
is not underground, with fancy lighting enabled, when some light has clamped
elliptical distance `< 1` to the pixel and the blended colour of every such
light has a luminance `>= 0`, `get_sky_colour` returns the blended colour of
the first light in iteration order that attains the maximum luminance among
these lights: no such light has a greater luminance and every such light
before it has a strictly smaller one.  When no light has distance `< 1`, the
fancy path returns `hsv_to_rgb` of the colour behind, and the path with fancy
lighting disabled returns the colour behind itself. -/
theorem brightest_light_wins (E : Env) (x y world_x : Int) (map : PyMap)
    (slice_heights : Int → Int) (lights : List PyLight) (colour_behind : Colour)
    (settings plain : Settings)
    (hover : ¬ E.world_gen_height - y < slice_heights (world_x + x))
    (hfancy : settings.fancy_lights > 0) (hplain : ¬ plain.fancy_lights > 0) :
    ((∃ l ∈ lights, in_reach E x y l = true) →
      (∀ l ∈ lights, in_reach E x y l = true →
        Flt.ge (lightness E (sky_blend E x y colour_behind l)) (Flt.fin 0) = true) →
      ∃ pre l post, lights = pre ++ l :: post ∧ in_reach E x y l = true
        ∧ get_sky_colour E x y world_x map slice_heights lights colour_behind settings
            = sky_blend E x y colour_behind l
        ∧ (∀ l' ∈ lights, in_reach E x y l' = true →
            Flt.lt (lightness E (sky_blend E x y colour_behind l))
              (lightness E (sky_blend E x y colour_behind l')) = false)
        ∧ (∀ l' ∈ pre, in_reach E x y l' = true →
            Flt.lt (lightness E (sky_blend E x y colour_behind l'))
              (lightness E (sky_blend E x y colour_behind l)) = true))
      ∧ ((∀ l ∈ lights, in_reach E x y l = false) →
          get_sky_colour E x y world_x map slice_heights lights colour_behind settings
              = E.hsv_to_rgb colour_behind
            ∧ get_sky_colour E x y world_x map slice_heights lights colour_behind plain
              = colour_behind) := by
  have hge_nan : ∀ v : Flt, Flt.ge v (Flt.fin 0) = true → v ≠ Flt.nan := by
    intro v hv hn
    rw [hn] at hv
    simp [Flt.ge, Flt.lt, Flt.eq] at hv
  have hge_gt : ∀ v : Flt, Flt.ge v (Flt.fin 0) = true → Flt.lt (Flt.fin (-1)) v = true := by
    intro v hv
    cases v <;> simp [Flt.ge, Flt.lt, Flt.eq] at hv ⊢
    rcases hv with h | h
    · linarith
    · rw [h]; norm_num
  constructor
  · rintro ⟨l0, hl0, hr0⟩ hpos
    have hnan : ∀ l ∈ lights, in_reach E x y l = true →
        lightness E (sky_blend E x y colour_behind l) ≠ Flt.nan :=
      fun l hl hr => hge_nan _ (hpos l hl hr)
    rcases sky_light_scan_spec E x y colour_behind lights
        (Flt.fin (-1), ⟨Flt.fin 0, Flt.fin 0, Flt.fin 0⟩) (by simp) hnan with
      ⟨-, hall⟩ | ⟨pre, l, post, hsplit, hr, heq, hgt, hpre, hpost⟩
    · have h1 := hall l0 hl0 hr0
      have h2 := hge_gt _ (hpos l0 hl0 hr0)
      rw [h1] at h2
      exact absurd h2 (by simp)
    · have hl : l ∈ lights := by rw [hsplit]; simp
      refine ⟨pre, l, post, hsplit, hr, ?_, ?_, hpre⟩
      · unfold get_sky_colour
        simp only [hover, if_false, hfancy, if_true, heq, hpos l hl hr]
      · intro l' hl' hr'
        rw [hsplit] at hl'
        rcases List.mem_append.mp hl' with h | h
        · have := hpre l' h hr'
          cases hc : Flt.lt (lightness E (sky_blend E x y colour_behind l))
              (lightness E (sky_blend E x y colour_behind l')) with
          | false => rfl
          | true =>
              have h3 := flt_lt_trans _ _ _ hc this
              rw [flt_lt_irrefl] at h3
              exact absurd h3 (by simp)
        · rcases List.mem_cons.mp h with rfl | h
          · exact flt_lt_irrefl _
          · exact hpost l' h hr'
  · intro hnone
    constructor
    · unfold get_sky_colour
      have hge : Flt.ge (Flt.fin (-1)) (Flt.fin 0) = false := by
        simp [Flt.ge, Flt.lt, Flt.eq]
      simp only [hover, if_false, hfancy, if_true,
        sky_light_scan_none E x y colour_behind lights hnone, hge, Bool.false_eq_true]
    · unfold get_sky_colour
      simp only [hover, if_false, hplain]
      exact sky_marker_scan_none E x y lights hnone colour_behind

theorem brightest_light_wins_witness :
    ((∃ l ∈ [demoLightGrey, demoLight 0], in_reach demoEnv 0 0 l = true) →
      (∀ l ∈ [demoLightGrey, demoLight 0], in_reach demoEnv 0 0 l = true →
        Flt.ge (lightness demoEnv (sky_blend demoEnv 0 0 white l)) (Flt.fin 0) = true) →
      ∃ pre l post, [demoLightGrey, demoLight 0] = pre ++ l :: post
        ∧ in_reach demoEnv 0 0 l = true
        ∧ get_sky_colour demoEnv 0 0 0 demoMap (fun _ => 0) [demoLightGrey, demoLight 0] white
              ⟨1, 1, 1⟩
            = sky_blend demoEnv 0 0 white l
        ∧ (∀ l' ∈ [demoLightGrey, demoLight 0], in_reach demoEnv 0 0 l' = true →
            Flt.lt (lightness demoEnv (sky_blend demoEnv 0 0 white l))
              (lightness demoEnv (sky_blend demoEnv 0 0 white l')) = false)
        ∧ (∀ l' ∈ pre, in_reach demoEnv 0 0 l' = true →
            Flt.lt (lightness demoEnv (sky_blend demoEnv 0 0 white l'))
              (lightness demoEnv (sky_blend demoEnv 0 0 white l)) = true))
      ∧ ((∀ l ∈ [demoLightGrey, demoLight 0], in_reach demoEnv 0 0 l = false) →
          get_sky_colour demoEnv 0 0 0 demoMap (fun _ => 0) [demoLightGrey, demoLight 0] white
                ⟨1, 1, 1⟩
              = demoEnv.hsv_to_rgb white
            ∧ get_sky_colour demoEnv 0 0 0 demoMap (fun _ => 0) [demoLightGrey, demoLight 0]
                white demoSettings
              = white) :=
  brightest_light_wins demoEnv 0 0 0 demoMap (fun _ => 0) [demoLightGrey, demoLight 0] white
    ⟨1, 1, 1⟩ demoSettings (by decide) (by decide) (by decide)

/-- C23, as stated, fails where it equates the two paths when no light reaches
the pixel: the fancy path returns `hsv_to_rgb(colour_behind)`, the path with
fancy lighting disabled returns `*colour_behind`.  They differ for every
conversion that is not the identity on the colour behind; here the colour
`(0, 0, 1 / 2)`, read as HSV, is the grey `(1 / 2, 1 / 2, 1 / 2)`. -/
theorem sky_without_lights_differs_between_paths :
    get_sky_colour demoEnvGrey 0 0 0 demoMap (fun _ => 0) []
          ⟨Flt.fin 0, Flt.fin 0, Flt.fin (1 / 2)⟩ ⟨1, 1, 1⟩
        = grey
      ∧ get_sky_colour demoEnvGrey 0 0 0 demoMap (fun _ => 0) []
          ⟨Flt.fin 0, Flt.fin 0, Flt.fin (1 / 2)⟩ demoSettings
        = ⟨Flt.fin 0, Flt.fin 0, Flt.fin (1 / 2)⟩
      ∧ ¬ demoEnvGrey.world_gen_height - 0 < (fun _ => (0 : Int)) (0 + 0)
      ∧ grey ≠ (⟨Flt.fin 0, Flt.fin 0, Flt.fin (1 / 2)⟩ : Colour) := by
  decide!

/-! ## The cells a render pass visits -/

theorem mem_column_visits_range (a : RenderArgs) (wx : Int) (items : List Nat) :
    ∀ (wy0 : Int) (v : Visit), v ∈ column_visits a wx items wy0 →
      v.world_x = wx ∧ wy0 ≤ v.world_y ∧ a.top_edge ≤ v.world_y
        ∧ v.world_y < a.bottom_edge := by
  induction items with
  | nil => intro wy0 v hv; simp [column_visits] at hv
  | cons p rest ih =>
      intro wy0 v hv
      unfold column_visits at hv
      by_cases hr : wy0 ≥ a.top_edge ∧ wy0 < a.bottom_edge
      · rw [if_pos hr] at hv
        rcases List.mem_cons.mp hv with rfl | h
        · exact ⟨rfl, le_refl _, hr.1, hr.2⟩
        · obtain ⟨h1, h2, h3, h4⟩ := ih (wy0 + 1) v h
          exact ⟨h1, by omega, h3, h4⟩
      · rw [if_neg hr] at hv
        obtain ⟨h1, h2, h3, h4⟩ := ih (wy0 + 1) v hv
        exact ⟨h1, by omega, h3, h4⟩

theorem column_visits_nodup (a : RenderArgs) (wx : Int) (items : List Nat) :
    ∀ wy0 : Int, ((column_visits a wx items wy0).map (fun v => v.world_y)).Nodup := by
  induction items with
  | nil => intro wy0; simp [column_visits]
  | cons p rest ih =>
      intro wy0
      unfold column_visits
      by_cases hr : wy0 ≥ a.top_edge ∧ wy0 < a.bottom_edge
      · rw [if_pos hr, List.map_cons, List.nodup_cons]
        refine ⟨?_, ih (wy0 + 1)⟩
        intro hmem
        obtain ⟨v, hv, hvy⟩ := List.mem_map.mp hmem
        have := (mem_column_visits_range a wx rest (wy0 + 1) v hv).2.1
        simp only at hvy
        omega
      · rw [if_neg hr]
        exact ih (wy0 + 1)

theorem mem_map_visits_range (a : RenderArgs) (cols : List (Int × PyColumn)) :
    ∀ v ∈ map_visits a cols, v.world_x ∈ cols.map Prod.fst
      ∧ a.left_edge ≤ v.world_x ∧ v.world_x < a.right_edge
      ∧ a.top_edge ≤ v.world_y ∧ v.world_y < a.bottom_edge := by
  induction cols with
  | nil => intro v hv; simp [map_visits] at hv
  | cons kv rest ih =>
      intro v hv
      obtain ⟨wx, column⟩ := kv
      unfold map_visits at hv
      by_cases hr : wx ≥ a.left_edge ∧ wx < a.right_edge
      · simp only [hr, and_self, not_true_eq_false, if_false] at hv
        cases column with
        | notList =>
            obtain ⟨h0, h1⟩ := ih v hv
            exact ⟨List.mem_cons_of_mem _ h0, h1⟩
        | list items =>
            rcases List.mem_append.mp hv with h | h
            · obtain ⟨h1, _, h3, h4⟩ := mem_column_visits_range a wx items 0 v h
              refine ⟨by rw [h1]; exact List.mem_cons_self _ _, ?_, ?_, h3, h4⟩
              · rw [h1]; exact hr.1
              · rw [h1]; exact hr.2
            · obtain ⟨h0, h1⟩ := ih v h
              exact ⟨List.mem_cons_of_mem _ h0, h1⟩
      · simp only [hr, not_false_eq_true, if_true] at hv
        obtain ⟨h0, h1⟩ := ih v hv
        exact ⟨List.mem_cons_of_mem _ h0, h1⟩

theorem map_visits_pos_nodup (a : RenderArgs) (cols : List (Int × PyColumn))
    (hnodup : (cols.map Prod.fst).Nodup) :
    ((map_visits a cols).map (Visit.pos a)).Nodup := by
  induction cols with
  | nil => simp [map_visits]
  | cons kv rest ih =>
      obtain ⟨wx, column⟩ := kv
      have hnd := List.nodup_cons.mp hnodup
      unfold map_visits
      by_cases hr : wx ≥ a.left_edge ∧ wx < a.right_edge
      · simp only [hr, and_self, not_true_eq_false, if_false]
        cases column with
        | notList => exact ih hnd.2
        | list items =>
            show ((column_visits a wx items 0 ++ map_visits a rest).map (Visit.pos a)).Nodup
            rw [List.map_append]
            apply List.Nodup.append
            · apply List.Nodup.map_on _ (List.Nodup.of_map _ (column_visits_nodup a wx items 0))
              intro v hv v' hv' hpos
              apply List.inj_on_of_nodup_map (column_visits_nodup a wx items 0) hv hv'
              have := congrArg Prod.snd hpos
              simp only [Visit.pos] at this
              omega
            · exact ih hnd.2
            · intro p hp1 hp2
              obtain ⟨v, hv, rfl⟩ := List.mem_map.mp hp1
              obtain ⟨v', hv', hpos⟩ := List.mem_map.mp hp2
              have h1 := (mem_column_visits_range a wx items 0 v hv).1
              have h2 := (mem_map_visits_range a rest v' hv').1
              have := congrArg Prod.fst hpos
              simp only [Visit.pos] at this
              have hx : v'.world_x = wx := by omega
              rw [hx] at h2
              exact hnd.1 h2
      · simp only [hr, not_false_eq_true, if_true]
        exact ih hnd.2

theorem render_columns_prefix (E : Env) (a : RenderArgs) (host : Host)
    (cols : List (Int × PyColumn)) :
    ∀ st, ∃ vs, vs <+: map_visits a cols
      ∧ (render_columns E a host cols st = run_visits E a host vs st
          ∨ ((render_columns E a host cols st).1
                = Outcome.error RenderError.column_not_a_list
              ∧ run_visits E a host vs st
                = (Outcome.ok, (render_columns E a host cols st).2))) := by
  induction cols with
  | nil => intro st; exact ⟨[], List.prefix_refl _, Or.inl rfl⟩
  | cons kv rest ih =>
      intro st
      obtain ⟨wx, column⟩ := kv
      unfold render_columns map_visits
      by_cases hr : wx ≥ a.left_edge ∧ wx < a.right_edge
      · simp only [hr, and_self, not_true_eq_false, if_false]
        cases column with
        | notList => exact ⟨[], List.nil_prefix, Or.inr ⟨rfl, rfl⟩⟩
        | list items =>
            dsimp only
            rw [render_column_eq_run_visits]
            cases hcol : run_visits E a host (column_visits a wx items 0) st with
            | mk o s1 =>
                cases o with
                | ok =>
                    obtain ⟨vs, hpre, hrun⟩ := ih s1
                    refine ⟨column_visits a wx items 0 ++ vs,
                      (List.prefix_append_right_inj _).mpr hpre, ?_⟩
                    rw [run_visits_append E a host _ _ st s1 hcol]
                    exact hrun
                | error e =>
                    exact ⟨column_visits a wx items 0, List.prefix_append _ _,
                      Or.inl hcol.symm⟩
                | crash =>
                    exact ⟨column_visits a wx items 0, List.prefix_append _ _,
                      Or.inl hcol.symm⟩
      · simp only [hr, not_false_eq_true, if_true]
        exact ih st

/-! ## The output buffer during a render pass -/

theorem cursor_after_eq (E : Env) (st : State) (c : PrintableChar) (x y : Int)
    (settings : Settings) :
    cursor_after E st c x y settings
      = (st.frame.cur_pos + cell_len E settings ⟨x, y, c⟩) % 2 ^ 64 := by
  unfold cursor_after cell_len
  rw [Nat.mod_add_mod, Nat.add_assoc]

theorem render_visit_cases (E : Env) (a : RenderArgs) (host : Host) (v : Visit) (st : State) :
    ((render_visit E a host v st).2 = st
        ∧ (render_visit E a host v st).1 ≠ Outcome.error RenderError.terminal_out_failed)
      ∨ ∃ c lf cells,
          resolve_visit E a host st v = some c ∧ st.last_frame = some lf
            ∧ st.frame.buffer = some cells
            ∧ (render_visit E a host v st).2
                = emitted_state E st lf cells c (v.world_x - a.left_edge)
                    (v.world_y - a.top_edge) a.settings
            ∧ ((render_visit E a host v st).1 = Outcome.ok
                ∨ ((render_visit E a host v st).1
                      = Outcome.error RenderError.terminal_out_failed
                    ∧ (cursor_after E st c (v.world_x - a.left_edge) (v.world_y - a.top_edge)
                          a.settings ≥ st.frame.size
                      ∨ appended_len E st c (v.world_x - a.left_edge)
                          (v.world_y - a.top_edge) a.settings
                        ≥ E.COLOUR_CODE_MAX_LEN + POS_STR_FORMAT_MAX_LEN E))) := by
  unfold render_visit
  by_cases hp : v.pixel = 0
  · left; simp [hp]
  · simp only [hp, if_false]
    cases hc : resolve_visit E a host st v with
    | none => left; simp
    | some c =>
        dsimp only
        by_cases ht : a.settings.terminal_output > 0
        · simp only [ht, if_true]
          cases hto : terminal_out E st c (v.world_x - a.left_edge) (v.world_y - a.top_edge)
              a.settings with
          | none => left; simp
          | some r =>
              obtain ⟨ok, st'⟩ := r
              obtain ⟨lf, hlf, hcase⟩ := terminal_out_cases E st st' c _ _ a.settings ok hto
              rcases hcase with ⟨hemit, cells, hcells, hst'⟩ | ⟨_, hst', hok⟩
              · right
                refine ⟨c, lf, cells, rfl, hlf, hcells, ?_, ?_⟩
                · cases ok <;> exact hst'
                · rw [terminal_out_emit E st c _ _ a.settings lf cells hlf hcells hemit] at hto
                  simp only [Option.some.injEq, Prod.mk.injEq] at hto
                  cases ok with
                  | true => left; rfl
                  | false =>
                      right
                      refine ⟨rfl, ?_⟩
                      have h1 := hto.1
                      rw [decide_eq_false_iff_not, not_not] at h1
                      exact h1
              · left
                subst hok
                exact ⟨hst', by simp⟩
        · left; simp [ht]

theorem run_visits_emitted (E : Env) (a : RenderArgs) (host : Host) (vs : List Visit) :
    ∀ st : State, st.frame.cur_pos < 2 ^ 64 →
      ∃ em : List Emitted,
        (run_visits E a host vs st).2.frame.buffer
            = st.frame.buffer.map (fun cells0 => cells0 ++ em)
          ∧ (st.frame.buffer = none → em = [])
          ∧ List.Sublist (em.map (fun e => (e.x, e.y))) (vs.map (Visit.pos a))
          ∧ (run_visits E a host vs st).2.frame.size = st.frame.size
          ∧ (run_visits E a host vs st).2.width = st.width
          ∧ (run_visits E a host vs st).2.height = st.height
          ∧ (run_visits E a host vs st).2.frame.cur_pos
              = (st.frame.cur_pos + (em.map (cell_len E a.settings)).sum) % 2 ^ 64
          ∧ ((run_visits E a host vs st).1 = Outcome.error RenderError.terminal_out_failed →
              ∃ em' e, em = em' ++ [e]
                ∧ ((run_visits E a host vs st).2.frame.cur_pos ≥ st.frame.size
                  ∨ ((run_visits E a host vs st).2.frame.cur_pos + 2 ^ 64
                      - (st.frame.cur_pos + (em'.map (cell_len E a.settings)).sum) % 2 ^ 64)
                        % 2 ^ 64
                      ≥ E.COLOUR_CODE_MAX_LEN + POS_STR_FORMAT_MAX_LEN E)) := by
  induction vs with
  | nil =>
      intro st hcur
      refine ⟨[], ?_, fun _ => rfl, List.Sublist.refl _, rfl, rfl, rfl, ?_, ?_⟩
      · cases hb : st.frame.buffer <;> simp [run_visits, hb]
      · simp only [run_visits, List.map_nil, List.sum_nil, Nat.add_zero]
        exact (Nat.mod_eq_of_lt hcur).symm
      · intro h; simp [run_visits] at h
  | cons v rest ih =>
      intro st hcur
      have hrun : run_visits E a host (v :: rest) st
          = match render_visit E a host v st with
            | (Outcome.ok, st) => run_visits E a host rest st
            | r => r := rfl
      rcases render_visit_cases E a host v st with
        ⟨hst, hne⟩ | ⟨c, lf, cells, hres, hlf, hcells, hst, hout⟩
      · -- nothing is emitted for this cell
        cases hv : render_visit E a host v st with
        | mk o s1 =>
            rw [hv] at hst hne
            simp only at hst hne
            subst hst
            cases o with
            | ok =>
                obtain ⟨em, h1, h2, h3, h4, h5, h6, h7, h8⟩ := ih s1 hcur
                rw [hrun, hv]
                exact ⟨em, h1, h2, List.Sublist.cons _ h3, h4, h5, h6, h7, h8⟩
            | error e =>
                rw [hrun, hv]
                refine ⟨[], ?_, fun _ => rfl, List.nil_sublist _, rfl, rfl, rfl, ?_, ?_⟩
                · cases hb : s1.frame.buffer <;> simp [hb]
                · simp only [List.map_nil, List.sum_nil, Nat.add_zero]
                  exact (Nat.mod_eq_of_lt hcur).symm
                · intro h
                  simp only at h
                  exact absurd h hne
            | crash =>
                rw [hrun, hv]
                refine ⟨[], ?_, fun _ => rfl, List.nil_sublist _, rfl, rfl, rfl, ?_, ?_⟩
                · cases hb : s1.frame.buffer <;> simp [hb]
                · simp only [List.map_nil, List.sum_nil, Nat.add_zero]
                  exact (Nat.mod_eq_of_lt hcur).symm
                · intro h; simp at h
      · -- the cell is emitted
        have hcur1 : (emitted_state E st lf cells c (v.world_x - a.left_edge)
            (v.world_y - a.top_edge) a.settings).frame.cur_pos
            = (st.frame.cur_pos
                + cell_len E a.settings
                    ⟨v.world_x - a.left_edge, v.world_y - a.top_edge, c⟩) % 2 ^ 64 :=
          cursor_after_eq E st c _ _ a.settings
        cases hv : render_visit E a host v st with
        | mk o s1 =>
            rw [hv] at hst hout
            simp only at hst hout
            subst hst
            rcases hout with ho | ⟨ho, hfail⟩
            · subst ho
              obtain ⟨em, h1, h2, h3, h4, h5, h6, h7, h8⟩ :=
                ih (emitted_state E st lf cells c (v.world_x - a.left_edge)
                  (v.world_y - a.top_edge) a.settings)
                  (by rw [hcur1]; exact Nat.mod_lt _ (by norm_num))
              rw [hrun, hv]
              refine ⟨⟨v.world_x - a.left_edge, v.world_y - a.top_edge, c⟩ :: em, ?_, ?_, ?_,
                h4, h5, h6, ?_, ?_⟩
              · show _ = st.frame.buffer.map _
                rw [hcells]
                simp only [Option.map_some']
                rw [h1]
                show (some (cells ++ [_])).map _ = _
                simp
              · intro hn; rw [hcells] at hn; simp at hn
              · simp only [List.map_cons]
                exact List.Sublist.cons₂ _ h3
              · show (run_visits E a host rest _).2.frame.cur_pos = _
                rw [h7, hcur1]
                simp only [List.map_cons, List.sum_cons]
                rw [Nat.mod_add_mod, Nat.add_assoc]
              · intro hfailed
                obtain ⟨em', e, hem, hcond⟩ := h8 hfailed
                refine ⟨⟨v.world_x - a.left_edge, v.world_y - a.top_edge, c⟩ :: em', e,
                  by rw [hem]; rfl, ?_⟩
                rw [hcur1] at hcond
                simp only [List.map_cons, List.sum_cons]
                rw [Nat.mod_add_mod, Nat.add_assoc] at hcond
                exact hcond
            · subst ho
              rw [hrun, hv]
              refine ⟨[⟨v.world_x - a.left_edge, v.world_y - a.top_edge, c⟩], ?_, ?_, ?_, rfl,
                rfl, rfl, ?_, ?_⟩
              · show _ = st.frame.buffer.map _
                rw [hcells]
                rfl
              · intro hn; rw [hcells] at hn; simp at hn
              · simp only [List.map_cons, List.map_nil]
                exact List.Sublist.cons₂ _ (List.nil_sublist _)
              · show (emitted_state E st lf cells c _ _ a.settings).frame.cur_pos = _
                rw [hcur1]
                simp
              · intro _
                refine ⟨[], _, rfl, ?_⟩
                simp only [List.map_nil, List.sum_nil, Nat.add_zero, Nat.mod_eq_of_lt hcur]
                exact hfail

theorem setup_frame_sizeKept (E : Env) (st : State) (host : Host) (w h : Int)
    (hinv : SizeKept E st) :
    SizeKept E (setup_frame E st host w h).2
      ∧ (setup_frame E st host w h).2.width = w
      ∧ (setup_frame E st host w h).2.height = h := by
  unfold SizeKept cell_max at hinv ⊢
  unfold setup_frame
  by_cases hw : w = st.width <;> by_cases hh : h = st.height
  · subst hw hh
    simp [hinv]
  · subst hw
    cases hf : host.realloc_frame_buffer <;> cases hl : host.realloc_last_frame <;>
      cases hs : host.realloc_screen <;> simp [hh]
  · subst hh
    cases hf : host.realloc_frame_buffer <;> cases hl : host.realloc_last_frame <;>
      cases hs : host.realloc_screen <;> simp [hw]
  · cases hf : host.realloc_frame_buffer <;> cases hl : host.realloc_last_frame <;>
      cases hs : host.realloc_screen <;> simp [hw, hh]

theorem render_map_run (E : Env) (st : State) (a : RenderArgs) (host : Host)
    (cols : List (Int × PyColumn)) (hmap : a.map = PyMap.dict cols) :
    ((render_map E st a host).1 = Outcome.error RenderError.setup_frame_failed
        ∧ (setup_frame E { st with redraw_all := a.redraw_all } host
            (a.right_edge - a.left_edge) (a.bottom_edge - a.top_edge)).1 = false)
      ∨ ∃ st1,
          setup_frame E { st with redraw_all := a.redraw_all } host
              (a.right_edge - a.left_edge) (a.bottom_edge - a.top_edge) = (true, st1)
          ∧ ((render_map E st a host = (Outcome.crash, st1)
                ∧ create_lighting_buffer E st1.width st1.height st1.lighting_buffer a.lights
                    a.map a.slice_heights a.day a.sky_colour a.left_edge a.top_edge = none)
            ∨ ∃ lb vs,
                create_lighting_buffer E st1.width st1.height st1.lighting_buffer a.lights
                    a.map a.slice_heights a.day a.sky_colour a.left_edge a.top_edge = some lb
                ∧ vs <+: map_visits a cols
                ∧ (render_map E st a host).2
                    = (run_visits E a host vs { st1 with lighting_buffer := lb }).2
                ∧ ((render_map E st a host).1
                      = Outcome.error RenderError.terminal_out_failed →
                    (run_visits E a host vs { st1 with lighting_buffer := lb }).1
                      = Outcome.error RenderError.terminal_out_failed)) := by
  unfold render_map
  dsimp only
  cases hsf : setup_frame E { st with redraw_all := a.redraw_all } host
      (a.right_edge - a.left_edge) (a.bottom_edge - a.top_edge) with
  | mk b st1 =>
      cases b with
      | false => left; exact ⟨rfl, rfl⟩
      | true =>
          right
          refine ⟨st1, rfl, ?_⟩
          dsimp only
          cases hlb : create_lighting_buffer E st1.width st1.height st1.lighting_buffer
              a.lights a.map a.slice_heights a.day a.sky_colour a.left_edge a.top_edge with
          | none =>
              left
              rw [hmap] at hlb ⊢
              dsimp only
              exact ⟨rfl, rfl⟩
          | some lb =>
              right
              obtain ⟨vs, hpre, hrun⟩ :=
                render_columns_prefix E a host cols { st1 with lighting_buffer := lb }
              refine ⟨lb, vs, rfl, hpre, ?_⟩
              rw [hmap] at hlb ⊢
              dsimp only
              cases hrc : render_columns E a host cols { st1 with lighting_buffer := lb } with
              | mk o s2 =>
                  rw [hrc] at hrun
                  cases o with
                  | ok =>
                      rcases hrun with hrun | ⟨hcl, _⟩
                      · rw [← hrun]
                        dsimp only
                        by_cases ht : a.settings.terminal_output > 0
                        · simp only [ht, if_true]
                          cases hb : s2.frame.buffer with
                          | none => simp
                          | some cells =>
                              dsimp only
                              split_ifs <;> simp
                        · simp [ht]
                      · simp at hcl
                  | error e =>
                      rcases hrun with hrun | ⟨hcl, hrun⟩
                      · rw [← hrun]
                        exact ⟨rfl, fun h => h⟩
                      · rw [hrun]
                        simp only at hcl ⊢
                        cases hcl
                        exact ⟨trivial, fun h => by simp at h⟩
                  | crash =>
                      rcases hrun with hrun | ⟨hcl, _⟩
                      · rw [← hrun]
                        exact ⟨rfl, fun h => h⟩
                      · simp at hcl

theorem sublist_positions_length (w h : Int) (P V : List (Int × Int)) (hsub : P.Sublist V)
    (hnd : V.Nodup) (hrange : ∀ p ∈ V, 0 ≤ p.1 ∧ p.1 < w ∧ 0 ≤ p.2 ∧ p.2 < h) :
    P.length ≤ w.toNat * h.toNat := by
  have hP : P.Nodup := hsub.nodup hnd
  have hsubset : P.toFinset ⊆ Finset.Ico 0 w ×ˢ Finset.Ico 0 h := by
    intro p hp
    have := hrange p (hsub.subset (List.mem_toFinset.mp hp))
    simp only [Finset.mem_product, Finset.mem_Ico]
    exact ⟨⟨this.1, this.2.1⟩, this.2.2.1, this.2.2.2⟩
  have hcard := Finset.card_le_card hsubset
  rw [List.toFinset_card_of_nodup hP, Finset.card_product, Int.card_Ico, Int.card_Ico] at hcard
  simpa using hcard

theorem sum_le_length_mul (l : List Nat) (n : Nat) (h : ∀ x ∈ l, x ≤ n) :
    l.sum ≤ l.length * n := by
  induction l with
  | nil => simp
  | cons x xs ih =>
      simp only [List.sum_cons, List.length_cons]
      have h1 := h x (List.mem_cons_self _ _)
      have h2 := ih (fun y hy => h y (List.mem_cons_of_mem _ hy))
      calc x + xs.sum ≤ n + xs.length * n := Nat.add_le_add h1 h2
        _ = (xs.length + 1) * n := by ring

/-- C24. Output buffer capacity suffices: in every render over a viewport of
positive width and height that gets past `setup_frame`, if every cell the pass
leaves in the output buffer has an encoded length (position sequence plus
colour sequence) below the per-cell maximum
`POS_STR_FORMAT_MAX_LEN + COLOUR_CODE_MAX_LEN`, then the pass does not end in
the failure of `terminal_out`, no viewport position is emitted twice, and the
write cursor at the end of the pass is strictly below the buffer size
`width * height * (POS_STR_FORMAT_MAX_LEN + COLOUR_CODE_MAX_LEN)`, so that the
terminating character lies inside the buffer.  (The map is a dict, so its keys
are distinct; the buffer size fits a `size_t`; the stored size is the one
`setup_frame` computed for the stored width and height, which the pass keeps.) -/
theorem output_buffer_capacity_suffices (E : Env) (st : State) (a : RenderArgs) (host : Host)
    (cols : List (Int × PyColumn)) (hmap : a.map = PyMap.dict cols)
    (hnodup : (cols.map Prod.fst).Nodup)
    (hw : 0 < a.right_edge - a.left_edge) (hh : 0 < a.bottom_edge - a.top_edge)
    (hwchar : 0 < E.sizeof_wchar_t)
    (hcap : (a.right_edge - a.left_edge) * (a.bottom_edge - a.top_edge) * (cell_max E : Int)
      < 2 ^ 64)
    (hinv : SizeKept E st)
    (hsetup : (render_map E st a host).1 ≠ Outcome.error RenderError.setup_frame_failed)
    (hlen : ∀ cells, (render_map E st a host).2.frame.buffer = some cells →
      ∀ e ∈ cells, cell_len E a.settings e < cell_max E) :
    (render_map E st a host).1 ≠ Outcome.error RenderError.terminal_out_failed
      ∧ (render_map E st a host).2.frame.size
          = (a.right_edge - a.left_edge).toNat * (a.bottom_edge - a.top_edge).toNat
              * cell_max E
      ∧ (render_map E st a host).2.frame.cur_pos < (render_map E st a host).2.frame.size
      ∧ (∀ cells, (render_map E st a host).2.frame.buffer = some cells →
          (cells.map (fun e => (e.x, e.y))).Nodup)
      ∧ SizeKept E (render_map E st a host).2 := by
  have hmax : 0 < cell_max E := by
    unfold cell_max POS_STR_FORMAT_MAX_LEN
    omega
  have hWn : ((a.right_edge - a.left_edge).toNat : Int) = a.right_edge - a.left_edge :=
    Int.toNat_of_nonneg (le_of_lt hw)
  have hHn : ((a.bottom_edge - a.top_edge).toNat : Int) = a.bottom_edge - a.top_edge :=
    Int.toNat_of_nonneg (le_of_lt hh)
  have hprod : (a.right_edge - a.left_edge) * (a.bottom_edge - a.top_edge) * (cell_max E : Int)
      = (((a.right_edge - a.left_edge).toNat * (a.bottom_edge - a.top_edge).toNat
          * cell_max E : Nat) : Int) := by
    push_cast
    rw [hWn, hHn]
  have hcapN : (a.right_edge - a.left_edge).toNat * (a.bottom_edge - a.top_edge).toNat
      * cell_max E < 2 ^ 64 := by
    rw [hprod] at hcap
    exact_mod_cast hcap
  have hW1 : 1 ≤ (a.right_edge - a.left_edge).toNat := by omega
  have hH1 : 1 ≤ (a.bottom_edge - a.top_edge).toNat := by omega
  have hN1 : 1 ≤ (a.right_edge - a.left_edge).toNat * (a.bottom_edge - a.top_edge).toNat :=
    Nat.mul_pos hW1 hH1
  rcases render_map_run E st a host cols hmap with ⟨hfail, -⟩ | ⟨st1, hsf, hcase⟩
  · exact absurd hfail hsetup
  obtain ⟨hw1, hh1, hcur, -, hbuf, -, -⟩ := setup_frame_ok E _ st1 host _ _ hsf
  have hkept := setup_frame_sizeKept E { st with redraw_all := a.redraw_all } host
    (a.right_edge - a.left_edge) (a.bottom_edge - a.top_edge) hinv
  rw [hsf] at hkept
  have hkept1 : SizeKept E st1 := hkept.1
  have hsize1 : st1.frame.size
      = (a.right_edge - a.left_edge).toNat * (a.bottom_edge - a.top_edge).toNat
          * cell_max E := by
    have h := hkept1
    unfold SizeKept at h
    rw [h, hw1, hh1, hprod, Int.emod_eq_of_lt (by positivity) (by exact_mod_cast hcapN),
      Int.toNat_natCast]
  have hpos1 : 0 < (a.right_edge - a.left_edge).toNat * (a.bottom_edge - a.top_edge).toNat
      * cell_max E := Nat.mul_pos hN1 hmax
  rcases hcase with ⟨hrm, -⟩ | ⟨lb, vs, -, hpre, hfin, htof⟩
  · rw [hrm]
    refine ⟨by simp, hsize1, ?_, ?_, hkept1⟩
    · show st1.frame.cur_pos < st1.frame.size
      rw [hcur, hsize1]; exact hpos1
    · intro cells hc
      rcases hbuf with hn | hs
      · rw [hn] at hc; simp at hc
      · rw [hs] at hc
        cases hc
        simp
  · obtain ⟨em, h1, h2, h3, h4, h5, h6, h7, h8⟩ :=
      run_visits_emitted E a host vs { st1 with lighting_buffer := lb }
        (by show st1.frame.cur_pos < 2 ^ 64; rw [hcur]; norm_num)
    have h4' : (run_visits E a host vs { st1 with lighting_buffer := lb }).2.frame.size
        = st1.frame.size := h4
    have h7' : (run_visits E a host vs { st1 with lighting_buffer := lb }).2.frame.cur_pos
        = ((em.map (cell_len E a.settings)).sum) % 2 ^ 64 := by
      rw [h7]
      show (st1.frame.cur_pos + _) % 2 ^ 64 = _
      rw [hcur, Nat.zero_add]
    have hbuf' : (run_visits E a host vs { st1 with lighting_buffer := lb }).2.frame.buffer
        = st1.frame.buffer.map (fun cells0 => cells0 ++ em) := h1
    have hem_len : ∀ e ∈ em, cell_len E a.settings e < cell_max E := by
      rcases hbuf with hn | hs
      · rw [h2 hn]; simp
      · apply hlen em
        rw [hfin, hbuf', hs]
        simp
    have hsub : (em.map (fun e => (e.x, e.y))).Sublist ((map_visits a cols).map (Visit.pos a)) :=
      h3.trans (hpre.sublist.map _)
    have hn := sublist_positions_length (a.right_edge - a.left_edge)
      (a.bottom_edge - a.top_edge) _ _ hsub (map_visits_pos_nodup a cols hnodup)
      (by
        intro p hp
        obtain ⟨v, hv, rfl⟩ := List.mem_map.mp hp
        obtain ⟨-, hx1, hx2, hy1, hy2⟩ := mem_map_visits_range a cols v hv
        simp only [Visit.pos]
        omega)
    rw [List.length_map] at hn
    have hsum := sum_le_length_mul (em.map (cell_len E a.settings)) (cell_max E - 1)
      (by
        intro x hx
        obtain ⟨e, he, rfl⟩ := List.mem_map.mp hx
        have := hem_len e he
        omega)
    rw [List.length_map] at hsum
    have hlt : (em.map (cell_len E a.settings)).sum
        < (a.right_edge - a.left_edge).toNat * (a.bottom_edge - a.top_edge).toNat
            * cell_max E := by
      have e1 : em.length * (cell_max E - 1)
          ≤ (a.right_edge - a.left_edge).toNat * (a.bottom_edge - a.top_edge).toNat
              * (cell_max E - 1) := Nat.mul_le_mul_right _ hn
      have e2 : (a.right_edge - a.left_edge).toNat * (a.bottom_edge - a.top_edge).toNat
            * (cell_max E - 1)
          < (a.right_edge - a.left_edge).toNat * (a.bottom_edge - a.top_edge).toNat
              * cell_max E :=
        Nat.mul_lt_mul_of_pos_left (by omega) hN1
      omega
    have hcurf : (run_visits E a host vs { st1 with lighting_buffer := lb }).2.frame.cur_pos
        = (em.map (cell_len E a.settings)).sum := by
      rw [h7', Nat.mod_eq_of_lt (by omega)]
    rw [hfin]
    refine ⟨?_, by rw [h4', hsize1], by rw [hcurf, h4', hsize1]; exact hlt, ?_, ?_⟩
    · intro hto
      obtain ⟨em', e, hem, hcond⟩ := h8 (htof hto)
      have he : cell_len E a.settings e < cell_max E :=
        hem_len e (by rw [hem]; simp)
      have hs : (em.map (cell_len E a.settings)).sum
          = (em'.map (cell_len E a.settings)).sum + cell_len E a.settings e := by
        rw [hem]; simp
      have hcond' : (run_visits E a host vs { st1 with lighting_buffer := lb }).2.frame.cur_pos
            ≥ st1.frame.size
          ∨ ((run_visits E a host vs { st1 with lighting_buffer := lb }).2.frame.cur_pos
                + 2 ^ 64 - (st1.frame.cur_pos + (em'.map (cell_len E a.settings)).sum) % 2 ^ 64)
              % 2 ^ 64 ≥ E.COLOUR_CODE_MAX_LEN + POS_STR_FORMAT_MAX_LEN E := hcond
      rw [hcurf, hcur, hsize1] at hcond'
      have hmaxeq : cell_max E = POS_STR_FORMAT_MAX_LEN E + E.COLOUR_CODE_MAX_LEN := rfl
      rcases hcond' with hc | hc
      · exact absurd hlt (Nat.not_lt.mpr hc)
      · rw [hs, Nat.zero_add] at hc
        rw [hs] at hlt
        generalize (em'.map (cell_len E a.settings)).sum = q at hc hlt
        generalize cell_len E a.settings e = p at hc hlt he
        generalize (a.right_edge - a.left_edge).toNat * (a.bottom_edge - a.top_edge).toNat
          * cell_max E = X at hlt hcapN
        omega
    · intro cells hc
      rw [hbuf'] at hc
      rcases hbuf with hnb | hs
      · rw [hnb] at hc; simp at hc
      · rw [hs] at hc
        simp only [Option.map_some', List.nil_append, Option.some.injEq] at hc
        rw [← hc]
        exact hsub.nodup (map_visits_pos_nodup a cols hnodup)
    · unfold SizeKept at hkept1 ⊢
      rw [h4', h5, h6]
      exact hkept1

theorem output_buffer_capacity_suffices_witness :
    (render_map demoEnv State.initial (demoArgs 1 0 true) demoHost).1
        ≠ Outcome.error RenderError.terminal_out_failed
      ∧ (render_map demoEnv State.initial (demoArgs 1 0 true) demoHost).2.frame.size
          = ((demoArgs 1 0 true).right_edge - (demoArgs 1 0 true).left_edge).toNat
              * ((demoArgs 1 0 true).bottom_edge - (demoArgs 1 0 true).top_edge).toNat
              * cell_max demoEnv
      ∧ (render_map demoEnv State.initial (demoArgs 1 0 true) demoHost).2.frame.cur_pos
          < (render_map demoEnv State.initial (demoArgs 1 0 true) demoHost).2.frame.size
      ∧ (∀ cells,
          (render_map demoEnv State.initial (demoArgs 1 0 true) demoHost).2.frame.buffer
            = some cells →
          (cells.map (fun e => (e.x, e.y))).Nodup)
      ∧ SizeKept demoEnv (render_map demoEnv State.initial (demoArgs 1 0 true) demoHost).2 :=
  output_buffer_capacity_suffices demoEnv State.initial (demoArgs 1 0 true) demoHost
    [(0, PyColumn.list [35])] rfl (by decide) (by decide) (by decide) (by decide)
    (by decide!) (by unfold SizeKept; decide!) (by decide!)
    (by
      intro cells hc e he
      have hb : (render_map demoEnv State.initial (demoArgs 1 0 true) demoHost).2.frame.buffer
          = some [⟨0, 0, demoCell⟩] := by decide!
      rw [hb] at hc
      cases hc
      rw [List.mem_singleton] at he
      subst he
      decide!)

/-! ## Offsets into the lighting buffer and the last-frame cache -/

theorem pow2_eq (k : Int) : pow2 k = (2 : ℚ) ^ k := by
  unfold pow2
  by_cases h : 0 ≤ k
  · rw [if_pos h]
    lift k to ℕ using h
    simp
  · rw [if_neg h]
    have hk : k = -(((-k).toNat : ℕ) : ℤ) := by
      rw [Int.toNat_of_nonneg (by omega)]; ring
    generalize (-k).toNat = m at hk
    subst hk
    simp [zpow_neg]

theorem bit_length_zero (fuel : Nat) : bit_length fuel 0 = 0 := by
  cases fuel <;> simp [bit_length]

theorem bit_length_le (fuel : Nat) : ∀ n, n ≠ 0 → 2 ^ bit_length fuel n ≤ 2 * n := by
  induction fuel with
  | zero =>
      intro n hn
      simp only [bit_length, pow_zero]
      omega
  | succ f ih =>
      intro n hn
      simp only [bit_length, hn, if_false]
      by_cases h2 : n / 2 = 0
      · rw [h2, bit_length_zero]
        simp
        omega
      · have h := ih (n / 2) h2
        rw [pow_succ]
        omega

theorem bit_length_pos (n : Nat) (hn : n ≠ 0) : 0 < bit_length n n := by
  cases n with
  | zero => exact absurd rfl hn
  | succ m => simp [bit_length]

theorem floor_log2_int (i : Int) (h0 : i ≠ 0) :
    ∃ e : Nat, floor_log2 (i : ℚ) = (e : Int) ∧ 2 ^ e ≤ i.natAbs := by
  have hn : i.natAbs ≠ 0 := by
    intro h
    exact h0 (Int.natAbs_eq_zero.mp h)
  have hb := bit_length_le i.natAbs i.natAbs hn
  have hpos := bit_length_pos i.natAbs hn
  obtain ⟨e, he⟩ : ∃ e, bit_length i.natAbs i.natAbs = e + 1 := ⟨_, (Nat.succ_pred_eq_of_pos hpos).symm⟩
  rw [he, pow_succ] at hb
  have hle : 2 ^ e ≤ i.natAbs := by omega
  refine ⟨e, ?_, hle⟩
  unfold floor_log2
  simp only [Rat.num_intCast, Rat.den_intCast]
  have h1 : bit_length 1 1 = 1 := by decide
  rw [h1, he]
  have he0 : ((e + 1 : Nat) : Int) - ((1 : Nat) : Int) = (e : Int) := by push_cast; ring
  rw [he0]
  rw [if_pos]
  rw [pow2_eq, zpow_natCast]
  have habs : |(i : ℚ)| = ((i.natAbs : Nat) : ℚ) := by
    rw [Nat.cast_natAbs, Int.cast_abs]
  rw [habs]
  exact_mod_cast hle

theorem round_half_even_int (z : Int) : round_half_even (z : ℚ) = z := by
  unfold round_half_even
  rw [Int.floor_intCast]
  simp

theorem round_binary_int (p : Nat) (emin emax : Int) (hp : 0 < p) (hemin : emin ≤ 0)
    (hemax : (p : Int) ≤ emax) (i : Int) (hlo : -(2 ^ p) ≤ i) (hhi : i ≤ 2 ^ p) :
    round_binary p emin emax (i : ℚ) = Flt.fin (i : ℚ) := by
  by_cases h0 : i = 0
  · subst h0; simp [round_binary]
  · have hq0 : (i : ℚ) ≠ 0 := by exact_mod_cast h0
    obtain ⟨e, he, hle⟩ := floor_log2_int i h0
    have hnp : i.natAbs ≤ 2 ^ p := by
      have : ((i.natAbs : Nat) : Int) ≤ 2 ^ p := by
        rw [Int.natCast_natAbs]; exact abs_le.mpr ⟨hlo, hhi⟩
      exact_mod_cast this
    have hep : e ≤ p := by
      by_contra hlt
      have h1 : 2 ^ (p + 1) ≤ 2 ^ e := Nat.pow_le_pow_right (by norm_num) (by omega)
      rw [pow_succ] at h1
      have h2 : 0 < 2 ^ p := Nat.pow_pos (by norm_num)
      omega
    have hmax : max (floor_log2 (i : ℚ)) emin = (e : Int) := by
      rw [he]; exact max_eq_left (by omega)
    have hulp : ∃ z : Int,
        (i : ℚ) / pow2 (max (floor_log2 (i : ℚ)) emin - ((p : Int) - 1)) = (z : ℚ)
          ∧ (z : ℚ) * pow2 (max (floor_log2 (i : ℚ)) emin - ((p : Int) - 1)) = (i : ℚ) := by
      rw [hmax, pow2_eq]
      rcases Nat.lt_or_ge e p with hlt | hge
      · obtain ⟨m, hm⟩ : ∃ m : Nat, p = e + 1 + m := ⟨p - (e + 1), by omega⟩
        have hk : (e : Int) - ((p : Int) - 1) = -(m : Int) := by rw [hm]; push_cast; ring
        rw [hk, zpow_neg, zpow_natCast]
        have h2 : ((2 : ℚ) ^ m) ≠ 0 := pow_ne_zero _ (by norm_num)
        refine ⟨i * 2 ^ m, ?_, ?_⟩
        · push_cast; field_simp
        · push_cast; field_simp
      · have hpe : e = p := le_antisymm hep hge
        subst hpe
        have hn : i.natAbs = 2 ^ e := le_antisymm hnp hle
        obtain ⟨m, hm⟩ : ∃ m : Nat, e = m + 1 := ⟨e - 1, by omega⟩
        have hk : (e : Int) - ((e : Int) - 1) = 1 := by ring
        rw [hk, zpow_one]
        have hdvd : ∃ z : Int, i = z * 2 := by
          rcases Int.natAbs_eq i with hi | hi
          · refine ⟨2 ^ m, ?_⟩
            rw [hi, hn, hm, pow_succ]; push_cast; ring
          · refine ⟨-(2 ^ m), ?_⟩
            rw [hi, hn, hm, pow_succ]; push_cast; ring
        obtain ⟨z, hz⟩ := hdvd
        refine ⟨z, ?_, ?_⟩
        · rw [hz]; push_cast; field_simp
        · rw [hz]; push_cast; ring
    obtain ⟨z, hz1, hz2⟩ := hulp
    unfold round_binary
    rw [if_neg hq0]
    dsimp only
    rw [hz1, round_half_even_int, hz2]
    rw [if_neg]
    rw [pow2_eq, not_le]
    have habs : |(i : ℚ)| = ((i.natAbs : Nat) : ℚ) := by
      rw [Nat.cast_natAbs, Int.cast_abs]
    rw [habs]
    have h3 : ((i.natAbs : Nat) : ℚ) ≤ (2 : ℚ) ^ p := by exact_mod_cast hnp
    have h4 : (2 : ℚ) ^ p < (2 : ℚ) ^ (emax + 1) := by
      rw [← zpow_natCast]
      exact zpow_lt_zpow_right₀ (by norm_num) (by omega)
    exact lt_of_le_of_lt h3 h4

theorem round_float_exact : ExactOnInt24 round_float := by
  intro i hi
  exact round_binary_int 24 (-126) 127 (by decide) (by decide) (by decide) i hi.1 hi.2

theorem round_double_exact : ExactOnInt24 round_double := by
  intro i hi
  have h1 : (2 : Int) ^ 24 ≤ 2 ^ 53 := by decide
  exact round_binary_int 53 (-1022) 1023 (by decide) (by decide) (by decide) i
    (by have := hi.1; omega) (by have := hi.2; omega)

/-! ## Visibility tier check on exact rows -/

theorem ground_height_buffer_exact (E : Env) (slice_heights : Int → Int)
    (world_x top_edge : Int) (h32 : ExactOnInt24 E.rnd32) (h64 : ExactOnInt24 E.rnd64)
    (hwgh : Fits24 E.world_gen_height) (hsh : Fits24 (slice_heights world_x))
    (hd : Fits24 (E.world_gen_height - slice_heights world_x)) (htop : Fits24 top_edge)
    (hg : Fits24 (E.world_gen_height - slice_heights world_x - top_edge)) :
    ground_height_buffer E slice_heights world_x top_edge
      = Flt.fin ((E.world_gen_height - slice_heights world_x - top_edge : Int) : ℚ) := by
  unfold ground_height_buffer Flt.ofInt
  dsimp only
  rw [h64 _ hsh, h32 _ hwgh, h32 _ htop]
  simp only [Flt.conv, Flt.sub]
  rw [h32 _ hsh]
  dsimp only
  rw [← Int.cast_sub, h32 _ hd]
  dsimp only
  rw [← Int.cast_sub, h32 _ hg]

/-- C14 (as amended). Visibility tier check, for a `float` arithmetic that is
exact on the rows involved: when `world_gen_height`, the ground height at
column `left_edge + light.x`, `top_edge`, the differences the code forms from
them and the light's buffer row `light.y - top_edge` are integers of magnitude
at most `2 ^ 24`, `check_light_z` returns true if and only if `z = 0`, or
`z = -1` and the light's buffer row is strictly less than the buffer row
`world_gen_height - height - top_edge` of the ground surface and the probe of
`source_width` columns from `light.x` rightwards and `source_height` rows from
`light.y` upwards (`1` for an entry that is absent) contains at least one cell
that is absent or non-solid.  It returns false for `z = -2` and for every
other `z`. -/
theorem check_light_z_rows (E : Env) (py_light : PyLight) (light : Light)
    (left_edge top_edge : Int) (map : PyMap) (slice_heights : Int → Int)
    (h32 : ExactOnInt24 E.rnd32) (h64 : ExactOnInt24 E.rnd64)
    (hwgh : Fits24 E.world_gen_height)
    (hsh : Fits24 (slice_heights (left_edge + light.x)))
    (hd : Fits24 (E.world_gen_height - slice_heights (left_edge + light.x)))
    (htop : Fits24 top_edge)
    (hg : Fits24 (E.world_gen_height - slice_heights (left_edge + light.x) - top_edge))
    (hly : Fits24 (light.y - top_edge)) :
    (check_light_z E py_light light left_edge top_edge map slice_heights = true
      ↔ (light.z = 0
        ∨ (light.z = -1
          ∧ light.y - top_edge
              < E.world_gen_height - slice_heights (left_edge + light.x) - top_edge
          ∧ ∃ x y, light.x ≤ x ∧ x < light.x + py_light.source_width.getD 1
              ∧ light.y - py_light.source_height.getD 1 < y ∧ y ≤ light.y
              ∧ (get_block (left_edge + x) y map = 0
                ∨ (E.get_block_data (get_block (left_edge + x) y map)).solid = false))))
    ∧ (light.z = -2 →
        check_light_z E py_light light left_edge top_edge map slice_heights = false)
    ∧ (light.z ≠ 0 → light.z ≠ -1 →
        check_light_z E py_light light left_edge top_edge map slice_heights = false) := by
  obtain ⟨hiff, h2, h3⟩ :=
    check_light_z_float_iff E py_light light left_edge top_edge map slice_heights
  refine ⟨?_, h2, h3⟩
  have hw : probe_width py_light = py_light.source_width.getD 1 := by
    unfold probe_width get_long_from_PyDict_or
    cases py_light.source_width <;> rfl
  have hh : probe_height py_light = py_light.source_height.getD 1 := by
    unfold probe_height get_long_from_PyDict_or
    cases py_light.source_height <;> rfl
  have hrow : Flt.lt (Flt.ofInt E.rnd32 (light.y - top_edge))
      (ground_height_buffer E slice_heights (left_edge + light.x) top_edge) = true
      ↔ light.y - top_edge
          < E.world_gen_height - slice_heights (left_edge + light.x) - top_edge := by
    rw [ground_height_buffer_exact E slice_heights _ top_edge h32 h64 hwgh hsh hd htop hg]
    unfold Flt.ofInt
    rw [h32 _ hly]
    simp only [Flt.lt, decide_eq_true_eq]
    exact Int.cast_lt
  rw [hiff, hrow, hw, hh]

theorem check_light_z_rows_witness :
    (check_light_z floatEnv demoLightAbove (Light.ofPy floatEnv demoLightAbove) 0 0 demoMap
        (fun _ => 0) = true
      ↔ ((Light.ofPy floatEnv demoLightAbove).z = 0
        ∨ ((Light.ofPy floatEnv demoLightAbove).z = -1
          ∧ (Light.ofPy floatEnv demoLightAbove).y - 0
              < floatEnv.world_gen_height
                - (fun _ => 0) (0 + (Light.ofPy floatEnv demoLightAbove).x) - 0
          ∧ ∃ x y, (Light.ofPy floatEnv demoLightAbove).x ≤ x
              ∧ x < (Light.ofPy floatEnv demoLightAbove).x + demoLightAbove.source_width.getD 1
              ∧ (Light.ofPy floatEnv demoLightAbove).y - demoLightAbove.source_height.getD 1 < y
              ∧ y ≤ (Light.ofPy floatEnv demoLightAbove).y
              ∧ (get_block (0 + x) y demoMap = 0
                ∨ (floatEnv.get_block_data (get_block (0 + x) y demoMap)).solid = false))))
      ∧ check_light_z floatEnv demoLightAbove (Light.ofPy floatEnv demoLightAbove) 0 0 demoMap
        (fun _ => 0) = true :=
  ⟨(check_light_z_rows floatEnv demoLightAbove (Light.ofPy floatEnv demoLightAbove) 0 0
    demoMap (fun _ => 0) round_float_exact round_double_exact ⟨by decide, by decide⟩
    ⟨by decide, by decide⟩ ⟨by decide, by decide⟩ ⟨by decide, by decide⟩
    ⟨by decide, by decide⟩ ⟨by decide, by decide⟩).1, by decide!⟩

/-- C14, as stated, fails where `float` cannot hold the rows: with the viewport
top at row `-16777017`, a tier `-1` light at `(0, 199)` has the buffer row
`16777216` and the ground surface of its column (ground height `0`, world row
`200`) the buffer row `16777217`, so the light's row is strictly less; the cell
at the light is absent, so the 1 x 1 probe is not solid; and `check_light_z`
returns false, because the surface row is rounded to `16777216` in `float`. -/
theorem check_light_z_rounds_rows :
    demoLightAbove.z = -1
      ∧ demoLightAbove.y - (-16777017) = 16777216
      ∧ floatEnv.world_gen_height - 0 - (-16777017) = 16777217
      ∧ get_block (0 + demoLightAbove.x) demoLightAbove.y demoMap = 0
      ∧ check_light_z floatEnv demoLightAbove (Light.ofPy floatEnv demoLightAbove) 0
          (-16777017) demoMap (fun _ => 0) = false := by
  decide!

/-! ## Diff minimality and the unset components of a cell -/

/-- With fancy lights off, two renders in a row with the same arguments,
terminal output enabled and `force_redraw` false: when both calls succeed, the
stack holds the same values at every visited cell in both calls and every cell
the first call resolves compares equal to itself under `printable_char_eq`,
the second call appends nothing to the output buffer. -/
theorem render_twice_plain (E : Env) (st st1 st2 : State) (a : RenderArgs)
    (host1 host2 : Host) (cols : List (Int × PyColumn)) (hmap : a.map = PyMap.dict cols)
    (hnodup : (cols.map Prod.fst).Nodup)
    (hsize : (a.right_edge - a.left_edge) * (a.bottom_edge - a.top_edge) ≤ 2 ^ 64)
    (hforce : a.redraw_all = false) (hto : a.settings.terminal_output > 0)
    (hfancy : ¬ a.settings.fancy_lights > 0)
    (hok1 : render_map E st a host1 = (Outcome.ok, st1))
    (hok2 : render_map E st1 a host2 = (Outcome.ok, st2))
    (hstack : ∀ v ∈ map_visits a cols,
      host2.stack (v.world_x - a.left_edge) (v.world_y - a.top_edge)
        = host1.stack (v.world_x - a.left_edge) (v.world_y - a.top_edge))
    (hrefl : ∀ v ∈ map_visits a cols, ∀ c, render_resolves E st a host1 v = some c →
      printable_char_eq E c c = true) :
    st2.frame.cur_pos = 0 ∧ st2.frame.buffer = some [] := by
  apply render_twice_same_cells E st st1 st2 a host1 host2 cols hmap hnodup hsize hforce
    hto hok1 hok2
  intro v hv
  obtain ⟨sA, lbA, hsfA, hlbA, _, _⟩ := render_map_ok E st st1 a host1 cols hmap hok1
  obtain ⟨sB, lbB, hsfB, hlbB, _, _⟩ := render_map_ok E st1 st2 a host2 cols hmap hok2
  have h1 : render_resolves E st a host1 v
      = some (plain_cell E (v.world_x - a.left_edge) v.world_x v.world_y a.map v.pixel
          a.objects (host1.stack (v.world_x - a.left_edge) (v.world_y - a.top_edge))) := by
    unfold render_resolves
    rw [hsfA]
    simp only [hlbA, Option.some_bind]
    unfold resolve_visit
    exact create_lit_block_plain E _ _ _ _ _ _ _ _ _ _ _ (Or.inl hfancy)
  have h2 : render_resolves E st1 a host2 v
      = some (plain_cell E (v.world_x - a.left_edge) v.world_x v.world_y a.map v.pixel
          a.objects (host1.stack (v.world_x - a.left_edge) (v.world_y - a.top_edge))) := by
    unfold render_resolves
    rw [hsfB]
    simp only [hlbB, Option.some_bind]
    unfold resolve_visit
    rw [hstack v hv]
    exact create_lit_block_plain E _ _ _ _ _ _ _ _ _ _ _ (Or.inl hfancy)
  exact ⟨_, h1, h2, hrefl v hv _ h1⟩

/-- C1: the code at the failing input.  Two renders in a row of the 1 x 1
viewport over the map `{0: ['#']}`, with the same arguments, terminal output on
and `force_redraw` false, both succeed.  The block `#` has no background
colour, so `create_lit_block` writes only the mark `-1` to `bg.r` and leaves
`bg.g` and `bg.b` of the local `printable_char` as the stack holds them.  The
first call writes the cell with the background `(-1, 0, 0)`.  When the stack
holds `(1, 0)` in the two components in the second call, `printable_char_eq`
finds the cell changed and the second call appends it again: at the flush its
write cursor is `16` and the buffer holds the cell with the background
`(-1, 1, 0)`.  When the stack holds the same values in both calls, the second
call appends nothing. -/
theorem render_twice_unset_background_emits_again :
    (demoArgs 1 0 false).redraw_all = false
      ∧ (demoArgs 1 0 false).settings.terminal_output > 0
      ∧ (render_map demoEnv State.initial (demoArgs 1 0 false) demoHost).1 = Outcome.ok
      ∧ (render_map demoEnv State.initial (demoArgs 1 0 false) demoHost).2.frame.buffer
        = some [⟨0, 0, ⟨35, white, ⟨Flt.fin (-1), Flt.fin 0, Flt.fin 0⟩, 0⟩⟩]
      ∧ (render_map demoEnv (render_map demoEnv State.initial (demoArgs 1 0 false) demoHost).2
          (demoArgs 1 0 false) demoHostStale).1 = Outcome.ok
      ∧ (render_map demoEnv (render_map demoEnv State.initial (demoArgs 1 0 false) demoHost).2
          (demoArgs 1 0 false) demoHostStale).2.frame.cur_pos = 16
      ∧ (render_map demoEnv (render_map demoEnv State.initial (demoArgs 1 0 false) demoHost).2
          (demoArgs 1 0 false) demoHostStale).2.frame.buffer
        = some [⟨0, 0, ⟨35, white, ⟨Flt.fin (-1), Flt.fin 1, Flt.fin 0⟩, 0⟩⟩]
      ∧ (render_map demoEnv (render_map demoEnv State.initial (demoArgs 1 0 false) demoHost).2
          (demoArgs 1 0 false) { demoHost with wprintf := 0 }).1 = Outcome.ok
      ∧ (render_map demoEnv (render_map demoEnv State.initial (demoArgs 1 0 false) demoHost).2
          (demoArgs 1 0 false) { demoHost with wprintf := 0 }).2.frame.cur_pos = 0
      ∧ (render_map demoEnv (render_map demoEnv State.initial (demoArgs 1 0 false) demoHost).2
          (demoArgs 1 0 false) { demoHost with wprintf := 0 }).2.frame.buffer = some [] := by
  decide!

end Pycraft
